import Mathlib

/-!
# Clash.Meta: resolver, tunnel dispatch and composite rules

A shallow embedding of `component/resolver/resolver.go`, of the metadata
prehandler, the mode switch and the rule matching of `tunnel/tunnel.go`, and
of the composite rules that `rules/logic/logic_test.go` tests.

Go functions that talk to the outside world (a `Resolver` value, the system
resolver, `math/rand`, the process table) are embedded in state-passing
style over a `Trace`: the chronological list of the external calls made so
far.  Every external call appends one `Event`, and the answer of an external
collaborator is a function of the trace at the time of the call, so two calls
with the same arguments may answer differently.  A Go function that can
panic returns `none` for its value.
-/

set_option autoImplicit false

namespace Clash

/-! ## Data model -/

/-- Values of `netip.Addr`: the zero value, an IPv4 address (32 bits) or an
IPv6 address (128 bits, with a zone). -/
inductive Addr where
  | zero
  | v4 (a : Nat)
  | v6 (a : Nat) (zone : String)
  deriving DecidableEq, Repr

/-- Go `netip.Addr.IsValid`: false exactly for the zero value. -/
def Addr.IsValid : Addr → Bool
  | .zero => false
  | _ => true

/-- Go `netip.Addr.Is4`. -/
def Addr.Is4 : Addr → Bool
  | .v4 _ => true
  | _ => false

/-- Go `netip.Addr.Is6`: an IPv6 address, IPv4-mapped ones included. -/
def Addr.Is6 : Addr → Bool
  | .v6 _ _ => true
  | _ => false

/-- Go `netip.Addr.Is4In6`: an IPv6 address in `::ffff:0:0/96`
(`hi == 0 && lo>>32 == 0xffff`). -/
def Addr.Is4In6 : Addr → Bool
  | .v6 a _ => a / 2 ^ 64 % 2 ^ 64 == 0 && a % 2 ^ 64 / 2 ^ 32 == 0xffff
  | _ => false

/-- The error values of package `resolver`, and any other error. -/
inductive Err where
  | ErrIPNotFound
  | ErrIPVersion
  | ErrIPv6Disabled
  | other (msg : String)
  deriving DecidableEq, Repr

/-- A Go `error`: `none` is `nil`. -/
abbrev Error := Option Err

/-- Go `C.NetWork`. -/
inductive NetWork where
  | TCP
  | UDP
  deriving DecidableEq, Repr

/-- Go `NetWork.String`. -/
def NetWork.String_ : NetWork → String
  | .TCP => "tcp"
  | .UDP => "udp"

/-- Go `C.AtypIPv4`, `C.AtypDomainName`, `C.AtypIPv6`. -/
inductive AddrType where
  | AtypIPv4
  | AtypDomainName
  | AtypIPv6
  deriving DecidableEq, Repr

/-- Go `C.DNSNormal`, `C.DNSFakeIP`, `C.DNSMapping`. -/
inductive DNSMode where
  | DNSNormal
  | DNSFakeIP
  | DNSMapping
  deriving DecidableEq, Repr

/-- Go `C.Metadata`, the per-flow descriptor.  `Uid` is a `*int32`. -/
structure Metadata where
  NetWork : NetWork
  Type_ : Nat
  SrcIP : Addr
  DstIP : Addr
  SrcPort : String
  DstPort : String
  AddrType : AddrType
  Host : String
  DNSMode : DNSMode
  Uid : Option Int
  Process : String
  ProcessPath : String
  deriving DecidableEq, Repr

/-- The methods of the `Resolver` interface. -/
inductive Method where
  | ResolveIP
  | ResolveIPv4
  | ResolveIPv6
  | ResolveAllIP
  | ResolveAllIPv4
  | ResolveAllIPv6
  deriving DecidableEq, Repr

/-- One call that leaves the function under study. -/
inductive Event where
  /-- `DefaultHosts.Search(host)` -/
  | hostsSearch (host : String)
  /-- a method of a `Resolver` value called on `host` -/
  | resolverCall (m : Method) (host : String)
  /-- `net.DefaultResolver.LookupIP(ctx, network, host)` -/
  | LookupIP (network host : String)
  /-- `rand.Intn(n)` (also the draws made by `rand.Shuffle`) -/
  | Intn (n : Nat)
  /-- `resolver.ResolveIP(host)` called by the tunnel -/
  | ResolveIP (host : String)
  /-- `P.FindProcessName(network, srcIP, srcPort)` -/
  | FindProcessName (network : String) (srcIP : Addr) (srcPort : Nat)
  /-- `rule.Match(metadata)` called on this snapshot of the metadata -/
  | ruleMatch (metadata : Metadata)
  deriving DecidableEq, Repr

/-- The external calls made so far, oldest first. -/
abbrev Trace := List Event

/-- Go interface `Resolver`.  Each method answers from the call history and
the host; the `ResolveAll*` methods return a Go `(ips, err)` pair. -/
structure Resolver where
  ResolveIP : Trace → String → Addr × Error
  ResolveIPv4 : Trace → String → Addr × Error
  ResolveIPv6 : Trace → String → Addr × Error
  ResolveAllIP : Trace → String → List Addr × Error
  ResolveAllIPv4 : Trace → String → List Addr × Error
  ResolveAllIPv6 : Trace → String → List Addr × Error

/-- A Go `net.IP`: a byte slice. -/
abbrev NetIP := List Nat

/-- The package-level variables of `resolver` together with the library
functions it calls.  `DefaultHosts host` is the data of the node found by
`DefaultHosts.Search(host)`, `ParseAddr` is `netip.ParseAddr` (`none` when
it returns an error), `LookupIP` is `net.DefaultResolver.LookupIP`,
`IpToAddr` is `nnip.IpToAddr` and `Intn` is the random source behind
`rand.Intn`. -/
structure Globals where
  DefaultResolver : Option Resolver
  ProxyServerHostResolver : Option Resolver
  DisableIPv6 : Bool
  DefaultHosts : String → Option Addr
  ParseAddr : String → Option Addr
  LookupIP : Trace → String → String → List NetIP × Error
  IpToAddr : NetIP → Addr
  Intn : Trace → Nat → Nat

/-! ## `component/resolver/resolver.go` -/

/-- Go `rand.Intn(n)` for `0 < n`: a logged draw in `[0, n)`. -/
def Intn (g : Globals) (n : Nat) (tr : Trace) : Nat × Trace :=
  (g.Intn tr n % n, tr ++ [Event.Intn n])

/-- The closure passed to `rand.Shuffle`:
`addrs[i], addrs[j] = addrs[j], addrs[i]`. -/
def swap (addrs : List Addr) (i j : Nat) : List Addr :=
  (addrs.set i (addrs.getD j Addr.zero)).set j (addrs.getD i Addr.zero)

/-- The loop of Go `rand.Shuffle`, `for ; i > 0; i-- { j := Intn(i+1);
swap(i, j) }`, started at `i`. -/
def shuffleFrom (g : Globals) : Nat → List Addr → Trace → List Addr × Trace
  | 0, addrs, tr => (addrs, tr)
  | i + 1, addrs, tr =>
    let (j, tr1) := Intn g (i + 2) tr
    shuffleFrom g i (swap addrs (i + 1) j) tr1

/-- Go `rand.Shuffle(len(addrs), swap)`. -/
def Shuffle (g : Globals) (addrs : List Addr) (tr : Trace) : List Addr × Trace :=
  shuffleFrom g (addrs.length - 1) addrs tr

/-- The system-resolver block shared by the three `ResolveAll*WithResolver`
functions: `net.DefaultResolver.LookupIP(ctx, network, host)`, the two
failure returns, the conversion with `nnip.IpToAddr` and the shuffle. -/
def systemLookup (g : Globals) (network host : String) (tr : Trace) :
    (List Addr × Error) × Trace :=
  let tr1 := tr ++ [Event.LookupIP network host]
  match g.LookupIP tr network host with
  | (_, some err) => (([], some err), tr1)
  | (ipAddrs, none) =>
    if ipAddrs.length = 0 then (([], some Err.ErrIPNotFound), tr1)
    else
      let addrs := ipAddrs.map g.IpToAddr
      let (addrs1, tr2) := Shuffle g addrs tr1
      ((addrs1, none), tr2)

/-- A call `r.m(host)` of a `ResolveAll*` method of a resolver value. -/
def callAll (m : Method) (f : Trace → String → List Addr × Error) (host : String)
    (tr : Trace) : (List Addr × Error) × Trace :=
  (f tr host, tr ++ [Event.resolverCall m host])

/-- Go `ResolveAllIPv6WithResolver`. -/
def ResolveAllIPv6WithResolver (g : Globals) (host : String) (r : Option Resolver)
    (tr : Trace) : (List Addr × Error) × Trace :=
  if g.DisableIPv6 then (([], some Err.ErrIPv6Disabled), tr)
  else
    let tr1 := tr ++ [Event.hostsSearch host]
    match (g.DefaultHosts host).filter Addr.Is6 with
    | some ip => (([ip], none), tr1)
    | none =>
      match g.ParseAddr host with
      | some ip =>
        if ip.Is6 then (([ip], none), tr1) else (([], some Err.ErrIPVersion), tr1)
      | none =>
        match r with
        | some r => callAll Method.ResolveAllIPv6 r.ResolveAllIPv6 host tr1
        | none =>
          if g.DefaultResolver.isNone then systemLookup g "ip6" host tr1
          else (([], some Err.ErrIPNotFound), tr1)

/-- Go `ResolveAllIPv4WithResolver`. -/
def ResolveAllIPv4WithResolver (g : Globals) (host : String) (r : Option Resolver)
    (tr : Trace) : (List Addr × Error) × Trace :=
  let tr1 := tr ++ [Event.hostsSearch host]
  match (g.DefaultHosts host).filter Addr.Is4 with
  | some ip => (([ip], none), tr1)
  | none =>
    match g.ParseAddr host with
    | some ip =>
      if ip.Is4 || ip.Is4In6 then (([ip], none), tr1)
      else (([], some Err.ErrIPVersion), tr1)
    | none =>
      match r with
      | some r => callAll Method.ResolveAllIPv4 r.ResolveAllIPv4 host tr1
      | none =>
        if g.DefaultResolver.isNone then systemLookup g "ip4" host tr1
        else (([], some Err.ErrIPNotFound), tr1)

/-- Go `ResolveAllIPv4`. -/
def ResolveAllIPv4 (g : Globals) (host : String) (tr : Trace) :
    (List Addr × Error) × Trace :=
  ResolveAllIPv4WithResolver g host g.DefaultResolver tr

/-- Go `ResolveAllIPv6`. -/
def ResolveAllIPv6 (g : Globals) (host : String) (tr : Trace) :
    (List Addr × Error) × Trace :=
  ResolveAllIPv6WithResolver g host g.DefaultResolver tr

/-- Go `ResolveAllIPWithResolver`. -/
def ResolveAllIPWithResolver (g : Globals) (host : String) (r : Option Resolver)
    (tr : Trace) : (List Addr × Error) × Trace :=
  let tr1 := tr ++ [Event.hostsSearch host]
  match g.DefaultHosts host with
  | some data => (([data], none), tr1)
  | none =>
    match g.ParseAddr host with
    | some ip => (([ip], none), tr1)
    | none =>
      match r with
      | some r =>
        if g.DisableIPv6 then callAll Method.ResolveAllIPv4 r.ResolveAllIPv4 host tr1
        else callAll Method.ResolveAllIP r.ResolveAllIP host tr1
      | none =>
        if g.DisableIPv6 then ResolveAllIPv4 g host tr1
        else if g.DefaultResolver.isNone then systemLookup g "ip" host tr1
        else (([], some Err.ErrIPNotFound), tr1)

/-- Go `ResolveAllIP`. -/
def ResolveAllIP (g : Globals) (host : String) (tr : Trace) :
    (List Addr × Error) × Trace :=
  ResolveAllIPWithResolver g host g.DefaultResolver tr

/-- The selection `ips[rand.Intn(len(ips))]` after a `ResolveAll*` call that
returned a nil error; `rand.Intn(0)` panics.  With a non-nil error the
result is `netip.Addr{}, err`. -/
def pickOne (g : Globals) (res : (List Addr × Error) × Trace) :
    Option (Addr × Error) × Trace :=
  match res with
  | ((ips, none), tr1) =>
    if ips.length = 0 then (none, tr1)
    else
      let (i, tr2) := Intn g ips.length tr1
      (some (ips.getD i Addr.zero, none), tr2)
  | ((_, some err), tr1) => (some (Addr.zero, some err), tr1)

/-- Go `ResolveIPv4WithResolver`. -/
def ResolveIPv4WithResolver (g : Globals) (host : String) (r : Option Resolver)
    (tr : Trace) : Option (Addr × Error) × Trace :=
  pickOne g (ResolveAllIPv4WithResolver g host r tr)

/-- Go `ResolveIPv6WithResolver`. -/
def ResolveIPv6WithResolver (g : Globals) (host : String) (r : Option Resolver)
    (tr : Trace) : Option (Addr × Error) × Trace :=
  pickOne g (ResolveAllIPv6WithResolver g host r tr)

/-- Go `ResolveIPWithResolver`: IPv4 first, IPv6 when that returned an
error. -/
def ResolveIPWithResolver (g : Globals) (host : String) (r : Option Resolver)
    (tr : Trace) : Option (Addr × Error) × Trace :=
  match ResolveIPv4WithResolver g host r tr with
  | (none, tr1) => (none, tr1)
  | (some (ip, none), tr1) => (some (ip, none), tr1)
  | (some (_, some _), tr1) => ResolveIPv6WithResolver g host r tr1

/-- Go `ResolveIP`. -/
def ResolveIP (g : Globals) (host : String) (tr : Trace) :
    Option (Addr × Error) × Trace :=
  ResolveIPWithResolver g host g.DefaultResolver tr

/-- Go `ResolveIPv4`. -/
def ResolveIPv4 (g : Globals) (host : String) (tr : Trace) :
    Option (Addr × Error) × Trace :=
  ResolveIPv4WithResolver g host g.DefaultResolver tr

/-- Go `ResolveIPv6`. -/
def ResolveIPv6 (g : Globals) (host : String) (tr : Trace) :
    Option (Addr × Error) × Trace :=
  ResolveIPv6WithResolver g host g.DefaultResolver tr

/-- Go `ResolveIPv4ProxyServerHost`. -/
def ResolveIPv4ProxyServerHost (g : Globals) (host : String) (tr : Trace) :
    Option (Addr × Error) × Trace :=
  match g.ProxyServerHostResolver with
  | some r =>
    match ResolveIPv4WithResolver g host (some r) tr with
    | (none, tr1) => (none, tr1)
    | (some (_, some _), tr1) => ResolveIPv4 g host tr1
    | (some (ip, none), tr1) => (some (ip, none), tr1)
  | none => ResolveIPv4 g host tr

/-- Go `ResolveIPv6ProxyServerHost`. -/
def ResolveIPv6ProxyServerHost (g : Globals) (host : String) (tr : Trace) :
    Option (Addr × Error) × Trace :=
  match g.ProxyServerHostResolver with
  | some r =>
    match ResolveIPv6WithResolver g host (some r) tr with
    | (none, tr1) => (none, tr1)
    | (some (_, some _), tr1) => ResolveIPv6 g host tr1
    | (some (ip, none), tr1) => (some (ip, none), tr1)
  | none => ResolveIPv6 g host tr

/-- Go `ResolveProxyServerHost`; its success branch returns `ip, err` with
`err == nil`. -/
def ResolveProxyServerHost (g : Globals) (host : String) (tr : Trace) :
    Option (Addr × Error) × Trace :=
  match g.ProxyServerHostResolver with
  | some r =>
    match ResolveIPWithResolver g host (some r) tr with
    | (none, tr1) => (none, tr1)
    | (some (_, some _), tr1) => ResolveIP g host tr1
    | (some (ip, none), tr1) => (some (ip, none), tr1)
  | none => ResolveIP g host tr

/-- Go `ResolveAllIPv6ProxyServerHost`. -/
def ResolveAllIPv6ProxyServerHost (g : Globals) (host : String) (tr : Trace) :
    (List Addr × Error) × Trace :=
  match g.ProxyServerHostResolver with
  | some r => ResolveAllIPv6WithResolver g host (some r) tr
  | none => ResolveAllIPv6 g host tr

/-- Go `ResolveAllIPv4ProxyServerHost`. -/
def ResolveAllIPv4ProxyServerHost (g : Globals) (host : String) (tr : Trace) :
    (List Addr × Error) × Trace :=
  match g.ProxyServerHostResolver with
  | some r => ResolveAllIPv4WithResolver g host (some r) tr
  | none => ResolveAllIPv4 g host tr

/-- Go `ResolveAllIPProxyServerHost`. -/
def ResolveAllIPProxyServerHost (g : Globals) (host : String) (tr : Trace) :
    (List Addr × Error) × Trace :=
  match g.ProxyServerHostResolver with
  | some r => ResolveAllIPWithResolver g host (some r) tr
  | none => ResolveAllIP g host tr

/-! ## `tunnel/tunnel.go`: rule matching -/

/-- Go `C.AdapterType`, with the adapter types that `match` tells apart. -/
inductive AdapterType where
  | Direct
  | Reject
  | Compatible
  | Pass
  | Other (tag : Nat)
  deriving DecidableEq, Repr

/-- Go interface `C.Proxy`, with the methods `match` calls.  `Unwrap` gives
the adapter a group delegates to for this metadata, `none` being `nil`. -/
inductive Proxy where
  | mk (Name : String) (Type_ : AdapterType) (SupportUDP : Bool)
      (Unwrap : Metadata → Option Proxy)

/-- Go `Proxy.Name`. -/
def Proxy.Name : Proxy → String
  | .mk n _ _ _ => n

/-- Go `Proxy.Type`. -/
def Proxy.Type_ : Proxy → AdapterType
  | .mk _ t _ _ => t

/-- Go `Proxy.SupportUDP`. -/
def Proxy.SupportUDP : Proxy → Bool
  | .mk _ _ u _ => u

/-- Go `Proxy.Unwrap`. -/
def Proxy.Unwrap : Proxy → Metadata → Option Proxy
  | .mk _ _ _ f => f

/-- Go interface `C.Rule`, with the methods `match` calls. -/
structure Rule where
  Match : Metadata → Bool
  Adapter : String
  ShouldResolveIP : Bool
  ShouldFindProcess : Bool

/-- The package-level variables of `tunnel` that `match` reads, the
variables of package `resolver`, and the library functions it calls:
`P.FindProcessName`, returning `(uid, path, err)`, and `filepath.Base`. -/
structure Tunnel where
  rules : List Rule
  proxies : String → Option Proxy
  alwaysFindProcess : Bool
  resolver : Globals
  FindProcessName : Trace → String → Addr → Nat → Int × String × Error
  Base : String → String

/-- Go `strconv.ParseUint(s, 10, 16)` with the error dropped: `0` when `s`
is empty or has a character that is not a decimal digit, and `65535` when
the number is out of range. -/
def ParseUint16 (s : String) : Nat :=
  if s.data.isEmpty || !s.data.all Char.isDigit then 0
  else
    let n := s.data.foldl (fun acc c => acc * 10 + (c.toNat - 48)) 0
    if n > 65535 then 65535 else n

/-- The metadata behind the pointer `match` receives, its two local flags,
and the trace. -/
structure MatchState where
  metadata : Metadata
  resolved : Bool
  processFound : Bool
  trace : Trace

/-- The values `match` returns: `(proxy, rule, err)`. -/
abbrev MatchReturn := Option Proxy × Option Rule × Error

/-- Go `shouldResolveIP`. -/
def shouldResolveIP (rule : Rule) (metadata : Metadata) : Bool :=
  rule.ShouldResolveIP && metadata.Host != "" && !metadata.DstIP.IsValid

/-- The first block of the loop body of `match`: the `if !resolved &&
shouldResolveIP(rule, metadata)` statement.  The flag of the result is
`false` when `resolver.ResolveIP` panicked. -/
def resolveStep (t : Tunnel) (rule : Rule) (s : MatchState) : Bool × MatchState :=
  if !s.resolved && shouldResolveIP rule s.metadata then
    match ResolveIP t.resolver s.metadata.Host
        (s.trace ++ [Event.ResolveIP s.metadata.Host]) with
    | (none, tr1) => (false, { s with trace := tr1 })
    | (some (_, some _), tr1) => (true, { s with resolved := true, trace := tr1 })
    | (some (ip, none), tr1) =>
      (true, { s with metadata := { s.metadata with DstIP := ip },
                      resolved := true, trace := tr1 })
  else (true, s)

/-- The second block of the loop body of `match`: the `if !processFound &&
(alwaysFindProcess || rule.ShouldFindProcess())` statement. -/
def processStep (t : Tunnel) (rule : Rule) (s : MatchState) : MatchState :=
  if !s.processFound && (t.alwaysFindProcess || rule.ShouldFindProcess) then
    let srcPort := ParseUint16 s.metadata.SrcPort
    let tr1 := s.trace ++
      [Event.FindProcessName s.metadata.NetWork.String_ s.metadata.SrcIP srcPort]
    match t.FindProcessName s.trace s.metadata.NetWork.String_ s.metadata.SrcIP srcPort with
    | (_, _, some _) => { s with trace := tr1 }
    | (uid, path, none) =>
      { s with
        metadata := { s.metadata with
          Process := t.Base path
          ProcessPath := path
          Uid := if uid != -1 then some uid else s.metadata.Uid }
        processFound := true
        trace := tr1 }
  else s

/-- The third block of the loop body of `match`, the `if
rule.Match(metadata)` statement: `some adapter` when it returns `adapter,
rule, nil`, and `none` when the loop goes on to the next rule. -/
def selectAdapter (t : Tunnel) (rule : Rule) (metadata : Metadata) : Option Proxy :=
  if rule.Match metadata then
    match t.proxies rule.Adapter with
    | none => none
    | some adapter =>
      if adapter.Type_ == AdapterType.Pass ||
          (match adapter.Unwrap metadata with
           | some p => p.Type_ == AdapterType.Pass
           | none => false) then none
      else if metadata.NetWork == NetWork.UDP && !adapter.SupportUDP then none
      else some adapter
  else none

/-- The loop body of `match` up to the call `rule.Match(metadata)`: the two
lookup blocks, then the call, logged with the metadata it sees.  The flag
is `false` when `resolver.ResolveIP` panicked. -/
def ruleStep (t : Tunnel) (rule : Rule) (s : MatchState) : Bool × MatchState :=
  match resolveStep t rule s with
  | (false, s1) => (false, s1)
  | (true, s1) =>
    let s2 := processStep t rule s1
    (true, { s2 with trace := s2.trace ++ [Event.ruleMatch s2.metadata] })

/-- The loop `for _, rule := range rules` of `match` and the return after
it.  The value is `none` when `resolver.ResolveIP` panicked. -/
def matchLoop (t : Tunnel) : List Rule → MatchState → Option MatchReturn × MatchState
  | [], s => (some (t.proxies "DIRECT", none, none), s)
  | rule :: rest, s =>
    match ruleStep t rule s with
    | (false, s1) => (none, s1)
    | (true, s1) =>
      match selectAdapter t rule s1.metadata with
      | some adapter => (some (some adapter, some rule, none), s1)
      | none => matchLoop t rest s1

/-- The statement `if node := resolver.DefaultHosts.Search(metadata.Host);
node != nil` at the head of `match`, run on the initial values of the
locals. -/
def hostsStep (t : Tunnel) (metadata : Metadata) (tr : Trace) : MatchState :=
  let tr1 := tr ++ [Event.hostsSearch metadata.Host]
  match t.resolver.DefaultHosts metadata.Host with
  | some data =>
    { metadata := { metadata with DstIP := data }, resolved := true,
      processFound := false, trace := tr1 }
  | none =>
    { metadata := metadata, resolved := false, processFound := false, trace := tr1 }

/-- Go `match`: the hosts-trie lookup, then the loop over `rules`.  The
second component holds the metadata after the call. -/
def match_ (t : Tunnel) (metadata : Metadata) (tr : Trace) :
    Option MatchReturn × MatchState :=
  matchLoop t t.rules (hostsStep t metadata tr)

/-! ## `tunnel/tunnel.go`: the metadata prehandler and the mode switch -/

/-- The functions of package `resolver` that `preHandleMetadata` calls and
whose file is not part of the sources (`MappingEnabled`, `FakeIPEnabled`,
`FindHostByIP`, returning `(host, exist)`, and `IsFakeIP`), and
`netip.Addr.String`, which formats the address of the error message. -/
structure Enhancer where
  MappingEnabled : Bool
  FakeIPEnabled : Bool
  FindHostByIP : Addr → String × Bool
  IsFakeIP : Addr → Bool
  AddrString : Addr → String

/-- Go `needLookupIP`. -/
def needLookupIP (e : Enhancer) (metadata : Metadata) : Bool :=
  e.MappingEnabled && metadata.Host == "" && metadata.DstIP.IsValid

/-- The first block of `preHandleMetadata`, "handle IP string on host": the
`if ip, err := netip.ParseAddr(metadata.Host); err == nil` statement. -/
def hostToIP (g : Globals) (metadata : Metadata) : Metadata :=
  match g.ParseAddr metadata.Host with
  | some ip =>
    { metadata with
      DstIP := ip
      Host := ""
      AddrType := if ip.Is4 then AddrType.AtypIPv4 else AddrType.AtypIPv6 }
  | none => metadata

/-- Go `preHandleMetadata`: the metadata after the call and the returned
error. -/
def preHandleMetadata (g : Globals) (e : Enhancer) (metadata : Metadata) :
    Metadata × Error :=
  let m1 := hostToIP g metadata
  if needLookupIP e m1 then
    match e.FindHostByIP m1.DstIP with
    | (host, true) =>
      let m2 := { m1 with
        Host := host
        AddrType := AddrType.AtypDomainName
        DNSMode := DNSMode.DNSMapping }
      if e.FakeIPEnabled then
        ({ m2 with DstIP := Addr.zero, DNSMode := DNSMode.DNSFakeIP }, none)
      else
        match g.DefaultHosts host with
        | some data => ({ m2 with DstIP := data }, none)
        | none => (m2, none)
    | (_, false) =>
      if e.IsFakeIP m1.DstIP then
        (m1, some (Err.other ("fake DNS record " ++ e.AddrString m1.DstIP ++ " missing")))
      else (m1, none)
  else (m1, none)

/-- Go `TunnelMode`: the values of the package variable `mode`. -/
inductive TunnelMode where
  | Global
  | Rule
  | Direct
  deriving DecidableEq, Repr

/-- Go `resolveMetadata`, with the package variable `mode` as an argument:
the returned `(proxy, rule, err)` (`none` when `match` panicked), the
metadata after the call and the trace. -/
def resolveMetadata (t : Tunnel) (mode : TunnelMode) (metadata : Metadata) (tr : Trace) :
    Option MatchReturn × Metadata × Trace :=
  match mode with
  | TunnelMode.Direct => (some (t.proxies "DIRECT", none, none), metadata, tr)
  | TunnelMode.Global => (some (t.proxies "GLOBAL", none, none), metadata, tr)
  | TunnelMode.Rule =>
    ((match_ t metadata tr).1, (match_ t metadata tr).2.metadata,
      (match_ t metadata tr).2.trace)

/-! ## `rules/logic`: composite rules

Of this package the sources hold `logic_test.go` only.  The rules and their
parser are modelled from the specification; `ParseRule` is the function of
the test file, restricted to the rule types modelled here. -/

/-- Modelled from the spec: the constructor `NewDomain` of package
`rules/common` is missing; a `DOMAIN` rule matches the flows whose host is
its payload and needs neither resolution nor process lookup. -/
def NewDomain (domain adapter : String) : Rule where
  Match := fun m => m.Host == domain
  Adapter := adapter
  ShouldResolveIP := false
  ShouldFindProcess := false

/-- Modelled from the spec: the constructor `NewMatch` of package
`rules/common` is missing; a rule of type `MATCH` always matches. -/
def NewMatch (adapter : String) : Rule where
  Match := fun _ => true
  Adapter := adapter
  ShouldResolveIP := false
  ShouldFindProcess := false

/-- Modelled from the spec: the `NETWORK` rule of package `rules/common` is
missing; it matches the flows of its network. -/
def networkRule (network : NetWork) (adapter : String) : Rule where
  Match := fun m => m.NetWork == network
  Adapter := adapter
  ShouldResolveIP := false
  ShouldFindProcess := false

/-- Modelled from the spec: the constructor `NewNetworkType` of package
`rules/common` is missing; the payload of a `NETWORK` rule is `TCP` or
`UDP`, any other payload is a parse error (`none`). -/
def NewNetworkType (network adapter : String) : Option Rule :=
  if network = "TCP" then some (networkRule NetWork.TCP adapter)
  else if network = "UDP" then some (networkRule NetWork.UDP adapter)
  else none

/-- Modelled from the spec: a port is a non-empty string of decimal digits
that denotes a number up to 65535 (the port parser of `rules/common` is
missing). -/
def parsePort (s : List Char) : Option Nat :=
  if s.isEmpty || !s.all Char.isDigit then none
  else
    let n := s.foldl (fun acc c => acc * 10 + (c.toNat - 48)) 0
    if n > 65535 then none else some n

/-- Modelled from the spec: the range parser of `rules/common` is missing;
a port payload is a single port `p`, the range from `p` to `p`, or an
inclusive range `lo-hi`. -/
def parsePortRange (s : List Char) : Option (Nat × Nat) :=
  match s.span (fun c => c != '-') with
  | (lo, []) => (parsePort lo).map (fun p => (p, p))
  | (lo, _ :: hi) =>
    match parsePort lo, parsePort hi with
    | some l, some h => some (l, h)
    | _, _ => none

/-- Modelled from the spec: the port rule of package `rules/common` is
missing; it matches the flows whose source (`isSource`) or destination port
is a port between `lo` and `hi`, both included. -/
def portRule (lo hi : Nat) (isSource : Bool) (adapter : String) : Rule where
  Match := fun m =>
    match parsePort (if isSource then m.SrcPort else m.DstPort).data with
    | some p => decide (lo ≤ p) && decide (p ≤ hi)
    | none => false
  Adapter := adapter
  ShouldResolveIP := false
  ShouldFindProcess := false

/-- Modelled from the spec: the constructor `NewPort` of package
`rules/common` is missing; a `SRC-PORT` or `DST-PORT` rule is the port rule
of the range of its payload, and an ill-formed payload is a parse error
(`none`). -/
def NewPort (payload adapter : String) (isSource : Bool) : Option Rule :=
  (parsePortRange payload.data).map fun range => portRule range.1 range.2 isSource adapter

/-- Modelled from the spec: the method `Match` of the `AND` rule is missing;
it evaluates the sub-rules in order and short-circuits on the first that
does not match. -/
def andMatch : List Rule → Metadata → Bool
  | [], _ => true
  | rule :: rest, m => if rule.Match m then andMatch rest m else false

/-- Modelled from the spec: the method `Match` of the `OR` rule is missing;
it evaluates the sub-rules in order and short-circuits on the first that
matches. -/
def orMatch : List Rule → Metadata → Bool
  | [], _ => false
  | rule :: rest, m => if rule.Match m then true else orMatch rest m

/-- Modelled from the spec: the declaration of the type `ParseRuleFunc`, the
parse callback that `NewAND`, `NewOR` and `NewNOT` take, is missing; here
type, payload, target and parameters give a rule or a parse error (`none`),
and the sub-rule table is left out. -/
abbrev ParseRuleFunc := String → String → String → List String → Option Rule

/-- Modelled from the spec: the nesting depth after reading the characters,
from depth `d`; `none` when a `)` closes nothing. -/
def scanDepth : List Char → Nat → Option Nat
  | [], d => some d
  | c :: cs, d =>
    if c = '(' then scanDepth cs (d + 1)
    else if c = ')' then
      match d with
      | 0 => none
      | d1 + 1 => scanDepth cs d1
    else scanDepth cs d

/-- Modelled from the spec: the parentheses of the text match. -/
def balanced (cs : List Char) : Bool :=
  scanDepth cs 0 == some 0

/-- Modelled from the spec: the text between the outer parentheses, when
the text is enclosed in one matching pair. -/
def stripOuter (cs : List Char) : Option (List Char) :=
  match cs with
  | '(' :: rest =>
    if rest.getLast? == some ')' && balanced rest.dropLast then some rest.dropLast
    else none
  | _ => none

/-- Modelled from the spec: the text cut at the commas of nesting depth 0;
`cur` holds the current piece, reversed. -/
def splitTop : List Char → Nat → List Char → List (List Char)
  | [], _, cur => [cur.reverse]
  | c :: cs, d, cur =>
    if c = ',' && d = 0 then cur.reverse :: splitTop cs 0 []
    else if c = '(' then splitTop cs (d + 1) (c :: cur)
    else if c = ')' then splitTop cs (d - 1) (c :: cur)
    else splitTop cs d (c :: cur)

/-- Modelled from the spec: one item `(TYPE,PAYLOAD)` of a composite
payload, handed to the rule parser; an item that is not enclosed in
parentheses or has no comma is a parse error. -/
def payloadToRule (parse : ParseRuleFunc) (item : List Char) : Option Rule :=
  match stripOuter item with
  | none => none
  | some body =>
    match body.span (fun c => c != ',') with
    | (_, []) => none
    | (tp, _ :: payload) => parse (String.mk tp) (String.mk payload) "" []

/-- Modelled from the spec: the payload parser of package `rules/logic` is
missing.  A composite payload has the form `((TYPE,PAYLOAD),…)`: its
parentheses must match, the outer pair is taken off, and the items between
the commas of depth 0 are parsed in order; an ill-formed payload or item is
a parse error (`none`), and so is the empty payload.  A payload that is not
enclosed in one outer pair is read as the list of its items, as the third
payload of `TestAND` requires of the payload `(DOMAIN,baidu.com),(NETWORK,TCP)`
of its nested `AND`. -/
def parseRuleByPayload (payload : String) (parse : ParseRuleFunc) : Option (List Rule) :=
  if balanced payload.data then
    let inner := (stripOuter payload.data).getD payload.data
    (splitTop inner 0 []).mapM (payloadToRule parse)
  else none

/-- Modelled from the spec: the constructor `NewAND` is missing.  The rule
matches when all sub-rules do, and needs resolution or process lookup when
one of them does. -/
def NewAND (payload adapter : String) (parse : ParseRuleFunc) : Option Rule :=
  (parseRuleByPayload payload parse).map fun rules =>
    { Match := andMatch rules
      Adapter := adapter
      ShouldResolveIP := rules.any (fun r => r.ShouldResolveIP)
      ShouldFindProcess := rules.any (fun r => r.ShouldFindProcess) }

/-- Modelled from the spec: the constructor `NewOR` is missing.  The rule
matches when one sub-rule does, and needs resolution or process lookup when
one of them does. -/
def NewOR (payload adapter : String) (parse : ParseRuleFunc) : Option Rule :=
  (parseRuleByPayload payload parse).map fun rules =>
    { Match := orMatch rules
      Adapter := adapter
      ShouldResolveIP := rules.any (fun r => r.ShouldResolveIP)
      ShouldFindProcess := rules.any (fun r => r.ShouldFindProcess) }

/-- Modelled from the spec: the constructor `NewNOT` is missing.  The
payload must hold exactly one sub-rule, and the rule negates it. -/
def NewNOT (payload adapter : String) (parse : ParseRuleFunc) : Option Rule :=
  match parseRuleByPayload payload parse with
  | some [rule] =>
    some { Match := fun m => !rule.Match m
           Adapter := adapter
           ShouldResolveIP := rule.ShouldResolveIP
           ShouldFindProcess := rule.ShouldFindProcess }
  | _ => none

/-- Go `ParseRule` of `logic_test.go`, for the rule types modelled above;
`depth` bounds the nesting of composite rules, and a composite rule nested
deeper is a parse error. -/
def ParseRule : Nat → ParseRuleFunc
  | 0 => fun tp payload target _ =>
    if tp = "DOMAIN" then some (NewDomain payload target)
    else if tp = "SRC-PORT" then NewPort payload target true
    else if tp = "DST-PORT" then NewPort payload target false
    else if tp = "NETWORK" then NewNetworkType payload target
    else if tp = "MATCH" then some (NewMatch target)
    else none
  | depth + 1 => fun tp payload target _ =>
    if tp = "DOMAIN" then some (NewDomain payload target)
    else if tp = "SRC-PORT" then NewPort payload target true
    else if tp = "DST-PORT" then NewPort payload target false
    else if tp = "NETWORK" then NewNetworkType payload target
    else if tp = "AND" then NewAND payload target (ParseRule depth)
    else if tp = "OR" then NewOR payload target (ParseRule depth)
    else if tp = "NOT" then NewNOT payload target (ParseRule depth)
    else if tp = "MATCH" then some (NewMatch target)
    else none

/-! ## `hub/executor/executor.go`: the IPv6 switches -/

/-- The fields of `config.DNS` that `updateDNS` reads for the IPv6 switch. -/
structure DNS where
  Enable : Bool
  IPv6 : Bool

/-- The field of `config.General` that `updateGeneral` reads for the IPv6
switch. -/
structure General where
  IPv6 : Bool

/-- The package variables `resolver.DisableIPv6` and `dialer.DisableIPv6`. -/
structure Switches where
  resolverDisableIPv6 : Bool
  dialerDisableIPv6 : Bool
  deriving DecidableEq, Repr

/-- Go `updateDNS`, as far as it writes the IPv6 switches: the assignment to
`resolver.DisableIPv6` in either branch of `if !c.Enable`. -/
def updateDNS (c : DNS) (generalIPv6 : Bool) (s : Switches) : Switches :=
  if !c.Enable then { s with resolverDisableIPv6 := !generalIPv6 }
  else { s with resolverDisableIPv6 := !c.IPv6 }

/-- Go `updateGeneral`, as far as it writes the IPv6 switches: the
assignment to `dialer.DisableIPv6` and the `if !dialer.DisableIPv6`
statement after it. -/
def updateGeneral (general : General) (s : Switches) : Switches :=
  let s1 := { s with dialerDisableIPv6 := !general.IPv6 }
  if !s1.dialerDisableIPv6 then s1
  else { s1 with resolverDisableIPv6 := true }

/-- Go `ApplyConfig`, as far as it writes the IPv6 switches:
`updateDNS(cfg.DNS, cfg.General.IPv6)`, then `updateGeneral(cfg.General,
force)`; no step between or after them writes the switches. -/
def ApplyConfig (dns : DNS) (general : General) (s : Switches) : Switches :=
  updateGeneral general (updateDNS dns general.IPv6 s)

/-! ## `listener/listener.go`: listener addresses -/

/-- Go `fmt.Sprintf("%d", port)` for a port that is not negative. -/
def formatPort (port : Nat) : String :=
  String.mk (Nat.toDigits 10 port)

/-- Go `genAddr`. -/
def genAddr (host : String) (port : Nat) (allowLan : Bool) : String :=
  if allowLan then
    if host = "*" then ":" ++ formatPort port
    else host ++ ":" ++ formatPort port
  else "127.0.0.1:" ++ formatPort port

/-- Go `net.SplitHostPort`: host and port of `host:port`, `host%zone:port`,
`[host]:port` or `[host%zone]:port`, `none` when it returns an error.  The
port starts after the last colon; a host in brackets must end just before
that colon; a host without brackets must hold no colon; and no bracket may
stand elsewhere. -/
def SplitHostPort (hostport : String) : Option (String × String) :=
  match hostport.data.reverse.span (fun c => c != ':') with
  | (_, []) => none
  | (portRev, _ :: hostRev) =>
    match hostport.data with
    | '[' :: rest =>
      match rest.span (fun c => c != ']') with
      | (_, []) => none
      | (inner, _ :: after) =>
        if after = ':' :: portRev.reverse then
          if rest.contains '[' || after.contains ']' then none
          else some (String.mk inner, String.mk portRev.reverse)
        else none
    | _ =>
      if hostRev.reverse.contains ':' then none
      else if hostport.data.contains '[' || hostport.data.contains ']' then none
      else some (String.mk hostRev.reverse, String.mk portRev.reverse)

/-- Go `portIsZero`. -/
def portIsZero (addr : String) : Bool :=
  match SplitHostPort addr with
  | none => true
  | some (_, port) => port == "0" || port == ""

/-! ## `listener/listener.go`: the TUN configuration -/

/-- Fields of `config.Tun` that `hasTunConfigChange` reads. `H` is the element
type of `DNSHijack` (`netip.AddrPort`) and `P` the element type of the four
address lists (`ListenPrefix`); a Go slice is the list of its elements. -/
structure Tun (H P : Type) where
  Enable : Bool
  Device : String
  Stack : Nat
  AutoRoute : Bool
  AutoDetectInterface : Bool
  MTU : Nat
  StrictRoute : Bool
  EndpointIndependentNat : Bool
  UDPTimeout : Int
  DNSHijack : List H
  Inet4Address : List P
  Inet6Address : List P
  Inet4RouteAddress : List P
  Inet6RouteAddress : List P
  IncludeUID : List Nat
  IncludeUIDRange : List String
  ExcludeUID : List Nat
  ExcludeUIDRange : List String
  IncludeAndroidUser : List Int
  IncludePackage : List String
  ExcludePackage : List String
  deriving DecidableEq

/-- Zero value `config.Tun{}`. -/
def Tun.zero {H P : Type} : Tun H P :=
  { Enable := false, Device := "", Stack := 0, AutoRoute := false,
    AutoDetectInterface := false, MTU := 0, StrictRoute := false,
    EndpointIndependentNat := false, UDPTimeout := 0, DNSHijack := [],
    Inet4Address := [], Inet6Address := [], Inet4RouteAddress := [],
    Inet6RouteAddress := [], IncludeUID := [], IncludeUIDRange := [],
    ExcludeUID := [], ExcludeUIDRange := [], IncludeAndroidUser := [],
    IncludePackage := [], ExcludePackage := [] }

/-- Insertion of `x` in front of a list ordered by `less`: `x` moves behind
the elements that are less than it, and stays ahead of the first element
that is not. -/
def insertBy {α : Type} (less : α → α → Bool) (x : α) : List α → List α
  | [] => [x]
  | y :: ys => if less y x then y :: insertBy less x ys else x :: y :: ys

/-- Result of `sort.Slice(xs, less)`, as the insertion sort that the library
runs on a slice of fewer than 12 elements: elements that `less` does not
order keep their places. Where `less` is a strict total order on the
elements, as `<` on numbers and strings is, every sorting procedure yields
this list. -/
def sortSlice {α : Type} (less : α → α → Bool) (xs : List α) : List α :=
  xs.foldr (insertBy less) []

/-- Model of `hasTunConfigChange(tunConf *config.Tun)`: the returned flag,
and the configuration behind the pointer as the call leaves it (the lists are
sorted in place unless the call returns before the sorting). `addrLess a b`
is `a.Addr().Less(b.Addr())` and `buildString p` is `p.Build().String()`. -/
def hasTunConfigChange {H P : Type} [DecidableEq H] [DecidableEq P]
    (addrLess : H → H → Bool) (buildString : P → String)
    (LastTunConf tunConf : Tun H P) : Bool × Tun H P :=
  if LastTunConf.Enable != tunConf.Enable ||
      LastTunConf.Device != tunConf.Device ||
      LastTunConf.Stack != tunConf.Stack ||
      LastTunConf.AutoRoute != tunConf.AutoRoute ||
      LastTunConf.AutoDetectInterface != tunConf.AutoDetectInterface ||
      LastTunConf.MTU != tunConf.MTU ||
      LastTunConf.StrictRoute != tunConf.StrictRoute ||
      LastTunConf.EndpointIndependentNat != tunConf.EndpointIndependentNat ||
      LastTunConf.UDPTimeout != tunConf.UDPTimeout then
    (true, tunConf)
  else if LastTunConf.DNSHijack.length != tunConf.DNSHijack.length then
    (true, tunConf)
  else
    let byString : P → P → Bool := fun a b => decide (buildString a < buildString b)
    let t : Tun H P :=
      { tunConf with
        DNSHijack := sortSlice addrLess tunConf.DNSHijack
        Inet4Address := sortSlice byString tunConf.Inet4Address
        Inet6Address := sortSlice byString tunConf.Inet6Address
        Inet4RouteAddress := sortSlice byString tunConf.Inet4RouteAddress
        Inet6RouteAddress := sortSlice byString tunConf.Inet6RouteAddress
        IncludeUID := sortSlice (fun a b => decide (a < b)) tunConf.IncludeUID
        IncludeUIDRange := sortSlice (fun a b => decide (a < b)) tunConf.IncludeUIDRange
        ExcludeUID := sortSlice (fun a b => decide (a < b)) tunConf.ExcludeUID
        ExcludeUIDRange := sortSlice (fun a b => decide (a < b)) tunConf.ExcludeUIDRange
        IncludeAndroidUser := sortSlice (fun a b => decide (a < b)) tunConf.IncludeAndroidUser
        IncludePackage := sortSlice (fun a b => decide (a < b)) tunConf.IncludePackage
        ExcludePackage := sortSlice (fun a b => decide (a < b)) tunConf.ExcludePackage }
    if t.DNSHijack != LastTunConf.DNSHijack ||
        t.Inet4Address != LastTunConf.Inet4Address ||
        t.Inet6Address != LastTunConf.Inet6Address ||
        t.Inet4RouteAddress != LastTunConf.Inet4RouteAddress ||
        t.Inet6RouteAddress != LastTunConf.Inet6RouteAddress ||
        t.IncludeUID != LastTunConf.IncludeUID ||
        t.IncludeUIDRange != LastTunConf.IncludeUIDRange ||
        t.ExcludeUID != LastTunConf.ExcludeUID ||
        t.ExcludeUIDRange != LastTunConf.ExcludeUIDRange ||
        t.IncludeAndroidUser != LastTunConf.IncludeAndroidUser ||
        t.IncludePackage != LastTunConf.IncludePackage ||
        t.ExcludePackage != LastTunConf.ExcludePackage then
      (true, t)
    else
      (false, t)

/-- What `ReCreateTun` does to the TUN listener. -/
inductive TunEvent where
  | FlushDefaultInterface
  | Close
  | New
  deriving DecidableEq, Repr

/-- Package state of the TUN listener: `LastTunConf`, whether `tunLister` is
not nil, and the calls made on listeners so far, oldest first. -/
structure TunState (H P : Type) where
  LastTunConf : Tun H P
  tunLister : Bool
  calls : List TunEvent

/-- Model of `Cleanup`. -/
def Cleanup {H P : Type} (s : TunState H P) : TunState H P :=
  let s1 : TunState H P :=
    if s.tunLister then
      { s with tunLister := false, calls := s.calls ++ [TunEvent.Close] }
    else s
  { s1 with LastTunConf := Tun.zero }

/-- Model of `ReCreateTun`. `New tunConf` is the outcome of `sing_tun.New`:
whether the returned listener is not nil, and whether the error is not nil.
The deferred functions run last: `Cleanup` on an error, and then the store of
the local `tunConf` into `LastTunConf`. -/
def ReCreateTun {H P : Type} [DecidableEq H] [DecidableEq P]
    (addrLess : H → H → Bool) (buildString : P → String)
    (New : Tun H P → Bool × Bool)
    (tunConf : Tun H P) (s : TunState H P) : TunState H P :=
  match hasTunConfigChange addrLess buildString s.LastTunConf tunConf with
  | (false, tunConf1) =>
    let s1 : TunState H P :=
      if s.tunLister then
        { s with calls := s.calls ++ [TunEvent.FlushDefaultInterface] }
      else s
    { s1 with LastTunConf := tunConf1 }
  | (true, tunConf1) =>
    let s1 := Cleanup s
    if !tunConf1.Enable then
      { s1 with LastTunConf := tunConf1 }
    else
      let r := New tunConf1
      let s2 : TunState H P :=
        { s1 with tunLister := r.1, calls := s1.calls ++ [TunEvent.New] }
      let s3 := if r.2 then Cleanup s2 else s2
      { s3 with LastTunConf := tunConf1 }

/-! ## `listener/shadowsocks`: sends into the queues -/

/-- Buffered Go channel: its capacity and the values in its buffer, oldest
first. The queues of the tunnel are made with capacity 200; a receiver is a
step of the environment that takes the oldest value. -/
structure Chan (α : Type) where
  cap : Nat
  buf : List α
  deriving DecidableEq, Repr

/-- Channel after `x` has been put into its buffer. -/
def Chan.enqueue {α : Type} (ch : Chan α) (x : α) : Chan α :=
  { ch with buf := ch.buf ++ [x] }

/-- Statement `select { case ch <- x: default: }`: the send takes place when
the buffer has room, and the default branch is taken otherwise. -/
def Chan.trySend {α : Type} (ch : Chan α) (x : α) : Chan α :=
  if ch.buf.length < ch.cap then ch.enqueue x else ch

/-- How far a goroutine got: it returned, or it is parked in the send
`ch <- x` of the value `x` that it holds. -/
inductive SendOutcome (α : Type) where
  | returned (ch : Chan α)
  | parked (x : α) (ch : Chan α)
  deriving DecidableEq, Repr

/-- Statement `ch <- x`: the send takes place when the buffer has room, and
the goroutine parks with `x` otherwise. -/
def Chan.send {α : Type} (ch : Chan α) (x : α) : SendOutcome α :=
  if ch.buf.length < ch.cap then SendOutcome.returned (ch.enqueue x)
  else SendOutcome.parked x ch

/-- A parked sender is woken on the channel as the environment left it and
tries its send again; a goroutine that returned stays so. -/
def SendOutcome.resume {α : Type} : SendOutcome α → Chan α → SendOutcome α
  | SendOutcome.parked x _, ch => ch.send x
  | SendOutcome.returned ch, _ => SendOutcome.returned ch

/-- The `packet` of `listener/shadowsocks/udp.go`; bytes are numbers. -/
structure Packet (PC A : Type) where
  pc : PC
  rAddr : A
  payload : List Nat
  bufRef : List Nat
  deriving DecidableEq, Repr

/-- Model of `handleShadowsocksUDP`. `SplitAddr` is `socks5.SplitAddr`,
`NewPacket` is `inbound.NewPacket` and `SHADOWSOCKS` is `C.SHADOWSOCKS`. The
slice expression `buf[len(tgtAddr):len(buf)]` panics when the address is
longer than the buffer: the result is then `none`. The result is otherwise
the channel `in` as the function leaves it. -/
def handleShadowsocksUDP {PC A T PA : Type}
    (SplitAddr : List Nat → List Nat) (NewPacket : List Nat → Packet PC A → T → PA)
    (SHADOWSOCKS : T)
    (pc : PC) (buf : List Nat) (rAddr : A) (in_ : Chan PA) : Option (Chan PA) :=
  let tgtAddr := SplitAddr buf
  if tgtAddr.length ≤ buf.length then
    let payload := buf.drop tgtAddr.length
    let packet : Packet PC A :=
      { pc := pc, rAddr := rAddr, payload := payload, bufRef := buf }
    some (in_.trySend (NewPacket tgtAddr packet SHADOWSOCKS))
  else none

/-- Model of `handleShadowsocks`. `ReadAddr sc` is the outcome of
`socks5.ReadAddr` on the wrapped connection, `none` for an error;
`NewSocket` is `inbound.NewSocket`. The keep-alive setting acts on the
connection alone. -/
def handleShadowsocks {Conn T CC : Type}
    (ReadAddr : Conn → Option (List Nat)) (NewSocket : List Nat → Conn → T → CC)
    (SHADOWSOCKS : T)
    (conn : Conn) (shadow : Conn → Conn) (in_ : Chan CC) : SendOutcome CC :=
  let sc := shadow conn
  match ReadAddr sc with
  | none => SendOutcome.returned in_
  | some tgt => in_.send (NewSocket tgt sc SHADOWSOCKS)

/-! ## `tunnel/tunnel.go`: the UDP handler -/

/-- Operations of the NAT table `natTable` (package `component/nat`) that
`handleUDPConn` calls, at one flow key, on a table in state `N`:
`Get(key)`, `Set(key, pc)`, `Delete(lockKey)` and, for the caller `t`,
`GetOrCreateLock(lockKey)` with its results `cond` and `loaded`. -/
structure NatOps (N : Type) where
  Get : N → Option Nat
  Set : N → Nat → N
  Delete : N → N
  GetOrCreateLock : N → Nat → (Nat × Bool) × N

/-- Points of `handleUDPConn`, from the first `handle()` on, at which a call
on a packet of the flow stands before its next step on shared state. The
goroutine started by `go func()` continues the call that starts it. -/
inductive UdpPoint where
  | handleFirst
  | getOrCreateLock
  | condWait (cond : Nat)
  | parked (cond : Nat)
  | handleWoken
  | resolveMetadata (cond : Nat)
  | listenPacket (cond : Nat)
  | set (cond : Nat) (pc : Nat)
  | handleInstalled (cond : Nat)
  | deleteLock (cond : Nat)
  | broadcast (cond : Nat)
  | returned
  deriving DecidableEq, Repr

/-- What the calls of one flow meet outside the table: whether
`resolveMetadata` succeeds for call `t`, and the packet connection that
`proxy.ListenPacketContext` returns to it, `none` for an error. -/
structure UdpEnv where
  resolveOk : Nat → Bool
  ListenPacketContext : Nat → Option Nat

/-- State of the calls of `handleUDPConn` on packets of one flow key: the NAT
table, the point of every call, the calls of `ListenPacketContext` so far
(the caller, and whether the table held a connection for the key at the
call), and the calls of `handleUDPToRemote` (the caller and the connection),
both oldest first. -/
structure UdpSys (N : Type) where
  natTable : N
  points : List UdpPoint
  dials : List (Nat × Bool)
  forwards : List (Nat × Nat)
  deriving DecidableEq, Repr

/-- The closure `handle` run by call `t`: a forward when the table holds a
connection for the key. -/
def UdpSys.handle {N : Type} (ops : NatOps N) (s : UdpSys N) (t : Nat) : Bool × UdpSys N :=
  match ops.Get s.natTable with
  | some pc => (true, { s with forwards := s.forwards ++ [(t, pc)] })
  | none => (false, s)

/-- Move of call `t` to the point `p`. -/
def UdpSys.goto {N : Type} (s : UdpSys N) (t : Nat) (p : UdpPoint) : UdpSys N :=
  { s with points := s.points.set t p }

/-- One step of call `t` of `handleUDPConn`; a call that is parked in
`cond.Wait()` or has returned does not move. `cond.Broadcast()` wakes the
calls parked on that condition. -/
def UdpSys.step {N : Type} (ops : NatOps N) (env : UdpEnv) (t : Nat) (s : UdpSys N) :
    UdpSys N :=
  match s.points[t]? with
  | none => s
  | some UdpPoint.handleFirst =>
    match s.handle ops t with
    | (true, s1) => s1.goto t UdpPoint.returned
    | (false, s1) => s1.goto t UdpPoint.getOrCreateLock
  | some UdpPoint.getOrCreateLock =>
    match ops.GetOrCreateLock s.natTable t with
    | ((cond, true), n) => { s with natTable := n }.goto t (UdpPoint.condWait cond)
    | ((cond, false), n) => { s with natTable := n }.goto t (UdpPoint.resolveMetadata cond)
  | some (UdpPoint.condWait cond) => s.goto t (UdpPoint.parked cond)
  | some (UdpPoint.parked _) => s
  | some UdpPoint.handleWoken => (s.handle ops t).2.goto t UdpPoint.returned
  | some (UdpPoint.resolveMetadata cond) =>
    if env.resolveOk t then s.goto t (UdpPoint.listenPacket cond)
    else s.goto t (UdpPoint.deleteLock cond)
  | some (UdpPoint.listenPacket cond) =>
    let s1 := { s with dials := s.dials ++ [(t, (ops.Get s.natTable).isSome)] }
    match env.ListenPacketContext t with
    | none => s1.goto t (UdpPoint.deleteLock cond)
    | some pc => s1.goto t (UdpPoint.set cond pc)
  | some (UdpPoint.set cond pc) =>
    { s with natTable := ops.Set s.natTable pc }.goto t (UdpPoint.handleInstalled cond)
  | some (UdpPoint.handleInstalled cond) =>
    (s.handle ops t).2.goto t (UdpPoint.deleteLock cond)
  | some (UdpPoint.deleteLock cond) =>
    { s with natTable := ops.Delete s.natTable }.goto t (UdpPoint.broadcast cond)
  | some (UdpPoint.broadcast cond) =>
    let woken := s.points.map
      (fun p => if p = UdpPoint.parked cond then UdpPoint.handleWoken else p)
    { s with points := woken }.goto t UdpPoint.returned
  | some UdpPoint.returned => s

/-- An interleaving: the calls take their steps in the order of the list. -/
def UdpSys.run {N : Type} (ops : NatOps N) (env : UdpEnv) : List Nat → UdpSys N → UdpSys N
  | [], s => s
  | t :: ts, s => UdpSys.run ops env ts (UdpSys.step ops env t s)

/-- The start: `n` packets of the flow have arrived at the table in state
`table`, and no call of `ListenPacketContext` or forward has been made. -/
def UdpSys.start {N : Type} (table : N) (n : Nat) : UdpSys N :=
  { natTable := table,
    points := List.replicate n UdpPoint.handleFirst,
    dials := [], forwards := [] }

/-! ## Notions of the specification of composite payloads -/

/-- The text `(TYPE,PAYLOAD)` of the item with that type and payload. -/
def itemText (item : List Char × List Char) : List Char :=
  '(' :: item.1 ++ ',' :: item.2 ++ [')']

/-- The texts of the items in order, with a comma between neighbours. -/
def joinItems : List (List Char × List Char) → List Char
  | [] => []
  | [item] => itemText item
  | item :: next :: rest => itemText item ++ ',' :: joinItems (next :: rest)

/-- An item is well formed: its type holds none of `,`, `(` and `)`, and the
parentheses of its payload match. -/
def WellFormedItem (item : List Char × List Char) : Prop :=
  (∀ c ∈ item.1, c ≠ ',' ∧ c ≠ '(' ∧ c ≠ ')') ∧ balanced item.2 = true

instance : DecidablePred WellFormedItem := fun item => by
  unfold WellFormedItem
  infer_instance

/-- The rules that the parse callback gives for the items, in order; an
error (`none`) when it gives an error for one of them. -/
def parseItems (parse : ParseRuleFunc) : List (List Char × List Char) → Option (List Rule)
  | [] => some []
  | item :: rest =>
    match parse (String.mk item.1) (String.mk item.2) "" [] with
    | none => none
    | some rule =>
      match parseItems parse rest with
      | none => none
      | some rules => some (rule :: rules)

/-! ## Notions of the specification of `match` -/

/-- The state of `match` once `rule.Match` has been called for each of the
given rules in turn and none of them made it return; `none` when
`resolver.ResolveIP` panicked on the way.  The metadata of
`afterRules t (pre ++ [r]) s` is the metadata that `r.Match` is called on
when the rules `pre` come before `r`. -/
def afterRules (t : Tunnel) : List Rule → MatchState → Option MatchState
  | [], s => some s
  | rule :: rest, s =>
    match ruleStep t rule s with
    | (false, _) => none
    | (true, s1) => afterRules t rest s1

/-- A rule is matching and eligible on a metadata: `rule.Match(metadata)` is
true, the adapter named `rule.Adapter()` exists in the proxy table, it is
not of type `Pass`, neither is its `Unwrap(metadata)`, and it supports UDP
when the flow is UDP. -/
def Eligible (t : Tunnel) (rule : Rule) (metadata : Metadata) : Prop :=
  rule.Match metadata = true ∧
  ∃ adapter, t.proxies rule.Adapter = some adapter ∧
    adapter.Type_ ≠ AdapterType.Pass ∧
    (∀ p, adapter.Unwrap metadata = some p → p.Type_ ≠ AdapterType.Pass) ∧
    (metadata.NetWork = NetWork.UDP → adapter.SupportUDP = true)

/-- A resolver value keeps the contract of its `ResolveAllIPv4` and
`ResolveAllIPv6` methods: a nil error comes with at least one address. -/
def Resolver.Answers (r : Resolver) : Prop :=
  ∀ (tr : Trace) (host : String),
    ((r.ResolveAllIPv4 tr host).2 = none → (r.ResolveAllIPv4 tr host).1 ≠ []) ∧
    ((r.ResolveAllIPv6 tr host).2 = none → (r.ResolveAllIPv6 tr host).1 ≠ [])

/-- The event is a call `resolver.ResolveIP(host)` made by the tunnel. -/
def Event.isResolveIP : Event → Bool
  | .ResolveIP _ => true
  | _ => false

/-- The event is a call of `P.FindProcessName`. -/
def Event.isFindProcessName : Event → Bool
  | .FindProcessName _ _ _ => true
  | _ => false

/-- The event is a call of `rule.Match`. -/
def Event.isRuleMatch : Event → Bool
  | .ruleMatch _ => true
  | _ => false

/-- The event is one of those made inside package `resolver`: a hosts-trie
search, a call of a resolver value, a system lookup or a random draw. -/
def Event.isInternal : Event → Bool
  | .hostsSearch _ => true
  | .resolverCall _ _ => true
  | .LookupIP _ _ => true
  | .Intn _ => true
  | _ => false

/-- The trace `tr'` is `tr` followed by events made inside package
`resolver` only. -/
def InternalExt (tr tr' : Trace) : Prop :=
  ∃ evs, tr' = tr ++ evs ∧ ∀ e ∈ evs, e.isInternal = true

/-- Two metadata values agree on every field other than `DstIP`, `Process`,
`ProcessPath` and `Uid`. -/
def Metadata.Frame (m m' : Metadata) : Prop :=
  m'.NetWork = m.NetWork ∧ m'.Type_ = m.Type_ ∧ m'.SrcIP = m.SrcIP ∧
  m'.SrcPort = m.SrcPort ∧ m'.DstPort = m.DstPort ∧ m'.AddrType = m.AddrType ∧
  m'.Host = m.Host ∧ m'.DNSMode = m.DNSMode

/-! ## Notions of the specification of the resolver -/

/-- The event is an IPv6 lookup: a call of `ResolveIPv6` or `ResolveAllIPv6`
on a resolver value, or a system lookup on the network `ip6`. -/
def Event.isIPv6Lookup : Event → Bool
  | .resolverCall Method.ResolveIPv6 _ => true
  | .resolverCall Method.ResolveAllIPv6 _ => true
  | .LookupIP network _ => network == "ip6"
  | _ => false

/-- The trace `tr'` is `tr` followed by events that satisfy `p` only. -/
def TraceExt (p : Event → Bool) (tr tr' : Trace) : Prop :=
  ∃ evs, tr' = tr ++ evs ∧ ∀ e ∈ evs, p e = true

/-! ## Concrete configurations -/

/-- A resolver whose every method answers with the same addresses. -/
def constResolver (ip : Addr) (ips : List Addr) (err : Error) : Resolver where
  ResolveIP := fun _ _ => (ip, err)
  ResolveIPv4 := fun _ _ => (ip, err)
  ResolveIPv6 := fun _ _ => (ip, err)
  ResolveAllIP := fun _ _ => (ips, err)
  ResolveAllIPv4 := fun _ _ => (ips, err)
  ResolveAllIPv6 := fun _ _ => (ips, err)

/-- The address `1.2.3.4`. -/
def addr1234 : Addr := Addr.v4 0x01020304

/-- The address `::1`. -/
def addrLoopback6 : Addr := Addr.v6 1 ""

/-- The address `2001:db8::1`. -/
def addrDoc6 : Addr := Addr.v6 0x20010db8000000000000000000000001 ""

/-- The address `::ffff:1.2.3.4`, an IPv4-mapped IPv6 address. -/
def addrMapped : Addr := Addr.v6 0xffff01020304 ""

/-- What `netip.ParseAddr` returns on four literals; every other string used
below is a host name. -/
def parseLiterals (host : String) : Option Addr :=
  if host = "1.2.3.4" then some addr1234
  else if host = "::1" then some addrLoopback6
  else if host = "2001:db8::1" then some addrDoc6
  else if host = "::ffff:1.2.3.4" then some addrMapped
  else none

/-- A resolver configuration with the given IPv6 switch, hosts table and
default resolver, in which the system resolver knows no host. -/
def globalsOf (disableIPv6 : Bool) (hosts : String → Option Addr)
    (r : Option Resolver) : Globals where
  DefaultResolver := r
  ProxyServerHostResolver := none
  DisableIPv6 := disableIPv6
  DefaultHosts := hosts
  ParseAddr := parseLiterals
  LookupIP := fun _ _ _ => ([], some (Err.other "no such host"))
  IpToAddr := fun _ => Addr.zero
  Intn := fun _ _ => 0

/-- The empty hosts table. -/
def noHosts : String → Option Addr := fun _ => none

/-- A hosts table with the one entry `host ↦ ip`. -/
def oneHost (host : String) (ip : Addr) : String → Option Addr :=
  fun h => if h = host then some ip else none

/-- An adapter that is no group: `Unwrap` returns nil. -/
def plainProxy (name : String) (ty : AdapterType) (udp : Bool) : Proxy :=
  Proxy.mk name ty udp (fun _ => none)

/-- A proxy table with `DIRECT`, `REJECT`, the pass-through `PASS` and
`PROXY1`, which does not support UDP. -/
def proxyTable (name : String) : Option Proxy :=
  if name = "DIRECT" then some (plainProxy "DIRECT" AdapterType.Direct true)
  else if name = "REJECT" then some (plainProxy "REJECT" AdapterType.Reject true)
  else if name = "PASS" then some (plainProxy "PASS" AdapterType.Pass true)
  else if name = "PROXY1" then some (plainProxy "PROXY1" (AdapterType.Other 0) false)
  else none

/-- `DOMAIN,baidu.com,PASS`. -/
def rulePassDomain : Rule where
  Match := fun m => m.Host == "baidu.com"
  Adapter := "PASS"
  ShouldResolveIP := false
  ShouldFindProcess := false

/-- `MATCH,NOPE`, naming an adapter that the proxy table lacks. -/
def ruleAbsent : Rule where
  Match := fun _ => true
  Adapter := "NOPE"
  ShouldResolveIP := false
  ShouldFindProcess := false

/-- `IP-CIDR,1.2.3.4/32,PROXY1`. -/
def ruleIP : Rule where
  Match := fun m => m.DstIP == addr1234
  Adapter := "PROXY1"
  ShouldResolveIP := true
  ShouldFindProcess := false

/-- `PROCESS-NAME,curl,REJECT`. -/
def ruleProcess : Rule where
  Match := fun m => m.Process == "curl"
  Adapter := "REJECT"
  ShouldResolveIP := false
  ShouldFindProcess := true

/-- `PROCESS-NAME,wget,REJECT`. -/
def ruleProcess2 : Rule where
  Match := fun m => m.Process == "wget"
  Adapter := "REJECT"
  ShouldResolveIP := false
  ShouldFindProcess := true

/-- A flow from `127.0.0.1:50000` to `host:443` as a listener hands it
over. -/
def flow (network : NetWork) (host : String) : Metadata where
  NetWork := network
  Type_ := 0
  SrcIP := Addr.v4 0x7f000001
  DstIP := Addr.zero
  SrcPort := "50000"
  DstPort := "443"
  AddrType := AddrType.AtypDomainName
  Host := host
  DNSMode := DNSMode.DNSNormal
  Uid := none
  Process := ""
  ProcessPath := ""

/-- A process table in which no socket is found. -/
def noProcess : Trace → String → Addr → Nat → Int × String × Error :=
  fun _ _ _ _ => (-1, "", some (Err.other "process not found"))

/-- Go `filepath.Base` for paths with the separator `/`: the last element of
the path, trailing separators removed first; `.` for the empty path and `/`
for a path of separators only. -/
def filepathBase (path : String) : String :=
  if path = "" then "."
  else
    let cs := path.data.reverse.dropWhile (fun c => c == '/')
    if cs.isEmpty then "/"
    else String.mk (cs.takeWhile (fun c => c != '/')).reverse

/-- A tunnel with the given rules and resolver configuration, the table
`proxyTable` and `alwaysFindProcess` off. -/
def tunnelOf (rules : List Rule) (g : Globals)
    (findProcess : Trace → String → Addr → Nat → Int × String × Error) : Tunnel where
  rules := rules
  proxies := proxyTable
  alwaysFindProcess := false
  resolver := g
  FindProcessName := findProcess
  Base := filepathBase

/-- A resolver configuration without hosts entries whose default resolver
answers every query with `1.2.3.4`. -/
def globalsAnswering : Globals :=
  globalsOf false noHosts (some (constResolver addr1234 [addr1234] none))

/-- A resolver configuration without hosts entries whose default resolver
fails every query. -/
def globalsFailing : Globals :=
  globalsOf false noHosts (some (constResolver Addr.zero [] (some Err.ErrIPNotFound)))

/-- A process table in which every socket belongs to `/usr/bin/curl`, run by
user 1000. -/
def curlProcess : Trace → String → Addr → Nat → Int × String × Error :=
  fun _ _ _ _ => (1000, "/usr/bin/curl", none)

/-- A resolver configuration without hosts entries whose default resolver
answers every query with an empty list and a nil error. -/
def globalsEmptyAnswer : Globals :=
  globalsOf false noHosts (some (constResolver Addr.zero [] none))

/-- `IP-CIDR,1.2.3.4/32,NOPE`, naming an adapter that the proxy table
lacks. -/
def ruleIPAbsent : Rule where
  Match := fun m => m.DstIP == addr1234
  Adapter := "NOPE"
  ShouldResolveIP := true
  ShouldFindProcess := false

/-- A resolver configuration without hosts entries whose default resolver
depends on the calls made before: it fails a query made after at most eight
calls, and answers a later one with `1.2.3.4`. -/
def globalsFailingEarly : Globals :=
  globalsOf false noHosts (some
    { ResolveIP := fun tr _ =>
        if tr.length ≤ 8 then (Addr.zero, some Err.ErrIPNotFound) else (addr1234, none)
      ResolveIPv4 := fun tr _ =>
        if tr.length ≤ 8 then (Addr.zero, some Err.ErrIPNotFound) else (addr1234, none)
      ResolveIPv6 := fun _ _ => (Addr.zero, some Err.ErrIPNotFound)
      ResolveAllIP := fun tr _ =>
        if tr.length ≤ 8 then ([], some Err.ErrIPNotFound) else ([addr1234], none)
      ResolveAllIPv4 := fun tr _ =>
        if tr.length ≤ 8 then ([], some Err.ErrIPNotFound) else ([addr1234], none)
      ResolveAllIPv6 := fun _ _ => ([], some Err.ErrIPNotFound) })

/-- The configuration `globalsAnswering` with a proxy-server resolver that
fails every query. -/
def globalsProxyFailing : Globals :=
  { globalsAnswering with
    ProxyServerHostResolver := some (constResolver Addr.zero [] (some Err.ErrIPNotFound)) }

/-- The configuration `globalsAnswering` with a proxy-server resolver that
answers every query with `2001:db8::1`. -/
def globalsProxyAnswering : Globals :=
  { globalsAnswering with
    ProxyServerHostResolver := some (constResolver addrDoc6 [addrDoc6] none) }

/-- The address `198.18.0.7`. -/
def addrFake7 : Addr := Addr.v4 0xC6120007

/-- The address `198.18.0.8`. -/
def addrFake8 : Addr := Addr.v4 0xC6120008

/-- The address lies in `198.18.0.0/16`. -/
def inFakeRange : Addr → Bool
  | .v4 a => a / 2 ^ 16 == 0xC612
  | _ => false

/-- The text of the two fake addresses used below. -/
def showAddr (ip : Addr) : String :=
  if ip = addrFake7 then "198.18.0.7"
  else if ip = addrFake8 then "198.18.0.8"
  else "invalid IP"

/-- An enhancer with mapping mode off. -/
def enhancerOff : Enhancer where
  MappingEnabled := false
  FakeIPEnabled := false
  FindHostByIP := fun _ => ("", false)
  IsFakeIP := fun _ => false
  AddrString := showAddr

/-- An enhancer in fake-IP mode with the range `198.18.0.0/16`, whose pool
maps `198.18.0.7` to `host`. -/
def enhancerFakeIP (host : String) : Enhancer where
  MappingEnabled := true
  FakeIPEnabled := true
  FindHostByIP := fun ip => if ip = addrFake7 then (host, true) else ("", false)
  IsFakeIP := inFakeRange
  AddrString := showAddr

/-- An enhancer in mapping mode without fake IPs, which maps `1.2.3.4` to
`foo`. -/
def enhancerMapping : Enhancer where
  MappingEnabled := true
  FakeIPEnabled := false
  FindHostByIP := fun ip => if ip = addr1234 then ("foo", true) else ("", false)
  IsFakeIP := fun _ => false
  AddrString := showAddr

/-- A UDP flow to the address `ip`, port 53, without a host name. -/
def flowTo (ip : Addr) : Metadata :=
  { flow NetWork.UDP "" with DstIP := ip, DstPort := "53", AddrType := AddrType.AtypIPv4 }

/-- A flow to `host:port` on the given network. -/
def flowToPort (network : NetWork) (host port : String) : Metadata :=
  { flow network host with DstPort := port }

/-- An enabled TUN configuration whose `include-uid` list is written in the
order 2, 1; the hijack entries are pairs of an address and a port, the
prefixes are their own text. -/
def tunUids : Tun (Nat × Nat) String :=
  { (Tun.zero : Tun (Nat × Nat) String) with
    Enable := true, Device := "utun", MTU := 9000, IncludeUID := [2, 1] }

/-- Order of hijack entries by their address alone. -/
def pairAddrLess (a b : Nat × Nat) : Bool := decide (a.1 < b.1)

/-- The listener state at start: zero `LastTunConf`, no listener. -/
def tunStart : TunState (Nat × Nat) String :=
  { LastTunConf := Tun.zero, tunLister := false, calls := [] }

/-- A `sing_tun.New` that succeeds. -/
def newSucceeds (_ : Tun (Nat × Nat) String) : Bool × Bool := (true, false)

/-- A `socks5.SplitAddr` for IPv4 targets: the first seven bytes. -/
def splitAddr7 (buf : List Nat) : List Nat := buf.take 7

/-- An `inbound.NewPacket` that keeps the target and the payload. -/
def newPacketPair (tgt : List Nat) (p : Packet Unit Nat) (_ : Unit) : List Nat × List Nat :=
  (tgt, p.payload)

/-- An `inbound.NewSocket` that keeps the target and the connection. -/
def newSocketPair (tgt : List Nat) (sc : Nat) (_ : Unit) : List Nat × Nat := (tgt, sc)

/-- A `socks5.ReadAddr` that fails on connection 0 and reads a target else. -/
def readAddrByConn (sc : Nat) : Option (List Nat) :=
  if sc = 0 then none else some [1, 10, 0, 0, sc, 0, 80]

/-- Datagram to 10.0.0.1:53 with the payload 7, 7. -/
def datagram53 : List Nat := [1, 10, 0, 0, 1, 0, 53, 7, 7]

/-- A NAT table at one flow key, as a map with the two keys: the packet
connection stored at `key`, and the condition stored at `key + "-lock"`,
named by the call that created it. -/
structure NatTable where
  entry : Option Nat
  lock : Option Nat
  deriving DecidableEq, Repr

/-- The table operations on the map: `GetOrCreateLock` loads the stored
condition, or stores a new one when there is none. -/
def mapTable : NatOps NatTable :=
  { Get := fun n => n.entry,
    Set := fun n pc => { n with entry := some pc },
    Delete := fun n => { n with lock := none },
    GetOrCreateLock := fun n t =>
      match n.lock with
      | some c => ((c, true), n)
      | none => ((t, false), { n with lock := some t }) }

/-- The table that holds neither a connection nor a lock for the key. -/
def emptyTable : NatTable := { entry := none, lock := none }

/-- Every `resolveMetadata` succeeds, and call `t` is given the packet
connection `100 + t`. -/
def udpEnvOk : UdpEnv :=
  { resolveOk := fun _ => true, ListenPacketContext := fun t => some (100 + t) }

/-- Interleaving of two calls: call 1 runs its first `handle()`, call 0 runs
to its end, call 1 runs to its end. -/
def scheduleLateLock : List Nat :=
  [1, 0, 0, 0, 0, 0, 0, 0, 0, 1, 1, 1, 1, 1, 1, 1]

/-- Interleaving of two calls: call 0 takes the lock, call 1 finds it and
parks, call 0 runs to its end, call 1 is woken. -/
def scheduleParked : List Nat :=
  [0, 0, 1, 1, 1, 0, 0, 0, 0, 0, 0, 1]

/-! ## The resolver: IPv6 switch, literals and the hosts table -/

/-- C7: when `DisableIPv6` is true, `ResolveAllIPv6WithResolver` returns an
empty list with `ErrIPv6Disabled` and `ResolveIPv6WithResolver` returns
`ErrIPv6Disabled`, for every host and every resolver `r` (nil or not); the
trace is unchanged, so neither the hosts trie nor `r` nor the system
resolver is consulted. -/
theorem ipv6_disabled_short_circuit (g : Globals) (host : String) (r : Option Resolver)
    (tr : Trace) (h : g.DisableIPv6 = true) :
    ResolveAllIPv6WithResolver g host r tr = (([], some Err.ErrIPv6Disabled), tr) ∧
    ResolveIPv6WithResolver g host r tr =
      (some (Addr.zero, some Err.ErrIPv6Disabled), tr) := by
  have hall : ResolveAllIPv6WithResolver g host r tr =
      (([], some Err.ErrIPv6Disabled), tr) := by
    simp [ResolveAllIPv6WithResolver, h]
  exact ⟨hall, by simp [ResolveIPv6WithResolver, hall, pickOne]⟩

/-- C7 at a configuration where the host is an IPv6 literal that also has an
IPv6 entry in the hosts trie, with a resolver that would answer. -/
theorem ipv6_disabled_short_circuit_witness :
    (globalsOf true (oneHost "::1" addrDoc6) none).DisableIPv6 = true ∧
    (globalsOf true (oneHost "::1" addrDoc6) none).ParseAddr "::1" = some addrLoopback6 ∧
    (globalsOf true (oneHost "::1" addrDoc6) none).DefaultHosts "::1" = some addrDoc6 ∧
    ResolveAllIPv6WithResolver (globalsOf true (oneHost "::1" addrDoc6) none) "::1"
      (some (constResolver addrDoc6 [addrDoc6] none)) [] =
      (([], some Err.ErrIPv6Disabled), []) ∧
    ResolveIPv6WithResolver (globalsOf true (oneHost "::1" addrDoc6) none) "::1"
      (some (constResolver addrDoc6 [addrDoc6] none)) [] =
      (some (Addr.zero, some Err.ErrIPv6Disabled), []) :=
  ⟨rfl, by decide, by decide,
    ipv6_disabled_short_circuit (globalsOf true (oneHost "::1" addrDoc6) none) "::1"
      (some (constResolver addrDoc6 [addrDoc6] none)) [] rfl⟩

/-- The hosts table is read by `shuffleFrom` nowhere: replacing it changes
nothing. -/
theorem shuffleFrom_hosts_irrelevant (g : Globals) (hosts : String → Option Addr)
    (i : Nat) (addrs : List Addr) (tr : Trace) :
    shuffleFrom { g with DefaultHosts := hosts } i addrs tr = shuffleFrom g i addrs tr := by
  induction i generalizing addrs tr with
  | zero => rfl
  | succ i ih => simp only [shuffleFrom, Intn, ih]

/-- The system lookup does not read the hosts table. -/
theorem systemLookup_hosts_irrelevant (g : Globals) (hosts : String → Option Addr)
    (network host : String) (tr : Trace) :
    systemLookup { g with DefaultHosts := hosts } network host tr =
      systemLookup g network host tr := by
  simp only [systemLookup, Shuffle, shuffleFrom_hosts_irrelevant]

/-- C8, as the code has it: for a host string that parses as the literal
`ip`, the only external call of each `ResolveAll*WithResolver` function is
the hosts-trie search (none at all for the IPv6 function when `DisableIPv6`
is set), so neither `r` nor the system resolver is called.
`ResolveAllIPWithResolver` returns the one-element list holding the hosts
entry of the string when there is one and `ip` otherwise; the IPv4 and IPv6
functions return a hosts entry of their family when there is one, otherwise
`[ip]` when `ip` is of their family (for IPv4: `Is4` or `Is4In6`) and
`ErrIPVersion` when it is not; the IPv6 function returns `ErrIPv6Disabled`
when `DisableIPv6` is set. -/
theorem literal_host_resolution (g : Globals) (host : String) (ip : Addr)
    (r : Option Resolver) (tr : Trace) (hp : g.ParseAddr host = some ip) :
    ResolveAllIPWithResolver g host r tr =
      (([(g.DefaultHosts host).getD ip], none), tr ++ [Event.hostsSearch host]) ∧
    ResolveAllIPv4WithResolver g host r tr =
      ((match (g.DefaultHosts host).filter Addr.Is4 with
        | some data => ([data], none)
        | none =>
          if ip.Is4 || ip.Is4In6 then ([ip], none) else ([], some Err.ErrIPVersion)),
       tr ++ [Event.hostsSearch host]) ∧
    ResolveAllIPv6WithResolver g host r tr =
      (if g.DisableIPv6 then (([], some Err.ErrIPv6Disabled), tr)
       else
        ((match (g.DefaultHosts host).filter Addr.Is6 with
          | some data => ([data], none)
          | none => if ip.Is6 then ([ip], none) else ([], some Err.ErrIPVersion)),
         tr ++ [Event.hostsSearch host])) := by
  refine ⟨?_, ?_, ?_⟩
  · unfold ResolveAllIPWithResolver
    cases hh : g.DefaultHosts host <;> simp [hp]
  · unfold ResolveAllIPv4WithResolver
    cases hh : (g.DefaultHosts host).filter Addr.Is4
    · by_cases h4 : (ip.Is4 || ip.Is4In6) = true <;> simp [hp, h4]
    · simp
  · unfold ResolveAllIPv6WithResolver
    by_cases hd : g.DisableIPv6 = true
    · simp [hd]
    · cases hh : (g.DefaultHosts host).filter Addr.Is6
      · by_cases h6 : ip.Is6 = true <;> simp [hd, hp, h6]
      · simp [hd]

/-- C8 at the literal `1.2.3.4` with an empty hosts table and a resolver that
would answer with another address. -/
theorem literal_host_resolution_witness :
    (globalsOf false noHosts none).ParseAddr "1.2.3.4" = some addr1234 ∧
    ResolveAllIPWithResolver (globalsOf false noHosts none) "1.2.3.4"
      (some (constResolver addrDoc6 [addrDoc6] none)) [] =
      (([addr1234], none), [Event.hostsSearch "1.2.3.4"]) ∧
    ResolveAllIPv4WithResolver (globalsOf false noHosts none) "1.2.3.4"
      (some (constResolver addrDoc6 [addrDoc6] none)) [] =
      (([addr1234], none), [Event.hostsSearch "1.2.3.4"]) ∧
    ResolveAllIPv6WithResolver (globalsOf false noHosts none) "1.2.3.4"
      (some (constResolver addrDoc6 [addrDoc6] none)) [] =
      (([], some Err.ErrIPVersion), [Event.hostsSearch "1.2.3.4"]) :=
  ⟨by decide,
    literal_host_resolution (globalsOf false noHosts none) "1.2.3.4" addr1234
      (some (constResolver addrDoc6 [addrDoc6] none)) [] (by decide)⟩

/-- C8 fails as stated: the literal `::1` is refused by the IPv4 function,
the literal `1.2.3.4` by the IPv6 function, every literal by the IPv6
function when `DisableIPv6` is set, and a hosts entry for the string
`1.2.3.4` is returned in place of the literal. -/
theorem literal_host_not_always_returned :
    parseLiterals "::1" = some addrLoopback6 ∧
    parseLiterals "1.2.3.4" = some addr1234 ∧
    ResolveAllIPv4WithResolver (globalsOf false noHosts none) "::1" none [] =
      (([], some Err.ErrIPVersion), [Event.hostsSearch "::1"]) ∧
    ResolveAllIPv6WithResolver (globalsOf false noHosts none) "1.2.3.4" none [] =
      (([], some Err.ErrIPVersion), [Event.hostsSearch "1.2.3.4"]) ∧
    ResolveAllIPv6WithResolver (globalsOf true noHosts none) "::1" none [] =
      (([], some Err.ErrIPv6Disabled), []) ∧
    ResolveAllIPWithResolver (globalsOf false (oneHost "1.2.3.4" addrDoc6) none)
      "1.2.3.4" none [] = (([addrDoc6], none), [Event.hostsSearch "1.2.3.4"]) := by
  decide

/-- C9, as the code has it: for a host that parses as the literal `ip` and
has no hosts entry, `ResolveAllIPv4WithResolver` returns `[ip]` when `ip` is
IPv4 or an IPv4-mapped IPv6 address and otherwise an empty list with
`ErrIPVersion`; with IPv6 enabled, `ResolveAllIPv6WithResolver` returns
`[ip]` when `ip` is IPv6 and otherwise an empty list with `ErrIPVersion`.
In both the only external call is the hosts-trie search: `r` is not
consulted. -/
theorem literal_family_check (g : Globals) (host : String) (ip : Addr)
    (r : Option Resolver) (tr : Trace) (hp : g.ParseAddr host = some ip)
    (hh : g.DefaultHosts host = none) :
    ResolveAllIPv4WithResolver g host r tr =
      ((if ip.Is4 || ip.Is4In6 then ([ip], none) else ([], some Err.ErrIPVersion)),
       tr ++ [Event.hostsSearch host]) ∧
    (g.DisableIPv6 = false →
      ResolveAllIPv6WithResolver g host r tr =
        ((if ip.Is6 then ([ip], none) else ([], some Err.ErrIPVersion)),
         tr ++ [Event.hostsSearch host])) := by
  refine ⟨?_, ?_⟩
  · unfold ResolveAllIPv4WithResolver
    by_cases h4 : (ip.Is4 || ip.Is4In6) = true <;> simp [hp, hh, h4]
  · intro hd
    unfold ResolveAllIPv6WithResolver
    by_cases h6 : ip.Is6 = true <;> simp [hd, hp, hh, h6]

/-- C9 at the literal `2001:db8::1`: refused by the IPv4 function, returned
by the IPv6 function, the resolver untouched. -/
theorem literal_family_check_witness :
    (globalsOf false noHosts none).ParseAddr "2001:db8::1" = some addrDoc6 ∧
    (globalsOf false noHosts none).DefaultHosts "2001:db8::1" = none ∧
    ResolveAllIPv4WithResolver (globalsOf false noHosts none) "2001:db8::1"
      (some (constResolver addr1234 [addr1234] none)) [] =
      (([], some Err.ErrIPVersion), [Event.hostsSearch "2001:db8::1"]) ∧
    ResolveAllIPv6WithResolver (globalsOf false noHosts none) "2001:db8::1"
      (some (constResolver addr1234 [addr1234] none)) [] =
      (([addrDoc6], none), [Event.hostsSearch "2001:db8::1"]) :=
  ⟨by decide, by decide,
    (literal_family_check (globalsOf false noHosts none) "2001:db8::1" addrDoc6
      (some (constResolver addr1234 [addr1234] none)) [] (by decide) (by decide)).1,
    (literal_family_check (globalsOf false noHosts none) "2001:db8::1" addrDoc6
      (some (constResolver addr1234 [addr1234] none)) [] (by decide) (by decide)).2 rfl⟩

/-- C9 fails as stated: the literal `::ffff:1.2.3.4` is not an IPv4 address
(`Is4` is false, `Is6` is true), has no hosts entry, and is returned by
`ResolveAllIPv4WithResolver` with a nil error, not refused with
`ErrIPVersion`. -/
theorem mapped_literal_accepted_by_ipv4 :
    parseLiterals "::ffff:1.2.3.4" = some addrMapped ∧
    addrMapped.Is4 = false ∧ addrMapped.Is6 = true ∧ addrMapped.Is4In6 = true ∧
    noHosts "::ffff:1.2.3.4" = none ∧
    ResolveAllIPv4WithResolver (globalsOf false noHosts none) "::ffff:1.2.3.4" none [] =
      (([addrMapped], none), [Event.hostsSearch "::ffff:1.2.3.4"]) := by
  decide

/-- C10, as the code has it: when the hosts trie maps `host` to `a`,
`ResolveAllIPWithResolver` returns exactly `[a]`, `ResolveAllIPv4WithResolver`
returns exactly `[a]` if `a` is IPv4 and `ResolveAllIPv6WithResolver` (IPv6
enabled) returns exactly `[a]` if `a` is IPv6, each with the hosts-trie
search as only external call, so without consulting `r`; when `a` is not of
the requested family the result is the one the function gives with an empty
hosts table, that is, of the literal and resolver steps. -/
theorem hosts_entry_by_family (g : Globals) (host : String) (a : Addr)
    (r : Option Resolver) (tr : Trace) (hh : g.DefaultHosts host = some a) :
    ResolveAllIPWithResolver g host r tr =
      (([a], none), tr ++ [Event.hostsSearch host]) ∧
    (a.Is4 = true →
      ResolveAllIPv4WithResolver g host r tr =
        (([a], none), tr ++ [Event.hostsSearch host])) ∧
    (a.Is4 = false →
      ResolveAllIPv4WithResolver g host r tr =
        ResolveAllIPv4WithResolver { g with DefaultHosts := fun _ => none } host r tr) ∧
    (g.DisableIPv6 = false → a.Is6 = true →
      ResolveAllIPv6WithResolver g host r tr =
        (([a], none), tr ++ [Event.hostsSearch host])) ∧
    (a.Is6 = false →
      ResolveAllIPv6WithResolver g host r tr =
        ResolveAllIPv6WithResolver { g with DefaultHosts := fun _ => none } host r tr) := by
  refine ⟨?_, ?_, ?_, ?_, ?_⟩
  · simp [ResolveAllIPWithResolver, hh]
  · intro h4
    simp [ResolveAllIPv4WithResolver, hh, Option.filter, h4]
  · intro h4
    simp only [ResolveAllIPv4WithResolver, hh, Option.filter, h4,
      systemLookup_hosts_irrelevant]
    rfl
  · intro hd h6
    simp [ResolveAllIPv6WithResolver, hd, hh, Option.filter, h6]
  · intro h6
    simp only [ResolveAllIPv6WithResolver, hh, Option.filter, h6,
      systemLookup_hosts_irrelevant]
    rfl

/-- C10 at a hosts table with `example.com ↦ 1.2.3.4`: the IPv4 function and
`ResolveAllIPWithResolver` return the entry, the IPv6 function ignores it and
asks `r`. -/
theorem hosts_entry_by_family_witness :
    (globalsOf false (oneHost "example.com" addr1234) none).DefaultHosts "example.com" =
      some addr1234 ∧
    ResolveAllIPWithResolver (globalsOf false (oneHost "example.com" addr1234) none)
      "example.com" (some (constResolver addrDoc6 [addrDoc6] none)) [] =
      (([addr1234], none), [Event.hostsSearch "example.com"]) ∧
    ResolveAllIPv4WithResolver (globalsOf false (oneHost "example.com" addr1234) none)
      "example.com" (some (constResolver addrDoc6 [addrDoc6] none)) [] =
      (([addr1234], none), [Event.hostsSearch "example.com"]) ∧
    ResolveAllIPv6WithResolver (globalsOf false (oneHost "example.com" addr1234) none)
      "example.com" (some (constResolver addrDoc6 [addrDoc6] none)) [] =
      (([addrDoc6], none),
        [Event.hostsSearch "example.com",
         Event.resolverCall Method.ResolveAllIPv6 "example.com"]) :=
  ⟨by decide,
    (hosts_entry_by_family (globalsOf false (oneHost "example.com" addr1234) none)
      "example.com" addr1234 (some (constResolver addrDoc6 [addrDoc6] none)) []
      (by decide)).1,
    (hosts_entry_by_family (globalsOf false (oneHost "example.com" addr1234) none)
      "example.com" addr1234 (some (constResolver addrDoc6 [addrDoc6] none)) []
      (by decide)).2.1 (by decide),
    by decide⟩

/-- C10 fails as stated in its "only if" half: with the hosts entry
`example.com ↦ 2001:db8::1`, which is not IPv4, `ResolveAllIPv4WithResolver`
still returns exactly that address when the resolver `r` answers with it;
and with the hosts entry `::ffff:1.2.3.4 ↦ ::ffff:1.2.3.4`, which is not
IPv4 either, it returns exactly that address from the literal step. -/
theorem hosts_entry_returned_though_not_ipv4 :
    oneHost "example.com" addrDoc6 "example.com" = some addrDoc6 ∧
    addrDoc6.Is4 = false ∧
    ResolveAllIPv4WithResolver (globalsOf false (oneHost "example.com" addrDoc6) none)
      "example.com" (some (constResolver addrDoc6 [addrDoc6] none)) [] =
      (([addrDoc6], none),
        [Event.hostsSearch "example.com",
         Event.resolverCall Method.ResolveAllIPv4 "example.com"]) ∧
    oneHost "::ffff:1.2.3.4" addrMapped "::ffff:1.2.3.4" = some addrMapped ∧
    addrMapped.Is4 = false ∧
    ResolveAllIPv4WithResolver
      (globalsOf false (oneHost "::ffff:1.2.3.4" addrMapped) none)
      "::ffff:1.2.3.4" none [] =
      (([addrMapped], none), [Event.hostsSearch "::ffff:1.2.3.4"]) := by
  decide

/-! ## `match`: which rule is returned -/

/-- When the third block of the loop body returns an adapter, it is the one
the rule names and the rule is matching and eligible. -/
theorem selectAdapter_some (t : Tunnel) (rule : Rule) (md : Metadata) (a : Proxy)
    (h : selectAdapter t rule md = some a) :
    t.proxies rule.Adapter = some a ∧ Eligible t rule md := by
  unfold selectAdapter at h
  by_cases hm : rule.Match md = true
  · rw [if_pos hm] at h
    cases hp : t.proxies rule.Adapter with
    | none => simp [hp] at h
    | some adapter =>
      simp only [hp] at h
      split at h
      · exact absurd h (by simp)
      · rename_i hpass
        split at h
        · exact absurd h (by simp)
        · rename_i hudp
          have ha : adapter = a := Option.some.inj h
          subst ha
          simp only [Bool.or_eq_true, beq_iff_eq, not_or] at hpass
          refine ⟨rfl, hm, adapter, hp, hpass.1, ?_, ?_⟩
          · intro p hu hpt
            apply hpass.2
            simp [hu, hpt]
          · intro hnet
            simp only [Bool.and_eq_true, beq_iff_eq, Bool.not_eq_true', not_and,
              Bool.not_eq_false] at hudp
            exact hudp hnet
  · rw [if_neg hm] at h
    exact absurd h (by simp)

/-- When the third block of the loop body goes on to the next rule, the rule
is not both matching and eligible. -/
theorem selectAdapter_none (t : Tunnel) (rule : Rule) (md : Metadata)
    (h : selectAdapter t rule md = none) : ¬ Eligible t rule md := by
  rintro ⟨hm, adapter, hp, hpass, hunwrap, hudp⟩
  unfold selectAdapter at h
  rw [if_pos hm] at h
  simp only [hp] at h
  have h1 : (adapter.Type_ == AdapterType.Pass ||
      (match adapter.Unwrap md with
       | some p => p.Type_ == AdapterType.Pass
       | none => false)) = false := by
    cases hu : adapter.Unwrap md with
    | none => simp [hpass]
    | some p => simp [hpass, hunwrap p hu]
  have h2 : (md.NetWork == NetWork.UDP && !adapter.SupportUDP) = false := by
    by_cases hn : md.NetWork = NetWork.UDP
    · simp [hudp hn]
    · simp [hn]
  simp [h1, h2] at h

/-- The loop of `match`, from any state: a returned rule is the first of the
remaining rules that is matching and eligible on the metadata it is
evaluated on. -/
theorem matchLoop_returned_rule (t : Tunnel) (rules : List Rule) (s s' : MatchState)
    (A : Option Proxy) (R : Rule) (e : Error)
    (h : matchLoop t rules s = (some (A, some R, e), s')) :
    e = none ∧ A = t.proxies R.Adapter ∧
    ∃ pre post, rules = pre ++ R :: post ∧
      afterRules t (pre ++ [R]) s = some s' ∧
      Eligible t R s'.metadata ∧
      ∀ p1 r p2, pre = p1 ++ r :: p2 →
        ∃ sr, afterRules t (p1 ++ [r]) s = some sr ∧ ¬ Eligible t r sr.metadata := by
  induction rules generalizing s with
  | nil => simp [matchLoop] at h
  | cons rule rest ih =>
    unfold matchLoop at h
    rcases hstep : ruleStep t rule s with ⟨b, s1⟩
    rw [hstep] at h
    cases b with
    | false => simp at h
    | true =>
      simp only at h
      cases hsel : selectAdapter t rule s1.metadata with
      | some adapter =>
        rw [hsel] at h
        simp only [Prod.mk.injEq, Option.some.injEq] at h
        obtain ⟨⟨hA, hR, he⟩, hs⟩ := h
        subst hR hs
        obtain ⟨hp, hel⟩ := selectAdapter_some t rule s1.metadata adapter hsel
        refine ⟨he.symm, by rw [← hA, hp], [], rest, rfl, ?_, hel, ?_⟩
        · simp [afterRules, hstep]
        · intro p1 r p2 hsplit
          simp at hsplit
      | none =>
        rw [hsel] at h
        obtain ⟨he, hA, pre, post, hsplit, hafter, hel, hfirst⟩ := ih s1 h
        refine ⟨he, hA, rule :: pre, post, by simp [hsplit], ?_, hel, ?_⟩
        · simp [afterRules, hstep, hafter]
        · intro p1 r p2 hpre
          cases p1 with
          | nil =>
            simp only [List.nil_append, List.cons.injEq] at hpre
            obtain ⟨hr, _⟩ := hpre
            subst hr
            exact ⟨s1, by simp [afterRules, hstep], selectAdapter_none t rule _ hsel⟩
          | cons q p1 =>
            simp only [List.cons_append, List.cons.injEq] at hpre
            obtain ⟨hq, hpre⟩ := hpre
            subst hq
            obtain ⟨sr, hsr, hne⟩ := hfirst p1 r p2 hpre
            exact ⟨sr, by simp [afterRules, hstep, hsr], hne⟩

/-! ## `ResolveIP` returns when the resolver keeps its contract -/

/-- Swapping two entries keeps the length. -/
theorem length_swap (addrs : List Addr) (i j : Nat) :
    (swap addrs i j).length = addrs.length := by
  simp [swap]

/-- Shuffling keeps the length. -/
theorem shuffleFrom_length (g : Globals) (i : Nat) (addrs : List Addr) (tr : Trace) :
    (shuffleFrom g i addrs tr).1.length = addrs.length := by
  induction i generalizing addrs tr with
  | zero => rfl
  | succ i ih => simp only [shuffleFrom, Intn, ih, length_swap]

/-- The system lookup returns a nil error only with at least one address. -/
theorem systemLookup_nonempty (g : Globals) (network host : String) (tr : Trace)
    (h : (systemLookup g network host tr).1.2 = none) :
    (systemLookup g network host tr).1.1 ≠ [] := by
  unfold systemLookup at h ⊢
  rcases hl : g.LookupIP tr network host with ⟨ipAddrs, err⟩
  rw [hl] at h
  cases err with
  | some err => simp at h
  | none =>
    simp only at h ⊢
    by_cases h0 : ipAddrs.length = 0
    · simp [h0] at h
    · simp only [h0, if_false]
      intro hnil
      have hlen := shuffleFrom_length g ((ipAddrs.map g.IpToAddr).length - 1)
        (ipAddrs.map g.IpToAddr) (tr ++ [Event.LookupIP network host])
      simp only [Shuffle] at hnil
      rw [hnil] at hlen
      simp at hlen
      exact h0 (by simp [hlen])

/-- `ResolveAllIPv4WithResolver` returns a nil error only with at least one
address, when `r` keeps its contract. -/
theorem ResolveAllIPv4WithResolver_nonempty (g : Globals) (host : String)
    (r : Option Resolver) (tr : Trace) (hr : ∀ r', r = some r' → r'.Answers)
    (h : (ResolveAllIPv4WithResolver g host r tr).1.2 = none) :
    (ResolveAllIPv4WithResolver g host r tr).1.1 ≠ [] := by
  unfold ResolveAllIPv4WithResolver at h ⊢
  cases hh : (g.DefaultHosts host).filter Addr.Is4 with
  | some ip => simp
  | none =>
    simp only [hh] at h ⊢
    cases hp : g.ParseAddr host with
    | some ip =>
      simp only [hp] at h ⊢
      by_cases h4 : (ip.Is4 || ip.Is4In6) = true
      · simp [h4]
      · simp [h4] at h
    | none =>
      simp only [hp] at h ⊢
      cases r with
      | some r' => exact ((hr r' rfl) _ host).1 h
      | none =>
        simp only at h ⊢
        by_cases hd : g.DefaultResolver.isNone = true
        · simp only [hd, if_true] at h ⊢
          exact systemLookup_nonempty g "ip4" host _ h
        · simp [hd] at h

/-- `ResolveAllIPv6WithResolver` returns a nil error only with at least one
address, when `r` keeps its contract. -/
theorem ResolveAllIPv6WithResolver_nonempty (g : Globals) (host : String)
    (r : Option Resolver) (tr : Trace) (hr : ∀ r', r = some r' → r'.Answers)
    (h : (ResolveAllIPv6WithResolver g host r tr).1.2 = none) :
    (ResolveAllIPv6WithResolver g host r tr).1.1 ≠ [] := by
  unfold ResolveAllIPv6WithResolver at h ⊢
  by_cases hdis : g.DisableIPv6 = true
  · simp [hdis] at h
  · simp only [hdis, if_false] at h ⊢
    cases hh : (g.DefaultHosts host).filter Addr.Is6 with
    | some ip => simp
    | none =>
      simp only [hh] at h ⊢
      cases hp : g.ParseAddr host with
      | some ip =>
        simp only [hp] at h ⊢
        by_cases h6 : ip.Is6 = true
        · simp [h6]
        · simp [h6] at h
      | none =>
        simp only [hp] at h ⊢
        cases r with
        | some r' => exact ((hr r' rfl) _ host).2 h
        | none =>
          simp only at h ⊢
          by_cases hd : g.DefaultResolver.isNone = true
          · simp only [hd, if_true] at h ⊢
            exact systemLookup_nonempty g "ip6" host _ h
          · simp [hd] at h

/-- The selection of one address does not panic on a result that is an
error or a non-empty list. -/
theorem pickOne_returns (g : Globals) (res : (List Addr × Error) × Trace)
    (h : res.1.2 = none → res.1.1 ≠ []) : (pickOne g res).1 ≠ none := by
  rcases res with ⟨⟨ips, err⟩, tr⟩
  cases err with
  | some err => simp [pickOne]
  | none =>
    have hne : ips ≠ [] := h rfl
    have hlen : ips.length ≠ 0 := by
      intro h0
      exact hne (List.length_eq_zero.mp h0)
    simp [pickOne, hlen, Intn]

/-- `ResolveIPWithResolver` returns (does not panic) when `r` keeps its
contract. -/
theorem ResolveIPWithResolver_returns (g : Globals) (host : String)
    (r : Option Resolver) (tr : Trace) (hr : ∀ r', r = some r' → r'.Answers) :
    (ResolveIPWithResolver g host r tr).1 ≠ none := by
  unfold ResolveIPWithResolver
  have h4 := pickOne_returns g (ResolveAllIPv4WithResolver g host r tr)
    (ResolveAllIPv4WithResolver_nonempty g host r tr hr)
  rcases hres : ResolveIPv4WithResolver g host r tr with ⟨v, tr1⟩
  rw [ResolveIPv4WithResolver] at hres
  rw [hres] at h4
  cases v with
  | none => exact absurd rfl h4
  | some v =>
    rcases v with ⟨ip, err⟩
    cases err with
    | none => simp
    | some err =>
      simp only
      exact pickOne_returns g (ResolveAllIPv6WithResolver g host r tr1)
        (ResolveAllIPv6WithResolver_nonempty g host r tr1 hr)

/-- `ResolveIP` returns (does not panic) when the default resolver keeps its
contract. -/
theorem ResolveIP_returns (g : Globals) (host : String) (tr : Trace)
    (hr : ∀ r', g.DefaultResolver = some r' → r'.Answers) :
    (ResolveIP g host tr).1 ≠ none :=
  ResolveIPWithResolver_returns g host g.DefaultResolver tr hr

/-! ## The external calls made inside `ResolveIP` -/

/-- A trace extends itself by no call. -/
theorem InternalExt.ext_refl (tr : Trace) : InternalExt tr tr :=
  ⟨[], by simp, by simp⟩

/-- Extensions by calls of package `resolver` compose. -/
theorem InternalExt.ext_trans {a b c : Trace} (h1 : InternalExt a b) (h2 : InternalExt b c) :
    InternalExt a c := by
  obtain ⟨e1, rfl, he1⟩ := h1
  obtain ⟨e2, rfl, he2⟩ := h2
  refine ⟨e1 ++ e2, by simp, ?_⟩
  intro e he
  rcases List.mem_append.mp he with h | h
  · exact he1 e h
  · exact he2 e h

/-- One more call of package `resolver` extends the trace. -/
theorem InternalExt.ext_snoc (tr : Trace) (e : Event) (he : e.isInternal = true) :
    InternalExt tr (tr ++ [e]) :=
  ⟨[e], rfl, by simpa using he⟩

/-- The shuffle adds random draws only. -/
theorem shuffleFrom_trace (g : Globals) (i : Nat) (addrs : List Addr) (tr : Trace) :
    InternalExt tr (shuffleFrom g i addrs tr).2 := by
  induction i generalizing addrs tr with
  | zero => exact InternalExt.ext_refl tr
  | succ i ih =>
    simp only [shuffleFrom, Intn]
    exact (InternalExt.ext_snoc tr (Event.Intn (i + 2)) rfl).ext_trans (ih _ _)

/-- The system lookup adds the lookup and the draws of the shuffle. -/
theorem systemLookup_trace (g : Globals) (network host : String) (tr : Trace) :
    InternalExt tr (systemLookup g network host tr).2 := by
  unfold systemLookup
  rcases hl : g.LookupIP tr network host with ⟨ipAddrs, err⟩
  cases err with
  | some err => exact InternalExt.ext_snoc tr _ rfl
  | none =>
    simp only
    by_cases h0 : ipAddrs.length = 0
    · simp only [h0, if_true]
      exact InternalExt.ext_snoc tr _ rfl
    · simp only [h0, if_false, Shuffle]
      exact (InternalExt.ext_snoc tr (Event.LookupIP network host) rfl).ext_trans
        (shuffleFrom_trace g _ _ _)

/-- Every call that `ResolveAllIPv4WithResolver` adds to the trace is made inside
package `resolver`. -/
theorem ResolveAllIPv4WithResolver_trace (g : Globals) (host : String)
    (r : Option Resolver) (tr : Trace) :
    InternalExt tr (ResolveAllIPv4WithResolver g host r tr).2 := by
  have h1 : InternalExt tr (tr ++ [Event.hostsSearch host]) := InternalExt.ext_snoc tr _ rfl
  unfold ResolveAllIPv4WithResolver
  cases (g.DefaultHosts host).filter Addr.Is4 with
  | some ip => exact h1
  | none =>
    cases g.ParseAddr host with
    | some ip =>
      by_cases h4 : (ip.Is4 || ip.Is4In6) = true
      · simp only [h4, if_true]; exact h1
      · simp only [h4]; exact h1
    | none =>
      cases r with
      | some r' => exact h1.ext_trans (InternalExt.ext_snoc _ _ rfl)
      | none =>
        by_cases hd : g.DefaultResolver.isNone = true
        · simp only [hd, if_true]
          exact h1.ext_trans (systemLookup_trace g _ _ _)
        · simp only [hd]; exact h1

/-- Every call that `ResolveAllIPv6WithResolver` adds to the trace is made inside
package `resolver`. -/
theorem ResolveAllIPv6WithResolver_trace (g : Globals) (host : String)
    (r : Option Resolver) (tr : Trace) :
    InternalExt tr (ResolveAllIPv6WithResolver g host r tr).2 := by
  have h1 : InternalExt tr (tr ++ [Event.hostsSearch host]) := InternalExt.ext_snoc tr _ rfl
  unfold ResolveAllIPv6WithResolver
  by_cases hdis : g.DisableIPv6 = true
  · simp only [hdis, if_true]; exact InternalExt.ext_refl tr
  · simp only [hdis]
    cases (g.DefaultHosts host).filter Addr.Is6 with
    | some ip => exact h1
    | none =>
      cases g.ParseAddr host with
      | some ip =>
        by_cases h6 : ip.Is6 = true
        · simp only [h6, if_true]; exact h1
        · simp only [h6]; exact h1
      | none =>
        cases r with
        | some r' => exact h1.ext_trans (InternalExt.ext_snoc _ _ rfl)
        | none =>
          by_cases hd : g.DefaultResolver.isNone = true
          · simp only [hd, if_true]
            exact h1.ext_trans (systemLookup_trace g _ _ _)
          · simp only [hd]; exact h1

/-- The selection of one address adds at most a random draw. -/
theorem pickOne_trace (g : Globals) (res : (List Addr × Error) × Trace) :
    InternalExt res.2 (pickOne g res).2 := by
  rcases res with ⟨⟨ips, err⟩, tr⟩
  cases err with
  | some err => exact InternalExt.ext_refl tr
  | none =>
    by_cases h0 : ips.length = 0
    · simp only [pickOne, h0, if_true]; exact InternalExt.ext_refl tr
    · simp only [pickOne, h0, if_false, Intn]
      exact InternalExt.ext_snoc tr _ rfl

/-- Every call that `ResolveIP` adds to the trace is made inside package
`resolver`. -/
theorem ResolveIP_trace (g : Globals) (host : String) (tr : Trace) :
    InternalExt tr (ResolveIP g host tr).2 := by
  unfold ResolveIP ResolveIPWithResolver
  have h4 : InternalExt tr (ResolveIPv4WithResolver g host g.DefaultResolver tr).2 :=
    (ResolveAllIPv4WithResolver_trace g host _ tr).ext_trans (pickOne_trace g _)
  rcases hres : ResolveIPv4WithResolver g host g.DefaultResolver tr with ⟨v, tr1⟩
  rw [hres] at h4
  cases v with
  | none => exact h4
  | some v =>
    rcases v with ⟨ip, err⟩
    cases err with
    | none => exact h4
    | some err =>
      exact h4.ext_trans
        ((ResolveAllIPv6WithResolver_trace g host _ tr1).ext_trans (pickOne_trace g _))

/-! ## The blocks of the loop body of `match` -/

/-- The resolution block either leaves the state alone or calls
`resolver.ResolveIP` once, with the three outcomes of that call. -/
theorem resolveStep_cases (t : Tunnel) (rule : Rule) (s : MatchState) :
    (resolveStep t rule s = (true, s) ∧
      (s.resolved = true ∨ shouldResolveIP rule s.metadata = false)) ∨
    (s.resolved = false ∧ shouldResolveIP rule s.metadata = true ∧
      ∃ v tr1,
        ResolveIP t.resolver s.metadata.Host
          (s.trace ++ [Event.ResolveIP s.metadata.Host]) = (v, tr1) ∧
        ((v = none ∧ resolveStep t rule s = (false, { s with trace := tr1 })) ∨
         (∃ ip err, v = some (ip, some err) ∧
            resolveStep t rule s = (true, { s with resolved := true, trace := tr1 })) ∨
         (∃ ip, v = some (ip, none) ∧
            resolveStep t rule s =
              (true, { s with metadata := { s.metadata with DstIP := ip },
                              resolved := true, trace := tr1 })))) := by
  by_cases hres : s.resolved = true
  · left
    exact ⟨by simp [resolveStep, hres], Or.inl hres⟩
  · by_cases hsh : shouldResolveIP rule s.metadata = true
    · right
      have hres' : s.resolved = false := by simpa using hres
      refine ⟨hres', hsh, ?_⟩
      rcases hr : ResolveIP t.resolver s.metadata.Host
          (s.trace ++ [Event.ResolveIP s.metadata.Host]) with ⟨v, tr1⟩
      refine ⟨v, tr1, rfl, ?_⟩
      cases v with
      | none =>
        left
        exact ⟨rfl, by simp [resolveStep, hres', hsh, hr]⟩
      | some v =>
        rcases v with ⟨ip, err⟩
        cases err with
        | some err =>
          right; left
          exact ⟨ip, err, rfl, by simp [resolveStep, hres', hsh, hr]⟩
        | none =>
          right; right
          exact ⟨ip, rfl, by simp [resolveStep, hres', hsh, hr]⟩
    · left
      have hsh' : shouldResolveIP rule s.metadata = false := by simpa using hsh
      exact ⟨by simp [resolveStep, hsh'], Or.inr hsh'⟩

/-- The process block either leaves the state alone or calls
`P.FindProcessName` once; only a successful call sets `processFound`. -/
theorem processStep_cases (t : Tunnel) (rule : Rule) (s : MatchState) :
    processStep t rule s = s ∨
    (s.processFound = false ∧
      ((processStep t rule s =
          { s with trace := s.trace ++
              [Event.FindProcessName s.metadata.NetWork.String_ s.metadata.SrcIP
                (ParseUint16 s.metadata.SrcPort)] }) ∨
       (∃ uid path,
          processStep t rule s =
            { s with
              metadata := { s.metadata with
                Process := t.Base path
                ProcessPath := path
                Uid := if uid != -1 then some uid else s.metadata.Uid }
              processFound := true
              trace := s.trace ++
                [Event.FindProcessName s.metadata.NetWork.String_ s.metadata.SrcIP
                  (ParseUint16 s.metadata.SrcPort)] }))) := by
  by_cases hc : (!s.processFound && (t.alwaysFindProcess || rule.ShouldFindProcess)) = true
  · right
    have hpf : s.processFound = false := by
      simp only [Bool.and_eq_true, Bool.not_eq_true'] at hc
      exact hc.1
    refine ⟨hpf, ?_⟩
    rcases hf : t.FindProcessName s.trace s.metadata.NetWork.String_ s.metadata.SrcIP
        (ParseUint16 s.metadata.SrcPort) with ⟨uid, path, err⟩
    cases err with
    | some err =>
      left
      simp only [processStep, hc, if_true, hf]
    | none =>
      right
      exact ⟨uid, path, by simp only [processStep, hc, if_true, hf]⟩
  · left
    simp only [processStep, hc]
    rfl

/-- After a resolution block that returned, the rest of the loop body up to
the call of `rule.Match` makes at most one process lookup, leaves the
`resolved` flag, `DstIP` and the frame alone, and logs the call. -/
theorem ruleStep_after_resolve (t : Tunnel) (rule : Rule) (s s1 : MatchState)
    (h : resolveStep t rule s = (true, s1)) :
    (ruleStep t rule s).1 = true ∧
    (ruleStep t rule s).2.resolved = s1.resolved ∧
    (ruleStep t rule s).2.metadata.DstIP = s1.metadata.DstIP ∧
    Metadata.Frame s1.metadata (ruleStep t rule s).2.metadata ∧
    ∃ pe, (∀ e ∈ pe, e.isFindProcessName = true) ∧
      (ruleStep t rule s).2.trace =
        s1.trace ++ pe ++ [Event.ruleMatch (ruleStep t rule s).2.metadata] := by
  have hrs : ruleStep t rule s =
      (true, { processStep t rule s1 with
        trace := (processStep t rule s1).trace ++
          [Event.ruleMatch (processStep t rule s1).metadata] }) := by
    simp [ruleStep, h]
  rw [hrs]
  rcases processStep_cases t rule s1 with hp | ⟨_, hp | ⟨uid, path, hp⟩⟩
  · rw [hp]
    exact ⟨rfl, rfl, rfl, ⟨rfl, rfl, rfl, rfl, rfl, rfl, rfl, rfl⟩, [], by simp, by simp⟩
  · rw [hp]
    exact ⟨rfl, rfl, rfl, ⟨rfl, rfl, rfl, rfl, rfl, rfl, rfl, rfl⟩,
      [Event.FindProcessName s1.metadata.NetWork.String_ s1.metadata.SrcIP
        (ParseUint16 s1.metadata.SrcPort)],
      by simp [Event.isFindProcessName], by simp⟩
  · rw [hp]
    exact ⟨rfl, rfl, rfl, ⟨rfl, rfl, rfl, rfl, rfl, rfl, rfl, rfl⟩,
      [Event.FindProcessName s1.metadata.NetWork.String_ s1.metadata.SrcIP
        (ParseUint16 s1.metadata.SrcPort)],
      by simp [Event.isFindProcessName], by simp⟩

/-- The loop body up to the call of `rule.Match`, in full: either no
resolution is attempted, or `resolver.ResolveIP` is called once, as the first
external call of the iteration. -/
theorem ruleStep_spec (t : Tunnel) (rule : Rule) (s : MatchState) :
    Metadata.Frame s.metadata (ruleStep t rule s).2.metadata ∧
    ∃ pe, (∀ e ∈ pe, e.isFindProcessName = true) ∧
    (((s.resolved = true ∨ shouldResolveIP rule s.metadata = false) ∧
        (ruleStep t rule s).1 = true ∧
        (ruleStep t rule s).2.resolved = s.resolved ∧
        (ruleStep t rule s).2.metadata.DstIP = s.metadata.DstIP ∧
        (ruleStep t rule s).2.trace =
          s.trace ++ pe ++ [Event.ruleMatch (ruleStep t rule s).2.metadata]) ∨
     (s.resolved = false ∧ shouldResolveIP rule s.metadata = true ∧
        ∃ inner, (∀ e ∈ inner, e.isInternal = true) ∧
          (ResolveIP t.resolver s.metadata.Host
            (s.trace ++ [Event.ResolveIP s.metadata.Host])).2 =
            s.trace ++ Event.ResolveIP s.metadata.Host :: inner ∧
          (((ResolveIP t.resolver s.metadata.Host
                (s.trace ++ [Event.ResolveIP s.metadata.Host])).1 = none ∧
              (ruleStep t rule s).1 = false ∧
              (ruleStep t rule s).2.trace =
                s.trace ++ Event.ResolveIP s.metadata.Host :: inner) ∨
           (∃ ip err,
              (ResolveIP t.resolver s.metadata.Host
                (s.trace ++ [Event.ResolveIP s.metadata.Host])).1 = some (ip, err) ∧
              (ruleStep t rule s).1 = true ∧
              (ruleStep t rule s).2.resolved = true ∧
              (ruleStep t rule s).2.metadata.DstIP =
                (if err = none then ip else s.metadata.DstIP) ∧
              (ruleStep t rule s).2.trace =
                s.trace ++ Event.ResolveIP s.metadata.Host :: inner ++ pe ++
                  [Event.ruleMatch (ruleStep t rule s).2.metadata])))) := by
  rcases resolveStep_cases t rule s with ⟨h, hguard⟩ | ⟨hres, hsh, v, tr1, hr, hcase⟩
  · obtain ⟨hb, hr, hd, hf, pe, hpe, htr⟩ := ruleStep_after_resolve t rule s s h
    exact ⟨hf, pe, hpe, Or.inl ⟨hguard, hb, hr, hd, htr⟩⟩
  · obtain ⟨inner, htr1, hinner⟩ := ResolveIP_trace t.resolver s.metadata.Host
      (s.trace ++ [Event.ResolveIP s.metadata.Host])
    rw [hr] at htr1
    simp only at htr1
    have htr1' : tr1 = s.trace ++ Event.ResolveIP s.metadata.Host :: inner := by
      rw [htr1]; simp
    rcases hcase with ⟨hv, h⟩ | ⟨ip, err, hv, h⟩ | ⟨ip, hv, h⟩
    · refine ⟨?_, [], by simp, Or.inr ⟨hres, hsh, inner, hinner, by rw [hr, htr1'],
        Or.inl ⟨by rw [hr, hv], ?_, ?_⟩⟩⟩
      · simp only [ruleStep, h]
        exact ⟨rfl, rfl, rfl, rfl, rfl, rfl, rfl, rfl⟩
      · simp [ruleStep, h]
      · simp [ruleStep, h, htr1']
    · obtain ⟨hb, hrr, hd, hf, pe, hpe, htr⟩ := ruleStep_after_resolve t rule s _ h
      refine ⟨hf, pe, hpe, Or.inr ⟨hres, hsh, inner, hinner, by rw [hr, htr1'],
        Or.inr ⟨ip, some err, by rw [hr, hv], hb, hrr, ?_, ?_⟩⟩⟩
      · simpa using hd
      · rw [htr, htr1']
    · obtain ⟨hb, hrr, hd, hf, pe, hpe, htr⟩ := ruleStep_after_resolve t rule s _ h
      refine ⟨?_, pe, hpe, Or.inr ⟨hres, hsh, inner, hinner, by rw [hr, htr1'],
        Or.inr ⟨ip, none, by rw [hr, hv], hb, hrr, ?_, ?_⟩⟩⟩
      · exact hf
      · simpa using hd
      · rw [htr, htr1']

/-- C1: when `match` returns a non-nil rule `R` with adapter `A`, the error
is nil, `A` is the adapter that `R` names, and `R` is the first rule in
declaration order that is matching and eligible on the metadata it is
evaluated on: `R.Match` is true, the named adapter exists, neither it nor its
`Unwrap(metadata)` is of type `Pass`, and it supports UDP when the flow is
UDP; every rule before `R` was evaluated and is not. -/
theorem match_returns_first_eligible (t : Tunnel) (md : Metadata) (tr : Trace)
    (A : Option Proxy) (R : Rule) (e : Error) (s' : MatchState)
    (h : match_ t md tr = (some (A, some R, e), s')) :
    e = none ∧ A = t.proxies R.Adapter ∧
    ∃ pre post, t.rules = pre ++ R :: post ∧
      afterRules t (pre ++ [R]) (hostsStep t md tr) = some s' ∧
      Eligible t R s'.metadata ∧
      ∀ p1 r p2, pre = p1 ++ r :: p2 →
        ∃ sr, afterRules t (p1 ++ [r]) (hostsStep t md tr) = some sr ∧
          ¬ Eligible t r sr.metadata :=
  matchLoop_returned_rule t t.rules (hostsStep t md tr) s' A R e h

/-- C1 on the rules `DOMAIN,baidu.com,PASS`, `MATCH,NOPE`,
`IP-CIDR,1.2.3.4/32,PROXY1` and a TCP flow to `baidu.com`, which resolves to
`1.2.3.4`: the first rule names a pass-through, the second a missing adapter,
the third is returned. -/
theorem match_returns_first_eligible_witness :
    (match_ (tunnelOf [rulePassDomain, ruleAbsent, ruleIP] globalsAnswering noProcess)
        (flow NetWork.TCP "baidu.com") []).1 =
      some (some (plainProxy "PROXY1" (AdapterType.Other 0) false), some ruleIP, none) ∧
    ∃ pre post,
      (tunnelOf [rulePassDomain, ruleAbsent, ruleIP] globalsAnswering noProcess).rules =
        pre ++ ruleIP :: post ∧
      Eligible (tunnelOf [rulePassDomain, ruleAbsent, ruleIP] globalsAnswering noProcess)
        ruleIP
        (match_ (tunnelOf [rulePassDomain, ruleAbsent, ruleIP] globalsAnswering noProcess)
          (flow NetWork.TCP "baidu.com") []).2.metadata :=
  ⟨rfl,
    (match_returns_first_eligible
      (tunnelOf [rulePassDomain, ruleAbsent, ruleIP] globalsAnswering noProcess)
      (flow NetWork.TCP "baidu.com") []
      (some (plainProxy "PROXY1" (AdapterType.Other 0) false)) ruleIP none
      (match_ (tunnelOf [rulePassDomain, ruleAbsent, ruleIP] globalsAnswering noProcess)
        (flow NetWork.TCP "baidu.com") []).2 rfl).2.2.imp
      (fun _ hpre => hpre.imp (fun _ hpost => ⟨hpost.1, hpost.2.2.1⟩))⟩

/-- The loop body calls `rule.Match` (does not panic) when
`resolver.ResolveIP` returns on the host of the flow. -/
theorem ruleStep_returns (t : Tunnel) (rule : Rule) (s : MatchState)
    (hret : ∀ tr', (ResolveIP t.resolver s.metadata.Host tr').1 ≠ none) :
    (ruleStep t rule s).1 = true := by
  obtain ⟨_, pe, _, h | ⟨_, _, inner, _, _, h | ⟨ip, err, _, hb, _⟩⟩⟩ := ruleStep_spec t rule s
  · exact h.2.1
  · exact absurd h.1 (hret _)
  · exact hb

/-- The loop of `match`, from any state: when no remaining rule is matching
and eligible on the metadata it is evaluated on, the loop ends with
`proxies["DIRECT"], nil, nil`. -/
theorem matchLoop_no_eligible (t : Tunnel) (rules : List Rule) (s : MatchState)
    (hret : ∀ tr', (ResolveIP t.resolver s.metadata.Host tr').1 ≠ none)
    (hno : ∀ p1 r p2 sr, rules = p1 ++ r :: p2 →
      afterRules t (p1 ++ [r]) s = some sr → ¬ Eligible t r sr.metadata) :
    (matchLoop t rules s).1 = some (t.proxies "DIRECT", none, none) := by
  induction rules generalizing s with
  | nil => rfl
  | cons rule rest ih =>
    have hb := ruleStep_returns t rule s hret
    have hhost := (ruleStep_spec t rule s).1.2.2.2.2.2.2.1
    rcases hstep : ruleStep t rule s with ⟨b, s1⟩
    rw [hstep] at hb hhost
    simp only at hb hhost
    subst hb
    unfold matchLoop
    rw [hstep]
    simp only
    cases hsel : selectAdapter t rule s1.metadata with
    | some adapter =>
      exact absurd (selectAdapter_some t rule s1.metadata adapter hsel).2
        (hno [] rule rest s1 rfl (by simp [afterRules, hstep]))
    | none =>
      simp only
      apply ih s1
      · rw [hhost]; exact hret
      · intro p1 r p2 sr hsplit hafter
        exact hno (rule :: p1) r p2 sr (by simp [hsplit])
          (by simp [afterRules, hstep, hafter])

/-- C2, as the code has it: for every rule list (the empty one included) and
metadata, if no rule is both matching and eligible on the metadata it is
evaluated on, and the calls of `resolver.ResolveIP` on the host of the flow
return (do not panic), then `match` returns `proxies["DIRECT"]` with a nil
rule and a nil error. -/
theorem match_defaults_to_direct (t : Tunnel) (md : Metadata) (tr : Trace)
    (hret : ∀ tr', (ResolveIP t.resolver md.Host tr').1 ≠ none)
    (hno : ∀ p1 r p2 sr, t.rules = p1 ++ r :: p2 →
      afterRules t (p1 ++ [r]) (hostsStep t md tr) = some sr →
      ¬ Eligible t r sr.metadata) :
    (match_ t md tr).1 = some (t.proxies "DIRECT", none, none) := by
  apply matchLoop_no_eligible t t.rules (hostsStep t md tr) _ hno
  have hhost : (hostsStep t md tr).metadata.Host = md.Host := by
    unfold hostsStep
    cases t.resolver.DefaultHosts md.Host <;> rfl
  rw [hhost]
  exact hret

/-- The resolver of `globalsAnswering` keeps its contract. -/
theorem globalsAnswering_answers :
    ∀ r', globalsAnswering.DefaultResolver = some r' → r'.Answers := by
  intro r' hr
  have h : r' = constResolver addr1234 [addr1234] none := by
    simpa [globalsAnswering, globalsOf] using hr.symm
  subst h
  intro tr host
  simp [constResolver]

/-- C2 on the rules `DOMAIN,baidu.com,PASS` and `IP-CIDR,1.2.3.4/32,PROXY1`
and a UDP flow to `baidu.com`: both rules match, the first names a
pass-through and the second an adapter without UDP support, and the result
is `DIRECT`. -/
theorem match_defaults_to_direct_witness :
    (∀ tr', (ResolveIP globalsAnswering "baidu.com" tr').1 ≠ none) ∧
    rulePassDomain.Match (flow NetWork.UDP "baidu.com") = true ∧
    (match_ (tunnelOf [rulePassDomain, ruleIP] globalsAnswering noProcess)
      (flow NetWork.UDP "baidu.com") []).1 =
      some (some (plainProxy "DIRECT" AdapterType.Direct true), none, none) :=
  ⟨fun tr' => ResolveIP_returns globalsAnswering "baidu.com" tr' globalsAnswering_answers,
    by decide,
    match_defaults_to_direct (tunnelOf [rulePassDomain, ruleIP] globalsAnswering noProcess)
      (flow NetWork.UDP "baidu.com") []
      (fun tr' => ResolveIP_returns globalsAnswering "baidu.com" tr' globalsAnswering_answers)
      (by
        intro p1 r p2 sr hsplit hafter
        rintro ⟨_, a, hp, hpass, _, hudp⟩
        have hrules : (tunnelOf [rulePassDomain, ruleIP] globalsAnswering noProcess).rules =
            [rulePassDomain, ruleIP] := rfl
        rw [hrules] at hsplit
        cases p1 with
        | nil =>
          simp only [List.nil_append, List.cons.injEq] at hsplit
          obtain ⟨hr, _⟩ := hsplit
          subst hr
          have ha : a = plainProxy "PASS" AdapterType.Pass true :=
            (Option.some.inj hp).symm
          subst ha
          exact hpass rfl
        | cons q p1 =>
          simp only [List.cons_append, List.cons.injEq] at hsplit
          obtain ⟨hq, hsplit⟩ := hsplit
          subst hq
          cases p1 with
          | nil =>
            simp only [List.nil_append, List.cons.injEq] at hsplit
            obtain ⟨hr, _⟩ := hsplit
            subst hr
            have ha : a = plainProxy "PROXY1" (AdapterType.Other 0) false :=
              (Option.some.inj hp).symm
            subst ha
            have hnet : (afterRules
                (tunnelOf [rulePassDomain, ruleIP] globalsAnswering noProcess)
                [rulePassDomain, ruleIP]
                (hostsStep (tunnelOf [rulePassDomain, ruleIP] globalsAnswering noProcess)
                  (flow NetWork.UDP "baidu.com") [])).map
                (fun s => s.metadata.NetWork) = some NetWork.UDP := rfl
            have hafter' : afterRules
                (tunnelOf [rulePassDomain, ruleIP] globalsAnswering noProcess)
                [rulePassDomain, ruleIP]
                (hostsStep (tunnelOf [rulePassDomain, ruleIP] globalsAnswering noProcess)
                  (flow NetWork.UDP "baidu.com") []) = some sr := hafter
            rw [hafter'] at hnet
            have hn : sr.metadata.NetWork = NetWork.UDP := by simpa using hnet
            exact absurd (hudp hn) (by decide)
          | cons q2 p1 =>
            simp at hsplit)⟩

/-- C2 fails as stated: with the one rule `IP-CIDR,1.2.3.4/32,NOPE`, whose
adapter the proxy table lacks, no rule is matching and eligible on any
metadata; yet with a resolver that answers with an empty list and a nil
error the call of `resolver.ResolveIP` made for that rule panics on
`rand.Intn(0)`, and `match` returns nothing. -/
theorem match_panics_without_eligible_rule :
    (∀ r ∈ (tunnelOf [ruleIPAbsent] globalsEmptyAnswer noProcess).rules, ∀ m,
      ¬ Eligible (tunnelOf [ruleIPAbsent] globalsEmptyAnswer noProcess) r m) ∧
    (∀ p1 r p2 sr,
      (tunnelOf [ruleIPAbsent] globalsEmptyAnswer noProcess).rules = p1 ++ r :: p2 →
      afterRules (tunnelOf [ruleIPAbsent] globalsEmptyAnswer noProcess) (p1 ++ [r])
        (hostsStep (tunnelOf [ruleIPAbsent] globalsEmptyAnswer noProcess)
          (flow NetWork.TCP "baidu.com") []) = some sr →
      ¬ Eligible (tunnelOf [ruleIPAbsent] globalsEmptyAnswer noProcess) r sr.metadata) ∧
    (ResolveIP globalsEmptyAnswer "baidu.com"
      [Event.hostsSearch "baidu.com", Event.ResolveIP "baidu.com"]).1 = none ∧
    (match_ (tunnelOf [ruleIPAbsent] globalsEmptyAnswer noProcess)
      (flow NetWork.TCP "baidu.com") []).1 = none ∧
    (match_ (tunnelOf [ruleIPAbsent] globalsEmptyAnswer noProcess)
      (flow NetWork.TCP "baidu.com") []).2.trace =
      [Event.hostsSearch "baidu.com", Event.ResolveIP "baidu.com",
       Event.hostsSearch "baidu.com",
       Event.resolverCall Method.ResolveAllIPv4 "baidu.com"] := by
  have hne : ∀ r ∈ (tunnelOf [ruleIPAbsent] globalsEmptyAnswer noProcess).rules, ∀ m,
      ¬ Eligible (tunnelOf [ruleIPAbsent] globalsEmptyAnswer noProcess) r m := by
    intro r hr m
    have hr' : r = ruleIPAbsent := by
      simpa [tunnelOf] using hr
    subst hr'
    rintro ⟨_, a, hp, _⟩
    have hnone : (tunnelOf [ruleIPAbsent] globalsEmptyAnswer noProcess).proxies
        ruleIPAbsent.Adapter = none := rfl
    rw [hnone] at hp
    cases hp
  refine ⟨hne, ?_, by decide, rfl, by decide⟩
  intro p1 r p2 sr hsplit _
  exact hne r (by rw [hsplit]; simp) sr.metadata

/-! ## `match`: the fields it writes -/

/-- A metadata agrees with itself on the frame. -/
theorem Metadata.Frame.frame_refl (m : Metadata) : Metadata.Frame m m :=
  ⟨rfl, rfl, rfl, rfl, rfl, rfl, rfl, rfl⟩

/-- Agreement on the frame composes. -/
theorem Metadata.Frame.frame_trans {a b c : Metadata} (h1 : Metadata.Frame a b)
    (h2 : Metadata.Frame b c) : Metadata.Frame a c := by
  obtain ⟨a1, a2, a3, a4, a5, a6, a7, a8⟩ := h1
  obtain ⟨b1, b2, b3, b4, b5, b6, b7, b8⟩ := h2
  exact ⟨b1.trans a1, b2.trans a2, b3.trans a3, b4.trans a4, b5.trans a5, b6.trans a6,
    b7.trans a7, b8.trans a8⟩

/-- The loop of `match`, from any state and whether it returns or panics,
writes no field of the metadata other than `DstIP`, `Process`, `ProcessPath`
and `Uid`. -/
theorem matchLoop_frame (t : Tunnel) (rules : List Rule) (s : MatchState) :
    Metadata.Frame s.metadata (matchLoop t rules s).2.metadata := by
  induction rules generalizing s with
  | nil => exact Metadata.Frame.frame_refl _
  | cons rule rest ih =>
    have hf := (ruleStep_spec t rule s).1
    rcases hstep : ruleStep t rule s with ⟨b, s1⟩
    rw [hstep] at hf
    unfold matchLoop
    rw [hstep]
    cases b with
    | false => exact hf
    | true =>
      simp only
      cases hsel : selectAdapter t rule s1.metadata with
      | some adapter => exact hf
      | none => exact hf.frame_trans (ih s1)

/-- C6: `match` never changes `metadata.Host`: for every rule list and
metadata, the metadata after the call differs from the one before at most in
`DstIP`, `Process`, `ProcessPath` and `Uid`; `Host`, `NetWork`, `SrcIP`,
`SrcPort`, `DstPort` and `AddrType` (and the inbound type and DNS mode) are
the same after the call as before.  `rule.Match` and the adapter methods are
functions of the metadata here, so they do not mutate it. -/
theorem match_writes_only_lookup_fields (t : Tunnel) (md : Metadata) (tr : Trace) :
    (match_ t md tr).2.metadata =
      { md with
        DstIP := (match_ t md tr).2.metadata.DstIP
        Process := (match_ t md tr).2.metadata.Process
        ProcessPath := (match_ t md tr).2.metadata.ProcessPath
        Uid := (match_ t md tr).2.metadata.Uid } ∧
    (match_ t md tr).2.metadata.Host = md.Host ∧
    (match_ t md tr).2.metadata.NetWork = md.NetWork ∧
    (match_ t md tr).2.metadata.SrcIP = md.SrcIP ∧
    (match_ t md tr).2.metadata.SrcPort = md.SrcPort ∧
    (match_ t md tr).2.metadata.DstPort = md.DstPort ∧
    (match_ t md tr).2.metadata.AddrType = md.AddrType := by
  have h0 : Metadata.Frame md (hostsStep t md tr).metadata := by
    unfold hostsStep
    cases t.resolver.DefaultHosts md.Host <;> exact ⟨rfl, rfl, rfl, rfl, rfl, rfl, rfl, rfl⟩
  have h := h0.frame_trans (matchLoop_frame t t.rules (hostsStep t md tr))
  have hm : (match_ t md tr).2.metadata = (matchLoop t t.rules (hostsStep t md tr)).2.metadata :=
    rfl
  rw [hm]
  obtain ⟨h1, h2, h3, h4, h5, h6, h7, h8⟩ := h
  refine ⟨?_, h7, h1, h3, h4, h5, h6⟩
  generalize (matchLoop t t.rules (hostsStep t md tr)).2.metadata = m at *
  cases m
  cases md
  simp_all

/-! ## `match`: the calls of `resolver.ResolveIP` -/

/-- A call made inside package `resolver` is not the tunnel calling `ResolveIP`. -/
theorem Event.not_resolveIP_of_internal (e : Event) (h : e.isInternal = true) :
    e.isResolveIP = false := by
  cases e <;> simp_all [Event.isInternal, Event.isResolveIP]

/-- A process lookup is not a call of `ResolveIP`. -/
theorem Event.not_resolveIP_of_findProcessName (e : Event)
    (h : e.isFindProcessName = true) : e.isResolveIP = false := by
  cases e <;> simp_all [Event.isFindProcessName, Event.isResolveIP]

/-- A process lookup is not a call of `rule.Match`. -/
theorem Event.not_ruleMatch_of_findProcessName (e : Event)
    (h : e.isFindProcessName = true) : e.isRuleMatch = false := by
  cases e <;> simp_all [Event.isFindProcessName, Event.isRuleMatch]

/-- The loop of `match`, from a state in which `resolved` is set: it returns,
`DstIP` stays as it is, and the only external calls are process lookups and
calls of `rule.Match` on a metadata with that `DstIP`. -/
theorem matchLoop_resolved (t : Tunnel) (rules : List Rule) (s : MatchState)
    (hres : s.resolved = true) :
    (matchLoop t rules s).1 ≠ none ∧
    (matchLoop t rules s).2.metadata.DstIP = s.metadata.DstIP ∧
    ∃ evs, (matchLoop t rules s).2.trace = s.trace ++ evs ∧
      ∀ e ∈ evs, e.isFindProcessName = true ∨
        ∃ m, e = Event.ruleMatch m ∧ m.DstIP = s.metadata.DstIP := by
  induction rules generalizing s with
  | nil => exact ⟨by simp [matchLoop], rfl, [], by simp [matchLoop], by simp⟩
  | cons rule rest ih =>
    obtain ⟨_, pe, hpe, hA | hB⟩ := ruleStep_spec t rule s
    · obtain ⟨_, hb, hr, hd, htr⟩ := hA
      rcases hstep : ruleStep t rule s with ⟨b, s1⟩
      rw [hstep] at hb hr hd htr
      simp only at hb hr hd htr
      subst hb
      have hstepEvents : ∀ e ∈ pe ++ [Event.ruleMatch s1.metadata],
          e.isFindProcessName = true ∨
            ∃ m, e = Event.ruleMatch m ∧ m.DstIP = s.metadata.DstIP := by
        intro e he
        rcases List.mem_append.mp he with h | h
        · exact Or.inl (hpe e h)
        · exact Or.inr ⟨s1.metadata, by simpa using h, hd⟩
      unfold matchLoop
      rw [hstep]
      simp only
      cases hsel : selectAdapter t rule s1.metadata with
      | some adapter =>
        exact ⟨by simp, hd, pe ++ [Event.ruleMatch s1.metadata],
          by simp [htr], hstepEvents⟩
      | none =>
        simp only
        obtain ⟨hne, hd', evs, htr', hev⟩ := ih s1 (hr.trans hres)
        refine ⟨hne, hd'.trans hd, pe ++ [Event.ruleMatch s1.metadata] ++ evs,
          by rw [htr', htr]; simp, ?_⟩
        intro e he
        rcases List.mem_append.mp he with h | h
        · exact hstepEvents e h
        · rw [← hd]; exact hev e h
    · rw [hres] at hB
      exact absurd hB.1 (by simp)

/-- C3: if the hosts trie contains `metadata.Host`, `match` returns with
`metadata.DstIP` set to the trie's address, every call of `rule.Match` sees
that address, and after the hosts-trie search the only external calls are
process lookups and calls of `rule.Match`: `resolver.ResolveIP` is never
called, whatever the rules' `ShouldResolveIP()` return. -/
theorem hosts_hit_skips_resolution (t : Tunnel) (md : Metadata) (tr : Trace) (a : Addr)
    (hh : t.resolver.DefaultHosts md.Host = some a) :
    (match_ t md tr).1 ≠ none ∧
    (match_ t md tr).2.metadata.DstIP = a ∧
    ∃ evs, (match_ t md tr).2.trace = tr ++ Event.hostsSearch md.Host :: evs ∧
      (∀ e ∈ evs, e.isFindProcessName = true ∨
        ∃ m, e = Event.ruleMatch m ∧ m.DstIP = a) ∧
      ∀ h, Event.ResolveIP h ∉ evs := by
  have hs : hostsStep t md tr =
      { metadata := { md with DstIP := a }, resolved := true, processFound := false,
        trace := tr ++ [Event.hostsSearch md.Host] } := by
    simp [hostsStep, hh]
  obtain ⟨hne, hd, evs, htr, hev⟩ := matchLoop_resolved t t.rules (hostsStep t md tr)
    (by rw [hs])
  rw [hs] at hd htr hev
  simp only at hd htr hev
  refine ⟨?_, ?_, evs, ?_, hev, ?_⟩
  · exact hne
  · simpa [match_, hs] using hd
  · simpa [match_, hs] using htr
  · intro h hmem
    rcases hev _ hmem with hfp | ⟨m, hm, _⟩
    · simp [Event.isFindProcessName] at hfp
    · simp at hm

/-- C3 with the hosts entry `baidu.com ↦ 2001:db8::1` and the rule
`IP-CIDR,1.2.3.4/32,PROXY1`, whose `ShouldResolveIP()` is true: the one
external call after the hosts-trie search is that of `rule.Match`. -/
theorem hosts_hit_skips_resolution_witness :
    (tunnelOf [ruleIP]
      (globalsOf false (oneHost "baidu.com" addrDoc6)
        (some (constResolver addr1234 [addr1234] none))) noProcess).resolver.DefaultHosts
      (flow NetWork.TCP "baidu.com").Host = some addrDoc6 ∧
    ruleIP.ShouldResolveIP = true ∧
    (match_ (tunnelOf [ruleIP]
      (globalsOf false (oneHost "baidu.com" addrDoc6)
        (some (constResolver addr1234 [addr1234] none))) noProcess)
      (flow NetWork.TCP "baidu.com") []).2.metadata.DstIP = addrDoc6 ∧
    (match_ (tunnelOf [ruleIP]
      (globalsOf false (oneHost "baidu.com" addrDoc6)
        (some (constResolver addr1234 [addr1234] none))) noProcess)
      (flow NetWork.TCP "baidu.com") []).2.trace =
      [Event.hostsSearch "baidu.com",
       Event.ruleMatch { flow NetWork.TCP "baidu.com" with DstIP := addrDoc6 }] :=
  ⟨by decide, rfl,
    (hosts_hit_skips_resolution (tunnelOf [ruleIP]
      (globalsOf false (oneHost "baidu.com" addrDoc6)
        (some (constResolver addr1234 [addr1234] none))) noProcess)
      (flow NetWork.TCP "baidu.com") [] addrDoc6 (by decide)).2.1,
    by decide⟩

/-- A `ResolveIP` event in a list whose tail has none is its head. -/
theorem resolveIP_at_head (x y : Event) (tail before after : List Event)
    (h : x :: tail = before ++ y :: after) (hy : y.isResolveIP = true)
    (ht : ∀ e ∈ tail, e.isResolveIP = false) : before = [] ∧ y = x := by
  cases before with
  | nil =>
    simp only [List.nil_append, List.cons.injEq] at h
    exact ⟨rfl, h.1.symm⟩
  | cons b bs =>
    simp only [List.cons_append, List.cons.injEq] at h
    have hmem : y ∈ tail := by rw [h.2]; simp
    rw [ht y hmem] at hy
    exact absurd hy (by simp)

/-- A `ResolveIP` event of `l1 ++ l2` lies in `l2` when `l1` has none. -/
theorem resolveIP_after_prefix (l1 l2 before after : List Event) (y : Event)
    (h : l1 ++ l2 = before ++ y :: after) (hy : y.isResolveIP = true)
    (h1 : ∀ e ∈ l1, e.isResolveIP = false) :
    ∃ before', before = l1 ++ before' ∧ l2 = before' ++ y :: after := by
  induction l1 generalizing before with
  | nil => exact ⟨before, rfl, h⟩
  | cons a l1 ih =>
    cases before with
    | nil =>
      simp only [List.cons_append, List.nil_append, List.cons.injEq] at h
      have := h1 a (by simp)
      rw [h.1, hy] at this
      exact absurd this (by simp)
    | cons b bs =>
      simp only [List.cons_append, List.cons.injEq] at h
      obtain ⟨before', hb, hl2⟩ := ih bs h.2 (fun e he => h1 e (by simp [he]))
      exact ⟨before', by rw [h.1, hb]; rfl, hl2⟩

/-- The events of an iteration that calls `resolver.ResolveIP` first and
none afterwards: one call, for this rule. -/
theorem resolveIP_head_case (rule : Rule) (rest : List Rule) (s : MatchState)
    (tail : List Event) (hres : s.resolved = false)
    (hsh : shouldResolveIP rule s.metadata = true)
    (ht : ∀ e ∈ tail, e.isResolveIP = false) :
    (Event.ResolveIP s.metadata.Host :: tail).countP Event.isResolveIP ≤ 1 ∧
    ∀ before h after,
      Event.ResolveIP s.metadata.Host :: tail = before ++ Event.ResolveIP h :: after →
      s.resolved = false ∧ h = s.metadata.Host ∧ s.metadata.Host ≠ "" ∧
      s.metadata.DstIP.IsValid = false ∧
      ∃ r, (rule :: rest)[before.countP Event.isRuleMatch]? = some r ∧
        r.ShouldResolveIP = true := by
  have h0 : tail.countP Event.isResolveIP = 0 := by
    rw [List.countP_eq_zero]
    intro e he
    simp [ht e he]
  simp only [shouldResolveIP, Bool.and_eq_true, bne_iff_ne, ne_eq, Bool.not_eq_true'] at hsh
  refine ⟨by simp [List.countP_cons, h0, Event.isResolveIP], ?_⟩
  intro before h after hdec
  obtain ⟨hb, hy⟩ := resolveIP_at_head _ _ tail before after hdec rfl ht
  subst hb
  simp only [Event.ResolveIP.injEq] at hy
  exact ⟨hres, hy, hsh.1.2, hsh.2, rule, by simp, hsh.1.1⟩

/-- The loop of `match`, from any state and whether it returns or panics:
`resolver.ResolveIP` is called at most once, and a call is made on
`metadata.Host`, with `resolved` unset, the host non-empty and `DstIP`
unset, in the iteration of a rule whose `ShouldResolveIP()` is true (the
rule whose index is the number of `rule.Match` calls made before). -/
theorem matchLoop_resolve_events (t : Tunnel) (rules : List Rule) (s : MatchState) :
    ∃ evs, (matchLoop t rules s).2.trace = s.trace ++ evs ∧
      evs.countP Event.isResolveIP ≤ 1 ∧
      ∀ before h after, evs = before ++ Event.ResolveIP h :: after →
        s.resolved = false ∧ h = s.metadata.Host ∧ s.metadata.Host ≠ "" ∧
        s.metadata.DstIP.IsValid = false ∧
        ∃ r, rules[before.countP Event.isRuleMatch]? = some r ∧
          r.ShouldResolveIP = true := by
  induction rules generalizing s with
  | nil =>
    refine ⟨[], by simp [matchLoop], by simp, ?_⟩
    intro before h after hdec
    simp at hdec
  | cons rule rest ih =>
    obtain ⟨hf, pe, hpe, hA | hB⟩ := ruleStep_spec t rule s
    · obtain ⟨_, hb, hr, hd, htr⟩ := hA
      rcases hstep : ruleStep t rule s with ⟨b, s1⟩
      rw [hstep] at hb hr hd htr hf
      simp only at hb hr hd htr
      subst hb
      have hstepNo : ∀ e ∈ pe ++ [Event.ruleMatch s1.metadata], e.isResolveIP = false := by
        intro e he
        rcases List.mem_append.mp he with h | h
        · exact Event.not_resolveIP_of_findProcessName e (hpe e h)
        · have : e = Event.ruleMatch s1.metadata := by simpa using h
          rw [this]; rfl
      have hstep0 : (pe ++ [Event.ruleMatch s1.metadata]).countP Event.isResolveIP = 0 := by
        rw [List.countP_eq_zero]
        intro e he
        simp [hstepNo e he]
      have hpeRM : pe.countP Event.isRuleMatch = 0 := by
        rw [List.countP_eq_zero]
        intro e he
        simp [Event.not_ruleMatch_of_findProcessName e (hpe e he)]
      unfold matchLoop
      rw [hstep]
      simp only
      cases hsel : selectAdapter t rule s1.metadata with
      | some adapter =>
        refine ⟨pe ++ [Event.ruleMatch s1.metadata], by simp [htr], by omega, ?_⟩
        intro before h after hdec
        have hmem : Event.ResolveIP h ∈ pe ++ [Event.ruleMatch s1.metadata] := by
          rw [hdec]; simp
        have := hstepNo _ hmem
        simp [Event.isResolveIP] at this
      | none =>
        simp only
        obtain ⟨evs, htr', hcount, hdec'⟩ := ih s1
        refine ⟨(pe ++ [Event.ruleMatch s1.metadata]) ++ evs,
          by rw [htr', htr]; simp, ?_, ?_⟩
        · rw [List.countP_append, hstep0]
          omega
        · intro before h after hdec
          obtain ⟨before', hb', he'⟩ := resolveIP_after_prefix _ _ before after _ hdec rfl
            hstepNo
          obtain ⟨h1, h2, h3, h4, r, hr5, hr6⟩ := hdec' before' h after he'
          refine ⟨hr ▸ h1, ?_, ?_, ?_, r, ?_, hr6⟩
          · rw [h2]; exact hf.2.2.2.2.2.2.1
          · rw [← hf.2.2.2.2.2.2.1]; exact h3
          · rw [← hd]; exact h4
          · rw [hb']
            simp only [List.countP_append, hpeRM, List.countP_cons, List.countP_nil,
              Event.isRuleMatch]
            simpa [Nat.add_comm] using hr5
    · obtain ⟨hres, hsh, inner, hinner, _, hpanic | hret⟩ := hB
      · obtain ⟨_, hb, htr⟩ := hpanic
        rcases hstep : ruleStep t rule s with ⟨b, s1⟩
        rw [hstep] at hb htr
        simp only at hb htr
        subst hb
        unfold matchLoop
        rw [hstep]
        simp only
        obtain ⟨hc, hdec⟩ := resolveIP_head_case rule rest s inner hres hsh
          (fun e he => Event.not_resolveIP_of_internal e (hinner e he))
        exact ⟨Event.ResolveIP s.metadata.Host :: inner, htr, hc, hdec⟩
      · obtain ⟨ip, err, _, hb, hr, _, htr⟩ := hret
        rcases hstep : ruleStep t rule s with ⟨b, s1⟩
        rw [hstep] at hb hr htr
        simp only at hb hr htr
        subst hb
        have hstepNo : ∀ e ∈ inner ++ pe ++ [Event.ruleMatch s1.metadata],
            e.isResolveIP = false := by
          intro e he
          rcases List.mem_append.mp he with h | h
          · rcases List.mem_append.mp h with h | h
            · exact Event.not_resolveIP_of_internal e (hinner e h)
            · exact Event.not_resolveIP_of_findProcessName e (hpe e h)
          · have : e = Event.ruleMatch s1.metadata := by simpa using h
            rw [this]; rfl
        unfold matchLoop
        rw [hstep]
        simp only
        cases hsel : selectAdapter t rule s1.metadata with
        | some adapter =>
          obtain ⟨hc, hdec⟩ := resolveIP_head_case rule rest s
            (inner ++ pe ++ [Event.ruleMatch s1.metadata]) hres hsh hstepNo
          exact ⟨Event.ResolveIP s.metadata.Host ::
            (inner ++ pe ++ [Event.ruleMatch s1.metadata]), by simp [htr], hc, hdec⟩
        | none =>
          simp only
          obtain ⟨_, _, evs, htr', hev⟩ := matchLoop_resolved t rest s1 hr
          have hrestNo : ∀ e ∈ (inner ++ pe ++ [Event.ruleMatch s1.metadata]) ++ evs,
              e.isResolveIP = false := by
            intro e he
            rcases List.mem_append.mp he with h | h
            · exact hstepNo e h
            · rcases hev e h with hfp | ⟨m, hm, _⟩
              · exact Event.not_resolveIP_of_findProcessName e hfp
              · rw [hm]; rfl
          obtain ⟨hc, hdec⟩ := resolveIP_head_case rule rest s _ hres hsh hrestNo
          exact ⟨Event.ResolveIP s.metadata.Host ::
            ((inner ++ pe ++ [Event.ruleMatch s1.metadata]) ++ evs),
            by rw [htr', htr]; simp, hc, hdec⟩

/-- The loop of `match`, from any state, when every resolution of the host
fails: the loop returns with a nil error and `DstIP` stays as it is. -/
theorem matchLoop_resolution_fails (t : Tunnel) (rules : List Rule) (s : MatchState)
    (hfail : ∀ tr', ∃ ip err,
      (ResolveIP t.resolver s.metadata.Host tr').1 = some (ip, some err)) :
    (matchLoop t rules s).2.metadata.DstIP = s.metadata.DstIP ∧
    ∃ A R, (matchLoop t rules s).1 = some (A, R, none) := by
  induction rules generalizing s with
  | nil => exact ⟨rfl, _, _, rfl⟩
  | cons rule rest ih =>
    have hstepSpec : (ruleStep t rule s).1 = true ∧
        (ruleStep t rule s).2.metadata.DstIP = s.metadata.DstIP ∧
        (ruleStep t rule s).2.metadata.Host = s.metadata.Host := by
      obtain ⟨hf, pe, _, hA | hB⟩ := ruleStep_spec t rule s
      · exact ⟨hA.2.1, hA.2.2.2.1, hf.2.2.2.2.2.2.1⟩
      · obtain ⟨_, _, inner, _, _, hpanic | ⟨ip, err, hv, hb, _, hd, _⟩⟩ := hB
        · obtain ⟨ip, err, hv⟩ := hfail (s.trace ++ [Event.ResolveIP s.metadata.Host])
          rw [hpanic.1] at hv
          exact absurd hv (by simp)
        · obtain ⟨ip', err', hv'⟩ := hfail (s.trace ++ [Event.ResolveIP s.metadata.Host])
          rw [hv] at hv'
          simp only [Option.some.injEq, Prod.mk.injEq] at hv'
          rw [hv'.2] at hd
          exact ⟨hb, by simpa using hd, hf.2.2.2.2.2.2.1⟩
    rcases hstep : ruleStep t rule s with ⟨b, s1⟩
    rw [hstep] at hstepSpec
    obtain ⟨hb, hd, hhost⟩ := hstepSpec
    simp only at hb hd hhost
    subst hb
    unfold matchLoop
    rw [hstep]
    simp only
    cases hsel : selectAdapter t rule s1.metadata with
    | some adapter => exact ⟨hd, _, _, rfl⟩
    | none =>
      simp only
      obtain ⟨hd', hret⟩ := ih s1 (by rw [hhost]; exact hfail)
      exact ⟨hd'.trans hd, hret⟩

/-- The loop of `match`, from any state: when it returns a nil rule, every
remaining rule has been evaluated and none was matching and eligible. -/
theorem matchLoop_no_rule (t : Tunnel) (rules : List Rule) (s s' : MatchState)
    (A : Option Proxy) (e : Error) (h : matchLoop t rules s = (some (A, none, e), s')) :
    ∀ p1 r p2, rules = p1 ++ r :: p2 →
      ∃ sr, afterRules t (p1 ++ [r]) s = some sr ∧ ¬ Eligible t r sr.metadata := by
  induction rules generalizing s with
  | nil =>
    intro p1 r p2 hsplit
    simp at hsplit
  | cons rule rest ih =>
    unfold matchLoop at h
    rcases hstep : ruleStep t rule s with ⟨b, s1⟩
    rw [hstep] at h
    cases b with
    | false => simp at h
    | true =>
      simp only at h
      cases hsel : selectAdapter t rule s1.metadata with
      | some adapter =>
        rw [hsel] at h
        simp at h
      | none =>
        rw [hsel] at h
        intro p1 r p2 hsplit
        cases p1 with
        | nil =>
          simp only [List.nil_append, List.cons.injEq] at hsplit
          obtain ⟨hr, _⟩ := hsplit
          subst hr
          exact ⟨s1, by simp [afterRules, hstep], selectAdapter_none t rule _ hsel⟩
        | cons q p1 =>
          simp only [List.cons_append, List.cons.injEq] at hsplit
          obtain ⟨hq, hsplit⟩ := hsplit
          subst hq
          obtain ⟨sr, hsr, hne⟩ := ih s1 h p1 r p2 hsplit
          exact ⟨sr, by simp [afterRules, hstep, hsr], hne⟩

/-- The loop of `match` returns a nil error whenever it returns. -/
theorem matchLoop_error_nil (t : Tunnel) (rules : List Rule) (s : MatchState)
    (h : (matchLoop t rules s).1 ≠ none) :
    ∃ A R, (matchLoop t rules s).1 = some (A, R, none) := by
  induction rules generalizing s with
  | nil => exact ⟨_, _, rfl⟩
  | cons rule rest ih =>
    unfold matchLoop at h ⊢
    rcases hstep : ruleStep t rule s with ⟨b, s1⟩
    rw [hstep] at h
    cases b with
    | false => simp at h
    | true =>
      simp only at h ⊢
      cases hsel : selectAdapter t rule s1.metadata with
      | some adapter => exact ⟨_, _, rfl⟩
      | none =>
        rw [hsel] at h
        exact ih s1 h

/-- The loop of `match`, from any state, when the call of
`resolver.ResolveIP` that it makes (after the events `before`) returns an
error: the loop returns with a nil error, `DstIP` stays as it is, and
`rule.Match` is called afterwards on a metadata with that `DstIP`. -/
theorem matchLoop_failed_resolution (t : Tunnel) (rules : List Rule) (s : MatchState)
    (before : List Event) (h : String) (after : List Event)
    (htrace : (matchLoop t rules s).2.trace =
      s.trace ++ before ++ Event.ResolveIP h :: after)
    (ip : Addr) (err : Err)
    (hfail : (ResolveIP t.resolver s.metadata.Host
      (s.trace ++ before ++ [Event.ResolveIP s.metadata.Host])).1 = some (ip, some err)) :
    (matchLoop t rules s).2.metadata.DstIP = s.metadata.DstIP ∧
    (∃ A R, (matchLoop t rules s).1 = some (A, R, none)) ∧
    ∃ m, Event.ruleMatch m ∈ after ∧ m.DstIP = s.metadata.DstIP := by
  induction rules generalizing s before with
  | nil =>
    simp only [matchLoop, List.append_assoc] at htrace
    have := List.self_eq_append_right.mp htrace
    simp at this
  | cons rule rest ih =>
    obtain ⟨hf, pe, hpe, hA | hB⟩ := ruleStep_spec t rule s
    · obtain ⟨_, hb, hr, hd, htr⟩ := hA
      rcases hstep : ruleStep t rule s with ⟨b, s1⟩
      rw [hstep] at hb hr hd htr hf
      simp only at hb hr hd htr
      subst hb
      have hhost : s1.metadata.Host = s.metadata.Host := hf.2.2.2.2.2.2.1
      have hstepNo : ∀ e ∈ pe ++ [Event.ruleMatch s1.metadata], e.isResolveIP = false := by
        intro e he
        rcases List.mem_append.mp he with h | h
        · exact Event.not_resolveIP_of_findProcessName e (hpe e h)
        · have : e = Event.ruleMatch s1.metadata := by simpa using h
          rw [this]; rfl
      unfold matchLoop at htrace ⊢
      rw [hstep] at htrace ⊢
      simp only at htrace ⊢
      cases hsel : selectAdapter t rule s1.metadata with
      | some adapter =>
        rw [hsel] at htrace
        simp only at htrace
        rw [htr, List.append_assoc, List.append_assoc] at htrace
        have hcut := List.append_cancel_left htrace
        have hmem : Event.ResolveIP h ∈ pe ++ [Event.ruleMatch s1.metadata] := by
          rw [hcut]; simp
        have := hstepNo _ hmem
        simp [Event.isResolveIP] at this
      | none =>
        rw [hsel] at htrace
        simp only at htrace ⊢
        obtain ⟨evs, htr', _, _⟩ := matchLoop_resolve_events t rest s1
        have hcut : (pe ++ [Event.ruleMatch s1.metadata]) ++ evs =
            before ++ Event.ResolveIP h :: after := by
          rw [htr', htr] at htrace
          simp only [List.append_assoc] at htrace
          have := List.append_cancel_left htrace
          simpa [List.append_assoc] using this
        obtain ⟨before', hb', he'⟩ := resolveIP_after_prefix _ _ before after _ hcut rfl
          hstepNo
        have htrace' : (matchLoop t rest s1).2.trace =
            s1.trace ++ before' ++ Event.ResolveIP h :: after := by
          rw [htr', he']
          simp [List.append_assoc]
        have hfail' : (ResolveIP t.resolver s1.metadata.Host
            (s1.trace ++ before' ++ [Event.ResolveIP s1.metadata.Host])).1 =
            some (ip, some err) := by
          rw [hhost, htr]
          rw [hb'] at hfail
          simpa [List.append_assoc] using hfail
        obtain ⟨h1, h2, m, hm, hmd⟩ := ih s1 before' htrace' hfail'
        exact ⟨h1.trans hd, h2, m, hm, hmd.trans hd⟩
    · obtain ⟨hres, hsh, inner, hinner, _, hpanic | hret⟩ := hB
      · obtain ⟨hv, hb, htr⟩ := hpanic
        rcases hstep : ruleStep t rule s with ⟨b, s1⟩
        rw [hstep] at hb htr
        simp only at hb htr
        subst hb
        unfold matchLoop at htrace
        rw [hstep] at htrace
        simp only at htrace
        rw [htr, List.append_assoc] at htrace
        have hcut := List.append_cancel_left htrace
        obtain ⟨hb0, _⟩ := resolveIP_at_head _ _ inner before after hcut rfl
          (fun e he => Event.not_resolveIP_of_internal e (hinner e he))
        subst hb0
        simp only [List.append_nil] at hfail
        rw [hv] at hfail
        exact absurd hfail (by simp)
      · obtain ⟨ip', err', hv, hb, hr, hd, htr⟩ := hret
        rcases hstep : ruleStep t rule s with ⟨b, s1⟩
        rw [hstep] at hb hr hd htr
        simp only at hb hr hd htr
        subst hb
        have hstepNo : ∀ e ∈ inner ++ pe ++ [Event.ruleMatch s1.metadata],
            e.isResolveIP = false := by
          intro e he
          rcases List.mem_append.mp he with h | h
          · rcases List.mem_append.mp h with h | h
            · exact Event.not_resolveIP_of_internal e (hinner e h)
            · exact Event.not_resolveIP_of_findProcessName e (hpe e h)
          · have : e = Event.ruleMatch s1.metadata := by simpa using h
            rw [this]; rfl
        obtain ⟨_, _, evs, htr', hev⟩ := matchLoop_resolved t rest s1 hr
        have hne := (matchLoop_resolved t rest s1 hr).1
        have hd' := (matchLoop_resolved t rest s1 hr).2.1
        have hrestNo : ∀ e ∈ (inner ++ pe ++ [Event.ruleMatch s1.metadata]) ++ evs,
            e.isResolveIP = false := by
          intro e he
          rcases List.mem_append.mp he with h | h
          · exact hstepNo e h
          · rcases hev e h with hfp | ⟨m, hm, _⟩
            · exact Event.not_resolveIP_of_findProcessName e hfp
            · rw [hm]; rfl
        have hkeep : s1.metadata.DstIP = s.metadata.DstIP →
            ∀ tail, after = (inner ++ pe ++ [Event.ruleMatch s1.metadata]) ++ tail →
            ∃ m, Event.ruleMatch m ∈ after ∧ m.DstIP = s.metadata.DstIP := by
          intro hdst tail hafter
          exact ⟨s1.metadata, by rw [hafter]; simp, hdst⟩
        unfold matchLoop at htrace ⊢
        rw [hstep] at htrace ⊢
        simp only at htrace ⊢
        cases hsel : selectAdapter t rule s1.metadata with
        | some adapter =>
          rw [hsel] at htrace
          simp only at htrace
          have hcut : Event.ResolveIP s.metadata.Host ::
              (inner ++ pe ++ [Event.ruleMatch s1.metadata]) =
              before ++ Event.ResolveIP h :: after := by
            rw [htr] at htrace
            simp only [List.append_assoc] at htrace
            have := List.append_cancel_left htrace
            simpa [List.append_assoc] using this
          obtain ⟨hb0, _⟩ := resolveIP_at_head _ _ _ before after hcut rfl hstepNo
          subst hb0
          simp only [List.append_nil] at hfail
          rw [hv] at hfail
          simp only [Option.some.injEq, Prod.mk.injEq] at hfail
          rw [hfail.2] at hd
          have hdst : s1.metadata.DstIP = s.metadata.DstIP := by simpa using hd
          simp only [List.nil_append, List.cons.injEq] at hcut
          exact ⟨hdst, ⟨_, _, rfl⟩, hkeep hdst [] (by rw [← hcut.2]; simp)⟩
        | none =>
          rw [hsel] at htrace
          simp only at htrace ⊢
          have hcut : Event.ResolveIP s.metadata.Host ::
              ((inner ++ pe ++ [Event.ruleMatch s1.metadata]) ++ evs) =
              before ++ Event.ResolveIP h :: after := by
            rw [htr', htr] at htrace
            simp only [List.append_assoc] at htrace
            have := List.append_cancel_left htrace
            simpa [List.append_assoc] using this
          obtain ⟨hb0, _⟩ := resolveIP_at_head _ _ _ before after hcut rfl hrestNo
          subst hb0
          simp only [List.append_nil] at hfail
          rw [hv] at hfail
          simp only [Option.some.injEq, Prod.mk.injEq] at hfail
          rw [hfail.2] at hd
          have hdst : s1.metadata.DstIP = s.metadata.DstIP := by simpa using hd
          simp only [List.nil_append, List.cons.injEq] at hcut
          exact ⟨hd'.trans hdst, matchLoop_error_nil t rest s1 hne,
            hkeep hdst evs hcut.2.symm⟩

/-- C4: during one call of `match`, whether it returns or panics,
`resolver.ResolveIP` is called at most once, and a call is made only when
the hosts trie misses, on `metadata.Host`, with the host non-empty and
`DstIP` unset, in the iteration of a rule whose `ShouldResolveIP()` is true
(its index is the number of `rule.Match` calls made before).  When the call
that `match` makes returns an error, `match` returns with a nil error, a nil
rule is returned only after every rule has been evaluated and found not
matching or not eligible, `DstIP` is still unset at the end, and the
iteration goes on: `rule.Match` is called after the failed resolution, on a
metadata whose `DstIP` is unset. -/
theorem resolveIP_called_at_most_once (t : Tunnel) (md : Metadata) (tr : Trace) :
    (∃ evs, (match_ t md tr).2.trace = tr ++ Event.hostsSearch md.Host :: evs ∧
      evs.countP Event.isResolveIP ≤ 1 ∧
      (∀ before h after, evs = before ++ Event.ResolveIP h :: after →
        t.resolver.DefaultHosts md.Host = none ∧ h = md.Host ∧ md.Host ≠ "" ∧
        md.DstIP.IsValid = false ∧
        ∃ r, t.rules[before.countP Event.isRuleMatch]? = some r ∧
          r.ShouldResolveIP = true)) ∧
    (∀ before h after ip err,
      (match_ t md tr).2.trace =
        tr ++ Event.hostsSearch md.Host :: before ++ Event.ResolveIP h :: after →
      (ResolveIP t.resolver md.Host
        (tr ++ Event.hostsSearch md.Host :: before ++ [Event.ResolveIP md.Host])).1 =
        some (ip, some err) →
      (∃ A R, (match_ t md tr).1 = some (A, R, none) ∧
        (R = none → ∀ p1 r p2, t.rules = p1 ++ r :: p2 →
          ∃ sr, afterRules t (p1 ++ [r]) (hostsStep t md tr) = some sr ∧
            ¬ Eligible t r sr.metadata)) ∧
      (match_ t md tr).2.metadata.DstIP = md.DstIP ∧
      (match_ t md tr).2.metadata.DstIP.IsValid = false ∧
      ∃ m, Event.ruleMatch m ∈ after ∧ m.DstIP.IsValid = false) := by
  obtain ⟨evs, htr, hcount, hdec⟩ := matchLoop_resolve_events t t.rules (hostsStep t md tr)
  have hhost : (hostsStep t md tr).metadata.Host = md.Host := by
    unfold hostsStep
    cases t.resolver.DefaultHosts md.Host <;> rfl
  have htrace : (hostsStep t md tr).trace = tr ++ [Event.hostsSearch md.Host] := by
    unfold hostsStep
    cases t.resolver.DefaultHosts md.Host <;> rfl
  have hmiss : (hostsStep t md tr).resolved = false →
      t.resolver.DefaultHosts md.Host = none ∧ (hostsStep t md tr).metadata = md := by
    unfold hostsStep
    cases t.resolver.DefaultHosts md.Host <;> simp
  have hcall : ∀ before h after, evs = before ++ Event.ResolveIP h :: after →
      t.resolver.DefaultHosts md.Host = none ∧ h = md.Host ∧ md.Host ≠ "" ∧
      md.DstIP.IsValid = false ∧
      ∃ r, t.rules[before.countP Event.isRuleMatch]? = some r ∧
        r.ShouldResolveIP = true := by
    intro before h after hd
    obtain ⟨h1, h2, h3, h4, h5⟩ := hdec before h after hd
    obtain ⟨hm, hmd⟩ := hmiss h1
    rw [hmd] at h2 h3 h4
    exact ⟨hm, h2, h3, h4, h5⟩
  have hfull : (match_ t md tr).2.trace = tr ++ Event.hostsSearch md.Host :: evs := by
    show (matchLoop t t.rules (hostsStep t md tr)).2.trace = _
    rw [htr, htrace]
    simp
  refine ⟨⟨evs, hfull, hcount, hcall⟩, ?_⟩
  intro before h after ip err hsplit hfail
  have hevs : evs = before ++ Event.ResolveIP h :: after := by
    rw [hfull] at hsplit
    have hcut := List.append_cancel_left (by simpa [List.append_assoc] using hsplit :
      tr ++ Event.hostsSearch md.Host :: evs =
        tr ++ Event.hostsSearch md.Host :: (before ++ Event.ResolveIP h :: after))
    simpa using hcut
  obtain ⟨hm, _, _, hinv, _⟩ := hcall before h after hevs
  have hmd : (hostsStep t md tr).metadata = md := by
    simp [hostsStep, hm]
  obtain ⟨hd, ⟨A, R, hret⟩, m, hmem, hmdst⟩ :=
    matchLoop_failed_resolution t t.rules (hostsStep t md tr) before h after
      (by rw [htr, htrace, hevs]; simp [List.append_assoc]) ip err
      (by rw [hhost, htrace]; simpa [List.append_assoc] using hfail)
  rw [hmd] at hd hmdst
  have hfinal : (match_ t md tr).2.metadata.DstIP = md.DstIP := hd
  refine ⟨⟨A, R, hret, ?_⟩, hfinal, by rw [hfinal]; exact hinv, m, hmem,
    by rw [hmdst]; exact hinv⟩
  intro hR
  subst hR
  exact matchLoop_no_rule t t.rules (hostsStep t md tr)
    (matchLoop t t.rules (hostsStep t md tr)).2 A none (Prod.ext hret rfl)

/-- C4 on the rules `DOMAIN,baidu.com,PASS`, `IP-CIDR,1.2.3.4/32,PROXY1`
(twice) and a resolver that fails the query `match` makes and would answer a
later one: one call of `resolver.ResolveIP`, in the iteration of the second
rule, all three rules evaluated, `DstIP` unset and a nil error returned. -/
theorem resolveIP_called_at_most_once_witness :
    (ResolveIP globalsFailingEarly "baidu.com"
      (List.replicate 9 (Event.hostsSearch "baidu.com"))).1 = some (addr1234, none) ∧
    ((match_ (tunnelOf [rulePassDomain, ruleIP, ruleIP] globalsFailingEarly noProcess)
      (flow NetWork.TCP "baidu.com") []).2.trace.countP Event.isResolveIP = 1 ∧
     (match_ (tunnelOf [rulePassDomain, ruleIP, ruleIP] globalsFailingEarly noProcess)
      (flow NetWork.TCP "baidu.com") []).2.trace.countP Event.isRuleMatch = 3 ∧
     (match_ (tunnelOf [rulePassDomain, ruleIP, ruleIP] globalsFailingEarly noProcess)
      (flow NetWork.TCP "baidu.com") []).2.metadata.DstIP = Addr.zero) ∧
    (∃ A R, (match_ (tunnelOf [rulePassDomain, ruleIP, ruleIP] globalsFailingEarly noProcess)
      (flow NetWork.TCP "baidu.com") []).1 = some (A, R, none)) ∧
    (match_ (tunnelOf [rulePassDomain, ruleIP, ruleIP] globalsFailingEarly noProcess)
      (flow NetWork.TCP "baidu.com") []).2.metadata.DstIP.IsValid = false :=
  ⟨by decide, by decide,
    ((resolveIP_called_at_most_once
      (tunnelOf [rulePassDomain, ruleIP, ruleIP] globalsFailingEarly noProcess)
      (flow NetWork.TCP "baidu.com") []).2
      [Event.ruleMatch (flow NetWork.TCP "baidu.com")] "baidu.com"
      [Event.hostsSearch "baidu.com",
       Event.resolverCall Method.ResolveAllIPv4 "baidu.com",
       Event.hostsSearch "baidu.com",
       Event.resolverCall Method.ResolveAllIPv6 "baidu.com",
       Event.ruleMatch (flow NetWork.TCP "baidu.com"),
       Event.ruleMatch (flow NetWork.TCP "baidu.com")]
      Addr.zero Err.ErrIPNotFound (by decide) (by decide)).1.imp
      (fun _ hA => hA.imp (fun _ hR => hR.1)),
    ((resolveIP_called_at_most_once
      (tunnelOf [rulePassDomain, ruleIP, ruleIP] globalsFailingEarly noProcess)
      (flow NetWork.TCP "baidu.com") []).2
      [Event.ruleMatch (flow NetWork.TCP "baidu.com")] "baidu.com"
      [Event.hostsSearch "baidu.com",
       Event.resolverCall Method.ResolveAllIPv4 "baidu.com",
       Event.hostsSearch "baidu.com",
       Event.resolverCall Method.ResolveAllIPv6 "baidu.com",
       Event.ruleMatch (flow NetWork.TCP "baidu.com"),
       Event.ruleMatch (flow NetWork.TCP "baidu.com")]
      Addr.zero Err.ErrIPNotFound (by decide) (by decide)).2.2.1⟩

/-! ## `match`: the process lookup -/

/-- C5 fails on the code: with the rules `PROCESS-NAME,curl,REJECT` and
`PROCESS-NAME,wget,REJECT` and a process table in which the lookup fails,
one call of `match` calls `P.FindProcessName` twice, once for each rule;
with a process table in which the lookup succeeds it is called once. -/
theorem failed_process_lookup_is_repeated :
    (match_ (tunnelOf [ruleProcess, ruleProcess2] globalsAnswering noProcess)
      (flow NetWork.TCP "baidu.com") []).2.trace =
      [Event.hostsSearch "baidu.com",
       Event.FindProcessName "tcp" (Addr.v4 0x7f000001) 50000,
       Event.ruleMatch (flow NetWork.TCP "baidu.com"),
       Event.FindProcessName "tcp" (Addr.v4 0x7f000001) 50000,
       Event.ruleMatch (flow NetWork.TCP "baidu.com")] ∧
    (match_ (tunnelOf [ruleProcess, ruleProcess2] globalsAnswering noProcess)
      (flow NetWork.TCP "baidu.com") []).2.trace.countP Event.isFindProcessName = 2 ∧
    (match_ (tunnelOf [ruleProcess, ruleProcess2] globalsAnswering curlProcess)
      (flow NetWork.TCP "baidu.com") []).2.trace.countP Event.isFindProcessName = 1 := by
  decide

/-! ## The resolver: IPv4 first, and the proxy-server family -/

/-- A trace extends itself by no event. -/
theorem TraceExt.same (p : Event → Bool) (tr : Trace) : TraceExt p tr tr :=
  ⟨[], by simp, by simp⟩

/-- Extensions by events that satisfy `p` compose. -/
theorem TraceExt.comp {p : Event → Bool} {a b c : Trace} (h1 : TraceExt p a b)
    (h2 : TraceExt p b c) : TraceExt p a c := by
  obtain ⟨e1, rfl, he1⟩ := h1
  obtain ⟨e2, rfl, he2⟩ := h2
  refine ⟨e1 ++ e2, by simp, ?_⟩
  intro e he
  rcases List.mem_append.mp he with h | h
  · exact he1 e h
  · exact he2 e h

/-- One more event that satisfies `p` extends the trace. -/
theorem TraceExt.one (p : Event → Bool) (tr : Trace) (e : Event) (he : p e = true) :
    TraceExt p tr (tr ++ [e]) :=
  ⟨[e], rfl, by simpa using he⟩

/-- The shuffle makes no IPv6 lookup. -/
theorem shuffleFrom_no_ipv6 (g : Globals) (i : Nat) (addrs : List Addr) (tr : Trace) :
    TraceExt (fun e => !e.isIPv6Lookup) tr (shuffleFrom g i addrs tr).2 := by
  induction i generalizing addrs tr with
  | zero => exact TraceExt.same _ tr
  | succ i ih =>
    simp only [shuffleFrom, Intn]
    exact (TraceExt.one _ tr (Event.Intn (i + 2)) rfl).comp (ih _ _)

/-- `ResolveAllIPv4WithResolver` makes no IPv6 lookup. -/
theorem ResolveAllIPv4WithResolver_no_ipv6 (g : Globals) (host : String)
    (r : Option Resolver) (tr : Trace) :
    TraceExt (fun e => !e.isIPv6Lookup) tr (ResolveAllIPv4WithResolver g host r tr).2 := by
  have h1 : TraceExt (fun e => !e.isIPv6Lookup) tr (tr ++ [Event.hostsSearch host]) :=
    TraceExt.one _ tr _ rfl
  unfold ResolveAllIPv4WithResolver
  cases (g.DefaultHosts host).filter Addr.Is4 with
  | some ip => exact h1
  | none =>
    cases g.ParseAddr host with
    | some ip =>
      by_cases h4 : (ip.Is4 || ip.Is4In6) = true
      · simp only [h4, if_true]; exact h1
      · simp only [h4]; exact h1
    | none =>
      cases r with
      | some r' =>
        exact h1.comp (TraceExt.one _ _ (Event.resolverCall Method.ResolveAllIPv4 host) rfl)
      | none =>
        by_cases hd : g.DefaultResolver.isNone = true
        · simp only [hd, if_true]
          refine h1.comp ?_
          unfold systemLookup
          rcases g.LookupIP (tr ++ [Event.hostsSearch host]) "ip4" host with ⟨ipAddrs, err⟩
          have hl : TraceExt (fun e => !e.isIPv6Lookup) (tr ++ [Event.hostsSearch host])
              (tr ++ [Event.hostsSearch host] ++ [Event.LookupIP "ip4" host]) :=
            TraceExt.one _ _ _ (by
              show (!("ip4" == "ip6")) = true
              decide)
          cases err with
          | some err => exact hl
          | none =>
            simp only
            by_cases h0 : ipAddrs.length = 0
            · simp only [h0, if_true]; exact hl
            · simp only [h0, if_false, Shuffle]
              exact hl.comp (shuffleFrom_no_ipv6 g _ _ _)
        · simp only [hd]; exact h1

/-- `ResolveIPv4WithResolver` makes no IPv6 lookup. -/
theorem ResolveIPv4WithResolver_no_ipv6 (g : Globals) (host : String)
    (r : Option Resolver) (tr : Trace) :
    TraceExt (fun e => !e.isIPv6Lookup) tr (ResolveIPv4WithResolver g host r tr).2 := by
  refine (ResolveAllIPv4WithResolver_no_ipv6 g host r tr).comp ?_
  unfold ResolveIPv4WithResolver
  rcases ResolveAllIPv4WithResolver g host r tr with ⟨⟨ips, err⟩, tr1⟩
  cases err with
  | some err => exact TraceExt.same _ tr1
  | none =>
    by_cases h0 : ips.length = 0
    · simp only [pickOne, h0, if_true]; exact TraceExt.same _ tr1
    · simp only [pickOne, h0, if_false, Intn]
      exact TraceExt.one _ tr1 _ rfl

/-- C11: `ResolveIPWithResolver(host, r)` returns the IPv4 result whenever
`ResolveIPv4WithResolver(host, r)` succeeds, and otherwise, when that one
returns an error, exactly the result of `ResolveIPv6WithResolver(host, r)`,
called next.  With `DisableIPv6` set it succeeds iff the IPv4 resolution
succeeds, a returned address is the one of the IPv4 resolution, and the
calls made are those of the IPv4 resolution, none of them an IPv6 lookup. -/
theorem resolveIP_prefers_ipv4 (g : Globals) (host : String) (r : Option Resolver)
    (tr : Trace) :
    (∀ ip tr1, ResolveIPv4WithResolver g host r tr = (some (ip, none), tr1) →
      ResolveIPWithResolver g host r tr = (some (ip, none), tr1)) ∧
    (∀ ip err tr1, ResolveIPv4WithResolver g host r tr = (some (ip, some err), tr1) →
      ResolveIPWithResolver g host r tr = ResolveIPv6WithResolver g host r tr1) ∧
    (g.DisableIPv6 = true →
      ((∃ ip, (ResolveIPWithResolver g host r tr).1 = some (ip, none)) ↔
        ∃ ip, (ResolveIPv4WithResolver g host r tr).1 = some (ip, none)) ∧
      (∀ ip, (ResolveIPWithResolver g host r tr).1 = some (ip, none) →
        (ResolveIPv4WithResolver g host r tr).1 = some (ip, none)) ∧
      (ResolveIPWithResolver g host r tr).2 = (ResolveIPv4WithResolver g host r tr).2 ∧
      TraceExt (fun e => !e.isIPv6Lookup) tr (ResolveIPWithResolver g host r tr).2) := by
  refine ⟨?_, ?_, ?_⟩
  · intro ip tr1 h
    simp [ResolveIPWithResolver, h]
  · intro ip err tr1 h
    simp [ResolveIPWithResolver, h]
  · intro hd
    have h6 : ∀ tr1, ResolveIPv6WithResolver g host r tr1 =
        (some (Addr.zero, some Err.ErrIPv6Disabled), tr1) := by
      intro tr1
      simp [ResolveIPv6WithResolver, ResolveAllIPv6WithResolver, hd, pickOne]
    have hno := ResolveIPv4WithResolver_no_ipv6 g host r tr
    unfold ResolveIPWithResolver
    rcases h4 : ResolveIPv4WithResolver g host r tr with ⟨v, tr1⟩
    rw [h4] at hno
    cases v with
    | none => simp; exact hno
    | some v =>
      rcases v with ⟨ip, err⟩
      cases err with
      | none => simp; exact hno
      | some err =>
        simp only [h6]
        refine ⟨?_, ?_, ?_, hno⟩ <;> simp

/-- C11 with `DisableIPv6` set, a host that is no literal and a resolver
that fails the IPv4 query but would answer the IPv6 query: the result is
`ErrIPv6Disabled` and the resolver is asked for IPv4 only. -/
theorem resolveIP_prefers_ipv4_witness :
    (globalsOf true noHosts none).DisableIPv6 = true ∧
    ResolveIPWithResolver (globalsOf true noHosts none) "example.com"
      (some { constResolver addrDoc6 [addrDoc6] none with
              ResolveAllIPv4 := fun _ _ => ([], some Err.ErrIPNotFound) }) [] =
      (some (Addr.zero, some Err.ErrIPv6Disabled),
        [Event.hostsSearch "example.com",
         Event.resolverCall Method.ResolveAllIPv4 "example.com"]) ∧
    (ResolveIPWithResolver (globalsOf true noHosts none) "example.com"
      (some { constResolver addrDoc6 [addrDoc6] none with
              ResolveAllIPv4 := fun _ _ => ([], some Err.ErrIPNotFound) }) []).2 =
    (ResolveIPv4WithResolver (globalsOf true noHosts none) "example.com"
      (some { constResolver addrDoc6 [addrDoc6] none with
              ResolveAllIPv4 := fun _ _ => ([], some Err.ErrIPNotFound) }) []).2 :=
  ⟨rfl, by decide,
    ((resolveIP_prefers_ipv4 (globalsOf true noHosts none) "example.com"
      (some { constResolver addrDoc6 [addrDoc6] none with
              ResolveAllIPv4 := fun _ _ => ([], some Err.ErrIPNotFound) }) []).2.2 rfl).2.2.1⟩

/-- C12: for each of `ResolveIPv4ProxyServerHost`,
`ResolveIPv6ProxyServerHost` and `ResolveProxyServerHost` and every host:
when `ProxyServerHostResolver` is nil the result is that of `ResolveIPv4`,
`ResolveIPv6`, `ResolveIP`; when it is set and the lookup through it
succeeds, that address is returned; when it is set and the lookup through it
returns an error, the result is that of the default function, called next. -/
theorem proxy_server_host_fallback (g : Globals) (host : String) (tr : Trace) :
    (g.ProxyServerHostResolver = none →
      ResolveIPv4ProxyServerHost g host tr = ResolveIPv4 g host tr ∧
      ResolveIPv6ProxyServerHost g host tr = ResolveIPv6 g host tr ∧
      ResolveProxyServerHost g host tr = ResolveIP g host tr) ∧
    (∀ r, g.ProxyServerHostResolver = some r →
      (∀ ip tr1, ResolveIPv4WithResolver g host (some r) tr = (some (ip, none), tr1) →
        ResolveIPv4ProxyServerHost g host tr = (some (ip, none), tr1)) ∧
      (∀ ip err tr1,
        ResolveIPv4WithResolver g host (some r) tr = (some (ip, some err), tr1) →
        ResolveIPv4ProxyServerHost g host tr = ResolveIPv4 g host tr1) ∧
      (∀ ip tr1, ResolveIPv6WithResolver g host (some r) tr = (some (ip, none), tr1) →
        ResolveIPv6ProxyServerHost g host tr = (some (ip, none), tr1)) ∧
      (∀ ip err tr1,
        ResolveIPv6WithResolver g host (some r) tr = (some (ip, some err), tr1) →
        ResolveIPv6ProxyServerHost g host tr = ResolveIPv6 g host tr1) ∧
      (∀ ip tr1, ResolveIPWithResolver g host (some r) tr = (some (ip, none), tr1) →
        ResolveProxyServerHost g host tr = (some (ip, none), tr1)) ∧
      (∀ ip err tr1,
        ResolveIPWithResolver g host (some r) tr = (some (ip, some err), tr1) →
        ResolveProxyServerHost g host tr = ResolveIP g host tr1)) := by
  refine ⟨?_, ?_⟩
  · intro hn
    simp [ResolveIPv4ProxyServerHost, ResolveIPv6ProxyServerHost, ResolveProxyServerHost, hn]
  · intro r hr
    refine ⟨?_, ?_, ?_, ?_, ?_, ?_⟩
    · intro ip tr1 h
      simp [ResolveIPv4ProxyServerHost, hr, h]
    · intro ip err tr1 h
      simp [ResolveIPv4ProxyServerHost, hr, h]
    · intro ip tr1 h
      simp [ResolveIPv6ProxyServerHost, hr, h]
    · intro ip err tr1 h
      simp [ResolveIPv6ProxyServerHost, hr, h]
    · intro ip tr1 h
      simp [ResolveProxyServerHost, hr, h]
    · intro ip err tr1 h
      simp [ResolveProxyServerHost, hr, h]

/-- C12 with a proxy-server resolver that fails every query and a default
resolver that answers with `1.2.3.4`: the IPv4 function asks the first, then
the second, and returns `1.2.3.4`. -/
theorem proxy_server_host_fallback_witness :
    globalsProxyFailing.ProxyServerHostResolver =
      some (constResolver Addr.zero [] (some Err.ErrIPNotFound)) ∧
    ResolveIPv4WithResolver globalsProxyFailing "example.com"
      (some (constResolver Addr.zero [] (some Err.ErrIPNotFound))) [] =
      (some (Addr.zero, some Err.ErrIPNotFound),
        [Event.hostsSearch "example.com",
         Event.resolverCall Method.ResolveAllIPv4 "example.com"]) ∧
    ResolveIPv4ProxyServerHost globalsProxyFailing "example.com" [] =
      ResolveIPv4 globalsProxyFailing "example.com"
        [Event.hostsSearch "example.com",
         Event.resolverCall Method.ResolveAllIPv4 "example.com"] ∧
    (ResolveIPv4ProxyServerHost globalsProxyFailing "example.com" []).1 =
      some (addr1234, none) :=
  ⟨rfl, by decide,
    ((proxy_server_host_fallback globalsProxyFailing "example.com" []).2
      (constResolver Addr.zero [] (some Err.ErrIPNotFound)) rfl).2.1
      Addr.zero Err.ErrIPNotFound _ (by decide),
    by decide⟩

/-- C13 fails on the code: with a proxy-server resolver that fails every
query and a default resolver that answers with `1.2.3.4`, each of the three
`ResolveAll*ProxyServerHost` functions returns the error of the proxy-server
resolver and never asks the default resolver, while `ResolveAllIPv4` and
`ResolveAllIP` return `[1.2.3.4]` and the single-address function
`ResolveIPv4ProxyServerHost` falls back and returns `1.2.3.4`. -/
theorem resolve_all_proxy_server_host_no_fallback :
    ResolveAllIPv4ProxyServerHost globalsProxyFailing "example.com" [] =
      (([], some Err.ErrIPNotFound),
        [Event.hostsSearch "example.com",
         Event.resolverCall Method.ResolveAllIPv4 "example.com"]) ∧
    ResolveAllIPv6ProxyServerHost globalsProxyFailing "example.com" [] =
      (([], some Err.ErrIPNotFound),
        [Event.hostsSearch "example.com",
         Event.resolverCall Method.ResolveAllIPv6 "example.com"]) ∧
    ResolveAllIPProxyServerHost globalsProxyFailing "example.com" [] =
      (([], some Err.ErrIPNotFound),
        [Event.hostsSearch "example.com",
         Event.resolverCall Method.ResolveAllIP "example.com"]) ∧
    (ResolveAllIPv4 globalsProxyFailing "example.com" []).1 = ([addr1234], none) ∧
    (ResolveAllIP globalsProxyFailing "example.com" []).1 = ([addr1234], none) ∧
    (ResolveIPv4ProxyServerHost globalsProxyFailing "example.com" []).1 =
      some (addr1234, none) := by
  decide


/-! ## The metadata prehandler -/

/-- C14: with mapping mode disabled, if `Host` parses as the literal `ip`,
`preHandleMetadata` returns nil and the metadata has `DstIP = ip`, an empty
`Host`, and `AddrType` IPv4 when `ip` is IPv4 and IPv6 otherwise, its other
fields unchanged; if `Host` does not parse as a literal, it returns nil and
leaves the metadata, so `Host`, `DstIP` and `AddrType`, unchanged. -/
theorem prehandle_literal_host (g : Globals) (e : Enhancer) (md : Metadata)
    (hm : e.MappingEnabled = false) :
    (∀ ip, g.ParseAddr md.Host = some ip →
      preHandleMetadata g e md =
        ({ md with
           DstIP := ip
           Host := ""
           AddrType := if ip.Is4 then AddrType.AtypIPv4 else AddrType.AtypIPv6 }, none)) ∧
    (g.ParseAddr md.Host = none → preHandleMetadata g e md = (md, none)) := by
  refine ⟨?_, ?_⟩
  · intro ip hp
    simp [preHandleMetadata, needLookupIP, hm, hostToIP, hp]
  · intro hp
    simp [preHandleMetadata, needLookupIP, hm, hostToIP, hp]

/-- C14 on the literal hosts `1.2.3.4` and `::1` and on the name
`example.com`. -/
theorem prehandle_literal_host_witness :
    enhancerOff.MappingEnabled = false ∧
    preHandleMetadata (globalsOf true noHosts none) enhancerOff
      (flow NetWork.TCP "1.2.3.4") =
      ({ flow NetWork.TCP "" with DstIP := addr1234, AddrType := AddrType.AtypIPv4 },
        none) ∧
    preHandleMetadata (globalsOf true noHosts none) enhancerOff (flow NetWork.TCP "::1") =
      ({ flow NetWork.TCP "" with DstIP := addrLoopback6, AddrType := AddrType.AtypIPv6 },
        none) ∧
    preHandleMetadata (globalsOf true noHosts none) enhancerOff
      (flow NetWork.TCP "example.com") = (flow NetWork.TCP "example.com", none) :=
  ⟨rfl,
    (prehandle_literal_host (globalsOf true noHosts none) enhancerOff
      (flow NetWork.TCP "1.2.3.4") rfl).1 addr1234 (by decide),
    by decide,
    (prehandle_literal_host (globalsOf true noHosts none) enhancerOff
      (flow NetWork.TCP "example.com") rfl).2 (by decide)⟩

/-- C15: with mapping mode enabled, for a metadata that after the
literal-host block has an empty `Host` and a valid `DstIP` for which
`FindHostByIP` yields `h`, `preHandleMetadata` returns nil with `Host = h`
and `AddrType` the domain type; if the fake-IP pool is active `DstIP` is
cleared and `DNSMode` is `DNSFakeIP`; otherwise `DNSMode` is `DNSMapping` and
`DstIP` is the hosts-trie address of `h` when the trie contains `h` and
unchanged when it does not. -/
theorem prehandle_reverse_lookup (g : Globals) (e : Enhancer) (md : Metadata) (h : String)
    (hm : e.MappingEnabled = true) (hhost : (hostToIP g md).Host = "")
    (hvalid : (hostToIP g md).DstIP.IsValid = true)
    (hfind : e.FindHostByIP (hostToIP g md).DstIP = (h, true)) :
    (preHandleMetadata g e md).2 = none ∧
    (preHandleMetadata g e md).1.Host = h ∧
    (preHandleMetadata g e md).1.AddrType = AddrType.AtypDomainName ∧
    (e.FakeIPEnabled = true →
      (preHandleMetadata g e md).1.DstIP = Addr.zero ∧
      (preHandleMetadata g e md).1.DNSMode = DNSMode.DNSFakeIP) ∧
    (e.FakeIPEnabled = false →
      (preHandleMetadata g e md).1.DNSMode = DNSMode.DNSMapping ∧
      (∀ a, g.DefaultHosts h = some a → (preHandleMetadata g e md).1.DstIP = a) ∧
      (g.DefaultHosts h = none →
        (preHandleMetadata g e md).1.DstIP = (hostToIP g md).DstIP)) := by
  have hneed : needLookupIP e (hostToIP g md) = true := by
    simp [needLookupIP, hm, hhost, hvalid]
  by_cases hf : e.FakeIPEnabled = true
  · simp [preHandleMetadata, hneed, hfind, hf]
  · have hf' : e.FakeIPEnabled = false := by simpa using hf
    cases hh : g.DefaultHosts h with
    | none => simp [preHandleMetadata, hneed, hfind, hf', hh]
    | some a => simp [preHandleMetadata, hneed, hfind, hf', hh]

/-- C15 on a packet to `198.18.0.7:53` when the fake-IP pool maps that
address to `foo`: the host is `foo`, the DNS mode `DNSFakeIP`, and `DstIP` is
cleared. -/
theorem prehandle_reverse_lookup_witness :
    (enhancerFakeIP "foo").MappingEnabled = true ∧
    (hostToIP (globalsOf true noHosts none) (flowTo addrFake7)).Host = "" ∧
    (hostToIP (globalsOf true noHosts none) (flowTo addrFake7)).DstIP.IsValid = true ∧
    (enhancerFakeIP "foo").FindHostByIP
      (hostToIP (globalsOf true noHosts none) (flowTo addrFake7)).DstIP = ("foo", true) ∧
    (preHandleMetadata (globalsOf true noHosts none) (enhancerFakeIP "foo")
      (flowTo addrFake7)).1.Host = "foo" ∧
    (preHandleMetadata (globalsOf true noHosts none) (enhancerFakeIP "foo")
      (flowTo addrFake7)).1.DstIP = Addr.zero ∧
    (preHandleMetadata (globalsOf true noHosts none) (enhancerFakeIP "foo")
      (flowTo addrFake7)).1.DNSMode = DNSMode.DNSFakeIP :=
  ⟨rfl, by decide, by decide, by decide,
    (prehandle_reverse_lookup (globalsOf true noHosts none) (enhancerFakeIP "foo")
      (flowTo addrFake7) "foo" rfl (by decide) (by decide) (by decide)).2.1,
    ((prehandle_reverse_lookup (globalsOf true noHosts none) (enhancerFakeIP "foo")
      (flowTo addrFake7) "foo" rfl (by decide) (by decide) (by decide)).2.2.2.1 rfl).1,
    ((prehandle_reverse_lookup (globalsOf true noHosts none) (enhancerFakeIP "foo")
      (flowTo addrFake7) "foo" rfl (by decide) (by decide) (by decide)).2.2.2.1 rfl).2⟩

/-- C16, as the code has it: `preHandleMetadata` returns the error `fake DNS
record ... missing` exactly when mapping mode is enabled and the metadata,
after the literal-host block, has an empty `Host` and a valid `DstIP` that is
a fake-IP address whose reverse lookup misses; for every other metadata it
returns nil. -/
theorem prehandle_error_iff (g : Globals) (e : Enhancer) (md : Metadata) :
    (preHandleMetadata g e md).2 =
      (if e.MappingEnabled = true ∧ (hostToIP g md).Host = "" ∧
          (hostToIP g md).DstIP.IsValid = true ∧
          (e.FindHostByIP (hostToIP g md).DstIP).2 = false ∧
          e.IsFakeIP (hostToIP g md).DstIP = true
       then some (Err.other
          ("fake DNS record " ++ e.AddrString (hostToIP g md).DstIP ++ " missing"))
       else none) := by
  unfold preHandleMetadata
  by_cases hneed : needLookupIP e (hostToIP g md) = true
  · have hn := hneed
    simp only [needLookupIP, Bool.and_eq_true, beq_iff_eq] at hn
    obtain ⟨⟨h1, h2⟩, h3⟩ := hn
    simp only [hneed, if_true]
    rcases hfind : e.FindHostByIP (hostToIP g md).DstIP with ⟨host, exist⟩
    cases exist with
    | true =>
      by_cases hf : e.FakeIPEnabled = true
      · simp [hf]
      · cases hh : g.DefaultHosts host <;> simp [hf, hh]
    | false =>
      by_cases hfake : e.IsFakeIP (hostToIP g md).DstIP = true
      · simp [hfake, h1, h2, h3]
      · simp [hfake]
  · have hn : ¬ (e.MappingEnabled = true ∧ (hostToIP g md).Host = "" ∧
        (hostToIP g md).DstIP.IsValid = true) := by
      intro ⟨h1, h2, h3⟩
      exact hneed (by simp [needLookupIP, h1, h2, h3])
    have hcond : ¬ (e.MappingEnabled = true ∧ (hostToIP g md).Host = "" ∧
        (hostToIP g md).DstIP.IsValid = true ∧
        (e.FindHostByIP (hostToIP g md).DstIP).2 = false ∧
        e.IsFakeIP (hostToIP g md).DstIP = true) := by
      intro ⟨h1, h2, h3, _, _⟩
      exact hn ⟨h1, h2, h3⟩
    simp only [hneed, hcond, if_false]
    simp

/-- C16 fails as stated: in fake-IP mode, a flow with the host name
`example.com` and the destination address `198.18.0.8`, a fake-IP address
whose reverse lookup misses, passes `preHandleMetadata` with a nil error and
unchanged; the same flow without the host name is refused. -/
theorem prehandle_fake_ip_with_host_passes :
    (enhancerFakeIP "foo").IsFakeIP addrFake8 = true ∧
    (enhancerFakeIP "foo").FindHostByIP addrFake8 = ("", false) ∧
    preHandleMetadata (globalsOf true noHosts none) (enhancerFakeIP "foo")
      { flowTo addrFake8 with Host := "example.com" } =
      ({ flowTo addrFake8 with Host := "example.com" }, none) ∧
    preHandleMetadata (globalsOf true noHosts none) (enhancerFakeIP "foo")
      (flowTo addrFake8) =
      (flowTo addrFake8, some (Err.other "fake DNS record 198.18.0.8 missing")) := by
  decide

/-- The literal-host block keeps a destination: a metadata with a host or a
valid `DstIP` has one afterwards, when `netip.ParseAddr` returns valid
addresses only. -/
theorem hostToIP_keeps_destination (g : Globals) (md : Metadata)
    (hparse : ∀ s ip, g.ParseAddr s = some ip → ip.IsValid = true)
    (hpre : md.Host ≠ "" ∨ md.DstIP.IsValid = true) :
    (hostToIP g md).Host ≠ "" ∨ (hostToIP g md).DstIP.IsValid = true := by
  unfold hostToIP
  cases hp : g.ParseAddr md.Host with
  | none => exact hpre
  | some ip => exact Or.inr (hparse _ ip hp)

/-- C17, as the code has it: provided the reverse lookup never yields an
empty host name (and `netip.ParseAddr` returns valid addresses only), for
every metadata in which `Host` is non-empty or `DstIP` is valid before the
call, `Host` is non-empty or `DstIP` is valid after `preHandleMetadata`,
whatever it returns and for every state of the mapping and fake-IP flags and
of the hosts trie. -/
theorem prehandle_keeps_destination (g : Globals) (e : Enhancer) (md : Metadata)
    (hparse : ∀ s ip, g.ParseAddr s = some ip → ip.IsValid = true)
    (hnames : ∀ ip h, e.FindHostByIP ip = (h, true) → h ≠ "")
    (hpre : md.Host ≠ "" ∨ md.DstIP.IsValid = true) :
    (preHandleMetadata g e md).1.Host ≠ "" ∨
      (preHandleMetadata g e md).1.DstIP.IsValid = true := by
  have h1 := hostToIP_keeps_destination g md hparse hpre
  unfold preHandleMetadata
  by_cases hneed : needLookupIP e (hostToIP g md) = true
  · simp only [hneed, if_true]
    rcases hfind : e.FindHostByIP (hostToIP g md).DstIP with ⟨host, exist⟩
    cases exist with
    | true =>
      have hne := hnames _ host hfind
      by_cases hf : e.FakeIPEnabled = true
      · simp only [hf, if_true]
        exact Or.inl hne
      · simp only [hf]
        cases hh : g.DefaultHosts host <;> exact Or.inl hne
    | false =>
      by_cases hfake : e.IsFakeIP (hostToIP g md).DstIP = true
      · simp only [hfake, if_true]; exact h1
      · simp only [hfake]; exact h1
  · simp only [hneed]
    exact h1

/-- The function `parseLiterals` returns valid addresses only. -/
theorem parseLiterals_valid (s : String) (ip : Addr) (h : parseLiterals s = some ip) :
    ip.IsValid = true := by
  unfold parseLiterals at h
  split at h
  · cases h; rfl
  · split at h
    · cases h; rfl
    · split at h
      · cases h; rfl
      · split at h
        · cases h; rfl
        · cases h

/-- C17 on a packet to `198.18.0.7:53` when the fake-IP pool maps that
address to `foo`: afterwards the host is set. -/
theorem prehandle_keeps_destination_witness :
    ((flowTo addrFake7).Host ≠ "" ∨ (flowTo addrFake7).DstIP.IsValid = true) ∧
    ((preHandleMetadata (globalsOf true noHosts none) (enhancerFakeIP "foo")
        (flowTo addrFake7)).1.Host ≠ "" ∨
      (preHandleMetadata (globalsOf true noHosts none) (enhancerFakeIP "foo")
        (flowTo addrFake7)).1.DstIP.IsValid = true) :=
  ⟨Or.inr rfl,
    prehandle_keeps_destination (globalsOf true noHosts none) (enhancerFakeIP "foo")
      (flowTo addrFake7) parseLiterals_valid
      (by
        intro ip h hfind
        simp only [enhancerFakeIP] at hfind
        split at hfind
        · simp only [Prod.mk.injEq] at hfind
          rw [← hfind.1]
          decide
        · simp at hfind)
      (Or.inr rfl)⟩

/-- C17 fails as stated: when the fake-IP pool maps `198.18.0.7` to the
empty host name, a packet to `198.18.0.7:53`, whose `DstIP` is valid,
passes `preHandleMetadata` with a nil error and leaves it with an empty
`Host` and an unset `DstIP`. -/
theorem prehandle_loses_destination :
    (flowTo addrFake7).DstIP.IsValid = true ∧
    (enhancerFakeIP "").FindHostByIP addrFake7 = ("", true) ∧
    (preHandleMetadata (globalsOf true noHosts none) (enhancerFakeIP "")
      (flowTo addrFake7)).2 = none ∧
    (preHandleMetadata (globalsOf true noHosts none) (enhancerFakeIP "")
      (flowTo addrFake7)).1.Host = "" ∧
    (preHandleMetadata (globalsOf true noHosts none) (enhancerFakeIP "")
      (flowTo addrFake7)).1.DstIP.IsValid = false := by
  decide

/-! ## The mode switch -/

/-- A call of `match` adds at least the hosts-trie search to the trace. -/
theorem match_trace_grows (t : Tunnel) (md : Metadata) (tr : Trace) :
    (match_ t md tr).2.trace ≠ tr := by
  obtain ⟨evs, htr, _⟩ := matchLoop_resolve_events t t.rules (hostsStep t md tr)
  have htrace : (hostsStep t md tr).trace = tr ++ [Event.hostsSearch md.Host] := by
    unfold hostsStep
    cases t.resolver.DefaultHosts md.Host <;> rfl
  intro h
  have hlen : (match_ t md tr).2.trace.length = tr.length := by rw [h]
  have hm : (match_ t md tr).2.trace = tr ++ [Event.hostsSearch md.Host] ++ evs := by
    show (matchLoop t t.rules (hostsStep t md tr)).2.trace = _
    rw [htr, htrace]
  rw [hm] at hlen
  simp at hlen

/-- C18: in Direct mode `resolveMetadata` returns `proxies["DIRECT"]` with a
nil rule and a nil error, and in Global mode `proxies["GLOBAL"]` with a nil
rule and a nil error, for every metadata and rule list, with the trace
unchanged, so without evaluating a rule, and with the metadata unchanged;
in Rule mode the result is that of `match(metadata)`, and only in Rule mode
is it that of `match`. -/
theorem resolveMetadata_by_mode (t : Tunnel) (md : Metadata) (tr : Trace) :
    resolveMetadata t TunnelMode.Direct md tr =
      (some (t.proxies "DIRECT", none, none), md, tr) ∧
    resolveMetadata t TunnelMode.Global md tr =
      (some (t.proxies "GLOBAL", none, none), md, tr) ∧
    resolveMetadata t TunnelMode.Rule md tr =
      ((match_ t md tr).1, (match_ t md tr).2.metadata, (match_ t md tr).2.trace) ∧
    ∀ mode, resolveMetadata t mode md tr =
        ((match_ t md tr).1, (match_ t md tr).2.metadata, (match_ t md tr).2.trace) ↔
      mode = TunnelMode.Rule := by
  refine ⟨rfl, rfl, rfl, ?_⟩
  intro mode
  constructor
  · intro h
    cases mode with
    | Rule => rfl
    | Direct =>
      simp only [resolveMetadata, Prod.mk.injEq] at h
      exact absurd h.2.2.symm (match_trace_grows t md tr)
    | Global =>
      simp only [resolveMetadata, Prod.mk.injEq] at h
      exact absurd h.2.2.symm (match_trace_grows t md tr)
  · intro h
    subst h
    rfl

/-! ## Composite rules -/

/-- The model of the composite rules passes the cases of `logic_test.go`:
the payloads of `TestAND`, `TestNOT` and `TestOR` parse or fail as the tests
assert, and the parsed rules match as they assert. -/
theorem logic_test_cases :
    ((NewAND "((DOMAIN,baidu.com),(NETWORK,TCP),(DST-PORT,10001-65535))" "DIRECT"
        (ParseRule 1)).map
      (fun r => (r.Adapter, r.ShouldResolveIP,
        r.Match (flowToPort NetWork.TCP "baidu.com" "20000")))) =
      some ("DIRECT", false, true) ∧
    (NewAND "(DOMAIN,baidu.com),(NETWORK,TCP),(DST-PORT,10001-65535))" "DIRECT"
      (ParseRule 1)).isNone = true ∧
    (NewAND "((AND,(DOMAIN,baidu.com),(NETWORK,TCP)),(NETWORK,TCP),(DST-PORT,10001-65535))"
      "DIRECT" (ParseRule 1)).isSome = true ∧
    ((NewNOT "((DST-PORT,6000-6500))" "REJECT" (ParseRule 1)).map
      (fun r => r.Match (flowToPort NetWork.TCP "" "6100"))) = some false ∧
    (NewNOT "((DST-PORT,5600-6666),(DOMAIN,baidu.com))" "DIRECT" (ParseRule 1)).isNone =
      true ∧
    (NewNOT "(())" "DIRECT" (ParseRule 1)).isNone = true ∧
    ((NewOR "((DOMAIN,baidu.com),(NETWORK,TCP),(DST-PORT,10001-65535))" "DIRECT"
        (ParseRule 1)).map
      (fun r => (r.Match (flowToPort NetWork.TCP "" ""), r.ShouldResolveIP))) =
      some (true, false) := by
  decide

/-- The short-circuit evaluation of `AND` gives the conjunction of the
sub-rules. -/
theorem andMatch_iff (rules : List Rule) (m : Metadata) :
    andMatch rules m = true ↔ ∀ r ∈ rules, r.Match m = true := by
  induction rules with
  | nil => simp [andMatch]
  | cons rule rest ih =>
    by_cases h : rule.Match m = true
    · simp [andMatch, h, ih]
    · simp [andMatch, h]

/-- The short-circuit evaluation of `OR` gives the disjunction of the
sub-rules. -/
theorem orMatch_iff (rules : List Rule) (m : Metadata) :
    orMatch rules m = true ↔ ∃ r ∈ rules, r.Match m = true := by
  induction rules with
  | nil => simp [orMatch]
  | cons rule rest ih =>
    by_cases h : rule.Match m = true
    · simp [orMatch, h]
    · simp [orMatch, h, ih]

/-- C19: for every sub-rule `X` and metadata `m`, the rule that `NewNOT`
parses from a payload holding the one sub-rule `X` (the payload `((X))`)
matches `m` iff `X` does not match `m`. -/
theorem not_rule_negates (parse : ParseRuleFunc) (payload adapter : String) (X : Rule)
    (h : parseRuleByPayload payload parse = some [X]) :
    ∃ n, NewNOT payload adapter parse = some n ∧
      ∀ m, n.Match m = true ↔ X.Match m = false := by
  refine ⟨{ Match := fun m => !X.Match m, Adapter := adapter,
             ShouldResolveIP := X.ShouldResolveIP,
             ShouldFindProcess := X.ShouldFindProcess },
    by simp only [NewNOT, h], ?_⟩
  intro m
  simp

/-- C19 on the payload `((DST-PORT,6000-6500))`: the sub-rule is the port
rule of the range 6000 to 6500, it matches a flow whose destination port is
6100, and the `NOT` rule does not. -/
theorem not_rule_negates_witness :
    parseRuleByPayload "((DST-PORT,6000-6500))" (ParseRule 1) =
      some [portRule 6000 6500 false ""] ∧
    (portRule 6000 6500 false "").Match (flowToPort NetWork.TCP "" "6100") = true ∧
    ∃ n, NewNOT "((DST-PORT,6000-6500))" "REJECT" (ParseRule 1) = some n ∧
      n.Match (flowToPort NetWork.TCP "" "6100") = false :=
  ⟨rfl, by decide,
    (not_rule_negates (ParseRule 1) "((DST-PORT,6000-6500))" "REJECT"
      (portRule 6000 6500 false "") rfl).imp
      (fun n hn => ⟨hn.1, Bool.eq_false_iff.mpr (fun hm =>
        absurd ((hn.2 (flowToPort NetWork.TCP "" "6100")).mp hm) (by decide))⟩)⟩

/-- C20: for every list of sub-rules (the non-empty ones among them) and
every metadata `m`, the `AND` rule parsed from a payload holding these
sub-rules matches `m` iff every sub-rule matches `m`, and the `OR` rule
matches `m` iff at least one sub-rule matches `m`; the evaluation in order
with short-circuiting does not change the result. -/
theorem and_or_rules_combine (parse : ParseRuleFunc) (payload adapter : String)
    (rules : List Rule) (h : parseRuleByPayload payload parse = some rules) :
    (∃ a, NewAND payload adapter parse = some a ∧
      ∀ m, a.Match m = true ↔ ∀ r ∈ rules, r.Match m = true) ∧
    (∃ o, NewOR payload adapter parse = some o ∧
      ∀ m, o.Match m = true ↔ ∃ r ∈ rules, r.Match m = true) := by
  refine ⟨⟨{ Match := andMatch rules, Adapter := adapter,
              ShouldResolveIP := rules.any (fun r => r.ShouldResolveIP),
              ShouldFindProcess := rules.any (fun r => r.ShouldFindProcess) },
      by simp only [NewAND, h, Option.map_some'], ?_⟩,
    ⟨{ Match := orMatch rules, Adapter := adapter,
       ShouldResolveIP := rules.any (fun r => r.ShouldResolveIP),
       ShouldFindProcess := rules.any (fun r => r.ShouldFindProcess) },
      by simp only [NewOR, h, Option.map_some'], ?_⟩⟩
  · intro m
    exact andMatch_iff rules m
  · intro m
    exact orMatch_iff rules m

/-- C20 on the payload `((DOMAIN,baidu.com),(NETWORK,TCP),(DST-PORT,10001-65535))`
and two TCP flows to `baidu.com`: the `AND` rule matches the one to port
20000 and not the one to port 80, which the `OR` rule matches. -/
theorem and_or_rules_combine_witness :
    parseRuleByPayload "((DOMAIN,baidu.com),(NETWORK,TCP),(DST-PORT,10001-65535))"
      (ParseRule 1) =
      some [NewDomain "baidu.com" "", networkRule NetWork.TCP "",
            portRule 10001 65535 false ""] ∧
    (∃ a, NewAND "((DOMAIN,baidu.com),(NETWORK,TCP),(DST-PORT,10001-65535))" "PROXY1"
        (ParseRule 1) = some a ∧
      a.Match (flowToPort NetWork.TCP "baidu.com" "20000") = true ∧
      a.Match (flowToPort NetWork.TCP "baidu.com" "80") = false) ∧
    ∃ o, NewOR "((DOMAIN,baidu.com),(NETWORK,TCP),(DST-PORT,10001-65535))" "PROXY1"
        (ParseRule 1) = some o ∧
      o.Match (flowToPort NetWork.TCP "baidu.com" "80") = true :=
  ⟨rfl,
    (and_or_rules_combine (ParseRule 1)
      "((DOMAIN,baidu.com),(NETWORK,TCP),(DST-PORT,10001-65535))" "PROXY1"
      [NewDomain "baidu.com" "", networkRule NetWork.TCP "", portRule 10001 65535 false ""]
      rfl).1.imp
      (fun a ha => ⟨ha.1,
        (ha.2 (flowToPort NetWork.TCP "baidu.com" "20000")).mpr (by decide),
        Bool.eq_false_iff.mpr (fun hm =>
          absurd ((ha.2 (flowToPort NetWork.TCP "baidu.com" "80")).mp hm) (by decide))⟩),
    (and_or_rules_combine (ParseRule 1)
      "((DOMAIN,baidu.com),(NETWORK,TCP),(DST-PORT,10001-65535))" "PROXY1"
      [NewDomain "baidu.com" "", networkRule NetWork.TCP "", portRule 10001 65535 false ""]
      rfl).2.imp
      (fun o ho => ⟨ho.1,
        (ho.2 (flowToPort NetWork.TCP "baidu.com" "80")).mpr (by decide)⟩)⟩

/-- C21: for the `AND` and the `OR` rule parsed from a payload holding the
sub-rules `rules`, and for the `NOT` rule parsed from a payload holding the
one sub-rule `X`, `ShouldResolveIP()` is true iff it is true for at least
one sub-rule, and likewise `ShouldFindProcess()`. -/
theorem composite_should_resolve (parse : ParseRuleFunc) (payload adapter : String)
    (rules : List Rule) (h : parseRuleByPayload payload parse = some rules) :
    (∃ a, NewAND payload adapter parse = some a ∧
      (a.ShouldResolveIP = true ↔ ∃ r ∈ rules, r.ShouldResolveIP = true) ∧
      (a.ShouldFindProcess = true ↔ ∃ r ∈ rules, r.ShouldFindProcess = true)) ∧
    (∃ o, NewOR payload adapter parse = some o ∧
      (o.ShouldResolveIP = true ↔ ∃ r ∈ rules, r.ShouldResolveIP = true) ∧
      (o.ShouldFindProcess = true ↔ ∃ r ∈ rules, r.ShouldFindProcess = true)) ∧
    (∀ X, rules = [X] →
      ∃ n, NewNOT payload adapter parse = some n ∧
        (n.ShouldResolveIP = true ↔ ∃ r ∈ rules, r.ShouldResolveIP = true) ∧
        (n.ShouldFindProcess = true ↔ ∃ r ∈ rules, r.ShouldFindProcess = true)) := by
  refine ⟨⟨{ Match := andMatch rules, Adapter := adapter,
             ShouldResolveIP := rules.any (fun r => r.ShouldResolveIP),
             ShouldFindProcess := rules.any (fun r => r.ShouldFindProcess) },
      by simp only [NewAND, h, Option.map_some'], by simp, by simp⟩,
    ⟨{ Match := orMatch rules, Adapter := adapter,
       ShouldResolveIP := rules.any (fun r => r.ShouldResolveIP),
       ShouldFindProcess := rules.any (fun r => r.ShouldFindProcess) },
      by simp only [NewOR, h, Option.map_some'], by simp, by simp⟩, ?_⟩
  intro X hX
  subst hX
  exact ⟨{ Match := fun m => !X.Match m, Adapter := adapter,
           ShouldResolveIP := X.ShouldResolveIP,
           ShouldFindProcess := X.ShouldFindProcess },
    by simp only [NewNOT, h], by simp, by simp⟩

/-- C21 on the payload `((DOMAIN,baidu.com),(NETWORK,TCP),(DST-PORT,10001-65535))`
of `TestAND` and `TestOR`, whose sub-rules need no resolution: neither does
the `AND` rule nor the `OR` rule. -/
theorem composite_should_resolve_witness :
    parseRuleByPayload "((DOMAIN,baidu.com),(NETWORK,TCP),(DST-PORT,10001-65535))"
      (ParseRule 1) =
      some [NewDomain "baidu.com" "", networkRule NetWork.TCP "",
            portRule 10001 65535 false ""] ∧
    (∃ a, NewAND "((DOMAIN,baidu.com),(NETWORK,TCP),(DST-PORT,10001-65535))" "DIRECT"
        (ParseRule 1) = some a ∧ a.ShouldResolveIP = false) ∧
    ∃ o, NewOR "((DOMAIN,baidu.com),(NETWORK,TCP),(DST-PORT,10001-65535))" "DIRECT"
        (ParseRule 1) = some o ∧ o.ShouldResolveIP = false :=
  ⟨rfl,
    (composite_should_resolve (ParseRule 1)
      "((DOMAIN,baidu.com),(NETWORK,TCP),(DST-PORT,10001-65535))" "DIRECT"
      [NewDomain "baidu.com" "", networkRule NetWork.TCP "", portRule 10001 65535 false ""]
      rfl).1.imp
      (fun a ha => ⟨ha.1, Bool.eq_false_iff.mpr (fun hs =>
        absurd (ha.2.1.mp hs) (by decide))⟩),
    (composite_should_resolve (ParseRule 1)
      "((DOMAIN,baidu.com),(NETWORK,TCP),(DST-PORT,10001-65535))" "DIRECT"
      [NewDomain "baidu.com" "", networkRule NetWork.TCP "", portRule 10001 65535 false ""]
      rfl).2.1.imp
      (fun o ho => ⟨ho.1, Bool.eq_false_iff.mpr (fun hs =>
        absurd (ho.2.1.mp hs) (by decide))⟩)⟩

/-- Cutting a list before the first element that fails `p`. -/
theorem span_until (p : Char → Bool) (l1 l2 : List Char) (x : Char)
    (h1 : ∀ c ∈ l1, p c = true) (hx : p x = false) :
    (l1 ++ x :: l2).span p = (l1, x :: l2) := by
  induction l1 with
  | nil => simp [hx]
  | cons a l1 ih =>
    have ha : p a = true := h1 a (by simp)
    have := ih (fun c hc => h1 c (by simp [hc]))
    simp only [List.span_eq_take_drop, Prod.mk.injEq] at this ⊢
    simp [List.takeWhile_cons, List.dropWhile_cons, ha, this]

/-- The nesting depth of a text in two pieces. -/
theorem scanDepth_append (a b : List Char) (d : Nat) :
    scanDepth (a ++ b) d = (scanDepth a d).bind (fun e => scanDepth b e) := by
  induction a generalizing d with
  | nil => simp [scanDepth]
  | cons c cs ih =>
    simp only [List.cons_append, scanDepth]
    split
    · exact ih _
    · split
      · cases d with
        | zero => simp
        | succ d1 => exact ih _
      · exact ih _

/-- A text that closes what it opens does so at every depth. -/
theorem scanDepth_shift (cs : List Char) (d e k : Nat) (h : scanDepth cs d = some e) :
    scanDepth cs (d + k) = some (e + k) := by
  induction cs generalizing d with
  | nil =>
    simp only [scanDepth, Option.some.injEq] at h ⊢
    omega
  | cons c cs ih =>
    simp only [scanDepth] at h ⊢
    split
    · rename_i hc
      rw [if_pos hc] at h
      have := ih (d + 1) h
      rw [show d + k + 1 = d + 1 + k by omega]
      exact this
    · rename_i hc
      rw [if_neg hc] at h
      split
      · rename_i hc2
        rw [if_pos hc2] at h
        cases d with
        | zero => simp at h
        | succ d1 =>
          simp only at h
          have := ih d1 h
          rw [show d1 + 1 + k = (d1 + k) + 1 by omega]
          exact this
      · rename_i hc2
        rw [if_neg hc2] at h
        exact ih d h

/-- A text without parentheses leaves the depth alone. -/
theorem scanDepth_plain (cs : List Char) (d : Nat)
    (h : ∀ c ∈ cs, c ≠ '(' ∧ c ≠ ')') : scanDepth cs d = some d := by
  induction cs with
  | nil => rfl
  | cons c cs ih =>
    have hc := h c (by simp)
    simp only [scanDepth, if_neg hc.1, if_neg hc.2]
    exact ih (fun x hx => h x (by simp [hx]))

/-- A text whose parentheses match leaves every depth alone. -/
theorem scanDepth_balanced (cs : List Char) (d : Nat) (h : balanced cs = true) :
    scanDepth cs d = some d := by
  have h0 : scanDepth cs 0 = some 0 := by
    simpa [balanced] using h
  simpa using scanDepth_shift cs 0 0 d h0

/-- The parentheses of the body `TYPE,PAYLOAD` of a well-formed item
match. -/
theorem scanDepth_body (item : List Char × List Char) (d : Nat) (h : WellFormedItem item) :
    scanDepth (item.1 ++ ',' :: item.2) d = some d := by
  rw [scanDepth_append, scanDepth_plain item.1 d (fun c hc => (h.1 c hc).2)]
  simp only [Option.some_bind, scanDepth]
  rw [if_neg (by decide), if_neg (by decide)]
  exact scanDepth_balanced item.2 d h.2

/-- The text of an item is `(`, its body and `)`. -/
theorem itemText_eq (item : List Char × List Char) :
    itemText item = '(' :: ((item.1 ++ ',' :: item.2) ++ [')']) := by
  simp [itemText]

/-- The parentheses of a well-formed item match. -/
theorem scanDepth_item (item : List Char × List Char) (d : Nat) (h : WellFormedItem item) :
    scanDepth (itemText item) d = some d := by
  rw [itemText_eq]
  simp only [scanDepth, if_pos]
  rw [scanDepth_append, scanDepth_body item (d + 1) h]
  simp [scanDepth]

/-- The parentheses of a list of well-formed items match. -/
theorem scanDepth_join (items : List (List Char × List Char)) (d : Nat)
    (h : ∀ i ∈ items, WellFormedItem i) : scanDepth (joinItems items) d = some d := by
  induction items with
  | nil => rfl
  | cons item rest ih =>
    cases rest with
    | nil => exact scanDepth_item item d (h item (by simp))
    | cons next rest =>
      simp only [joinItems]
      rw [scanDepth_append, scanDepth_item item d (h item (by simp))]
      simp only [Option.some_bind, scanDepth]
      rw [if_neg (by decide), if_neg (by decide)]
      exact ih (fun i hi => h i (by simp [hi]))

/-- Inside parentheses no comma cuts: a text that closes what it opens is
read through at a depth above 0. -/
theorem splitTop_inside (cs rest : List Char) (d e k : Nat) (cur : List Char)
    (h : scanDepth cs d = some e) :
    splitTop (cs ++ rest) (d + k + 1) cur = splitTop rest (e + k + 1) (cs.reverse ++ cur) := by
  induction cs generalizing d cur with
  | nil =>
    simp only [scanDepth, Option.some.injEq] at h
    subst h
    simp
  | cons c cs ih =>
    simp only [scanDepth] at h
    have hstep : splitTop (c :: cs ++ rest) (d + k + 1) cur =
        if c = '(' then splitTop (cs ++ rest) (d + k + 1 + 1) (c :: cur)
        else if c = ')' then splitTop (cs ++ rest) (d + k + 1 - 1) (c :: cur)
        else splitTop (cs ++ rest) (d + k + 1) (c :: cur) := by
      show splitTop (c :: (cs ++ rest)) (d + k + 1) cur = _
      rw [splitTop]
      simp
    rw [hstep]
    by_cases hc : c = '('
    · rw [if_pos hc] at h
      rw [if_pos hc]
      have := ih (d + 1) (c :: cur) h
      rw [show d + 1 + k + 1 = d + k + 1 + 1 by omega] at this
      rw [this]
      simp
    · rw [if_neg hc] at h
      rw [if_neg hc]
      by_cases hc2 : c = ')'
      · rw [if_pos hc2] at h
        rw [if_pos hc2]
        cases d with
        | zero => simp at h
        | succ d1 =>
          simp only at h
          have := ih d1 (c :: cur) h
          rw [show d1 + 1 + k + 1 - 1 = d1 + k + 1 by omega, this]
          simp
      · rw [if_neg hc2] at h
        rw [if_neg hc2]
        rw [ih d (c :: cur) h]
        simp

/-- A well-formed item is read through as one piece. -/
theorem splitTop_item (item : List Char × List Char) (rest cur : List Char)
    (h : WellFormedItem item) :
    splitTop (itemText item ++ rest) 0 cur =
      splitTop rest 0 ((itemText item).reverse ++ cur) := by
  have h1 : itemText item ++ rest =
      '(' :: ((item.1 ++ ',' :: item.2) ++ (')' :: rest)) := by
    simp [itemText]
  have h2 : splitTop ('(' :: ((item.1 ++ ',' :: item.2) ++ (')' :: rest))) 0 cur =
      splitTop ((item.1 ++ ',' :: item.2) ++ (')' :: rest)) 1 ('(' :: cur) := by
    rw [splitTop]
    simp
  have h3 := splitTop_inside (item.1 ++ ',' :: item.2) (')' :: rest) 0 0 0 ('(' :: cur)
    (scanDepth_body item 0 h)
  have h4 : splitTop (')' :: rest) 1 ((item.1 ++ ',' :: item.2).reverse ++ '(' :: cur) =
      splitTop rest 0 (')' :: ((item.1 ++ ',' :: item.2).reverse ++ '(' :: cur)) := by
    rw [splitTop]
    simp
  rw [h1, h2, h3, h4]
  simp [itemText]

/-- The pieces of a list of well-formed items are the texts of the items. -/
theorem splitTop_join (items : List (List Char × List Char)) (hne : items ≠ [])
    (h : ∀ i ∈ items, WellFormedItem i) :
    splitTop (joinItems items) 0 [] = items.map itemText := by
  induction items with
  | nil => exact absurd rfl hne
  | cons item rest ih =>
    cases rest with
    | nil =>
      have := splitTop_item item [] [] (h item (by simp))
      simp only [List.append_nil] at this
      show splitTop (itemText item) 0 [] = [itemText item]
      rw [this]
      simp [splitTop]
    | cons next rest =>
      have hrest := ih (by simp) (fun i hi => h i (by simp [hi]))
      show splitTop (itemText item ++ ',' :: joinItems (next :: rest)) 0 [] = _
      rw [splitTop_item item _ [] (h item (by simp))]
      rw [splitTop]
      simp [hrest]

/-- The outer pair is taken off a text enclosed in `(` and `)` whose inside
has matching parentheses. -/
theorem stripOuter_wrap (body : List Char) (h : balanced body = true) :
    stripOuter ('(' :: (body ++ [')'])) = some body := by
  simp [stripOuter, h]

/-- A text that does not open with `(` has no outer pair. -/
theorem stripOuter_plain (cs : List Char) (h : ∀ c ∈ cs, c ≠ '(') :
    stripOuter cs = none := by
  cases cs with
  | nil => rfl
  | cons c cs =>
    have hc : c ≠ '(' := h c (by simp)
    unfold stripOuter
    split
    · rename_i rest heq
      simp only [List.cons.injEq] at heq
      exact absurd heq.1 hc
    · rfl

/-- The body of a well-formed item has matching parentheses. -/
theorem balanced_body (item : List Char × List Char) (h : WellFormedItem item) :
    balanced (item.1 ++ ',' :: item.2) = true := by
  simp [balanced, scanDepth_body item 0 h]

/-- A well-formed item `(TYPE,PAYLOAD)` is handed to the parse callback as
`TYPE` and `PAYLOAD`. -/
theorem payloadToRule_item (parse : ParseRuleFunc) (item : List Char × List Char)
    (h : WellFormedItem item) :
    payloadToRule parse (itemText item) =
      parse (String.mk item.1) (String.mk item.2) "" [] := by
  unfold payloadToRule
  rw [itemText_eq, stripOuter_wrap _ (balanced_body item h)]
  simp only
  rw [span_until (fun c => c != ',') item.1 item.2 ','
    (fun c hc => by simpa using (h.1 c hc).1) (by simp)]

/-- The pieces of a list of well-formed items parse to what the parse
callback gives for the items. -/
theorem mapM_itemText (parse : ParseRuleFunc) (items : List (List Char × List Char))
    (h : ∀ i ∈ items, WellFormedItem i) :
    (items.map itemText).mapM (payloadToRule parse) = parseItems parse items := by
  induction items with
  | nil => rfl
  | cons item rest ih =>
    rw [List.map_cons, List.mapM_cons, payloadToRule_item parse item (h item (by simp)),
      ih (fun i hi => h i (by simp [hi]))]
    simp only [parseItems]
    cases parse (String.mk item.1) (String.mk item.2) "" [] with
    | none => rfl
    | some r =>
      cases parseItems parse rest with
      | none => rfl
      | some rs => rfl

/-- The parse callback gives as many rules as there are items. -/
theorem parseItems_length (parse : ParseRuleFunc) (items : List (List Char × List Char))
    (rules : List Rule) (h : parseItems parse items = some rules) :
    rules.length = items.length := by
  induction items generalizing rules with
  | nil =>
    simp only [parseItems, Option.some.injEq] at h
    subst h
    rfl
  | cons item rest ih =>
    simp only [parseItems] at h
    cases hp : parse (String.mk item.1) (String.mk item.2) "" [] with
    | none => simp [hp] at h
    | some r =>
      cases hr : parseItems parse rest with
      | none => simp [hp, hr] at h
      | some rs =>
        simp only [hp, hr, Option.some.injEq] at h
        subst h
        simp [ih rs hr]

/-- An enclosed list of well-formed items parses to what the parse callback
gives for the items. -/
theorem parseRuleByPayload_enclosed (parse : ParseRuleFunc)
    (items : List (List Char × List Char)) (hne : items ≠ [])
    (h : ∀ i ∈ items, WellFormedItem i) (payload : String)
    (hp : payload.data = '(' :: (joinItems items ++ [')'])) :
    parseRuleByPayload payload parse = parseItems parse items := by
  have hj : balanced (joinItems items) = true := by
    simp [balanced, scanDepth_join items 0 h]
  have hb : balanced payload.data = true := by
    rw [hp]
    simp [balanced, scanDepth, scanDepth_append, scanDepth_join items 1 h]
  unfold parseRuleByPayload
  rw [if_pos hb, hp, stripOuter_wrap _ hj]
  simp only [Option.getD_some]
  rw [splitTop_join items hne h, mapM_itemText parse items h]

/-- A text whose first parenthesis closes before its end has no outer
pair. -/
theorem stripOuter_closed_early (body tail : List Char) (hb : scanDepth body 0 = some 0)
    (ht : tail ≠ []) : stripOuter ('(' :: (body ++ ')' :: tail)) = none := by
  have hdrop : (body ++ ')' :: tail).dropLast = body ++ ')' :: tail.dropLast := by
    rw [List.dropLast_append_of_ne_nil _ (by simp), List.dropLast_cons_of_ne_nil ht]
  have hbal : balanced ((body ++ ')' :: tail).dropLast) = false := by
    rw [hdrop]
    unfold balanced
    rw [scanDepth_append, hb]
    simp [scanDepth]
  show (if (body ++ ')' :: tail).getLast? == some ')' &&
      balanced ((body ++ ')' :: tail).dropLast) then
      some ((body ++ ')' :: tail).dropLast) else none) = none
  rw [hbal]
  simp

/-- A list of two or more well-formed items has no outer pair. -/
theorem stripOuter_bare (item next : List Char × List Char)
    (rest : List (List Char × List Char)) (h : WellFormedItem item) :
    stripOuter (joinItems (item :: next :: rest)) = none := by
  have hshape : joinItems (item :: next :: rest) =
      '(' :: ((item.1 ++ ',' :: item.2) ++ ')' :: (',' :: joinItems (next :: rest))) := by
    simp [joinItems, itemText]
  rw [hshape]
  exact stripOuter_closed_early _ _ (scanDepth_body item 0 h) (by simp)

/-- A list of two or more well-formed items without the outer pair parses
to what the parse callback gives for the items. -/
theorem parseRuleByPayload_bare (parse : ParseRuleFunc)
    (items : List (List Char × List Char)) (hlen : 2 ≤ items.length)
    (h : ∀ i ∈ items, WellFormedItem i) (payload : String)
    (hp : payload.data = joinItems items) :
    parseRuleByPayload payload parse = parseItems parse items := by
  have hb : balanced payload.data = true := by
    rw [hp]
    simp [balanced, scanDepth_join items 0 h]
  match items, hlen, h with
  | item :: next :: rest, _, h =>
    unfold parseRuleByPayload
    rw [if_pos hb, hp, stripOuter_bare item next rest (h item (by simp))]
    simp only [Option.getD_none]
    rw [splitTop_join _ (by simp) h, mapM_itemText parse _ h]

/-- A text without commas and parentheses is read through as it is. -/
theorem splitTop_plain (cs rest : List Char) (d : Nat) (cur : List Char)
    (h : ∀ c ∈ cs, c ≠ ',' ∧ c ≠ '(' ∧ c ≠ ')') :
    splitTop (cs ++ rest) d cur = splitTop rest d (cs.reverse ++ cur) := by
  induction cs generalizing cur with
  | nil => simp
  | cons c cs ih =>
    have hc := h c (by simp)
    show splitTop (c :: (cs ++ rest)) d cur = _
    rw [splitTop]
    simp only [hc.1, hc.2.1, hc.2.2, decide_False, Bool.false_and, Bool.false_eq_true,
      if_false]
    rw [ih (c :: cur) (fun x hx => h x (by simp [hx]))]
    simp

/-- One well-formed item without the outer pair is a parse error: its own
parentheses are taken for the outer pair, and its type is no item. -/
theorem parseRuleByPayload_single (parse : ParseRuleFunc) (item : List Char × List Char)
    (h : WellFormedItem item) (payload : String) (hp : payload.data = itemText item) :
    parseRuleByPayload payload parse = none := by
  have hb : balanced payload.data = true := by
    rw [hp]
    simp [balanced, scanDepth_item item 0 h]
  unfold parseRuleByPayload
  rw [if_pos hb, hp, itemText_eq, stripOuter_wrap _ (balanced_body item h)]
  simp only [Option.getD_some]
  rw [splitTop_plain item.1 _ 0 [] h.1]
  rw [splitTop]
  simp only [decide_True, Bool.and_self, if_true, List.append_nil, List.reverse_reverse,
    List.mapM_cons]
  rw [show payloadToRule parse item.1 = none from by
    unfold payloadToRule
    rw [stripOuter_plain item.1 (fun c hc => (h.1 c hc).2.1)]]
  rfl

/-- C22, as the model has it: `NewAND`, `NewOR` and `NewNOT` return an error
for every payload whose parentheses do not match, for the empty payload, for
`()` and `(())`, and for one item `(TYPE,PAYLOAD)` without the outer pair.
A list of one or more well-formed items in the outer pair, and a list of two
or more without it, parses to what the parse callback gives for the items in
order: when the callback fails on an item the three constructors return an
error, and otherwise `NewAND` and `NewOR` return a rule, and `NewNOT` returns
a rule when the list holds one item and an error when it holds more. -/
theorem ill_formed_payload_rejected (parse : ParseRuleFunc) (payload adapter : String) :
    (balanced payload.data = false →
      NewAND payload adapter parse = none ∧ NewOR payload adapter parse = none ∧
      NewNOT payload adapter parse = none) ∧
    ((payload = "" ∨ payload = "()" ∨ payload = "(())" ∨
        ∃ item, WellFormedItem item ∧ payload.data = itemText item) →
      NewAND payload adapter parse = none ∧ NewOR payload adapter parse = none ∧
      NewNOT payload adapter parse = none) ∧
    (∀ items, items ≠ [] → (∀ i ∈ items, WellFormedItem i) →
      (payload.data = '(' :: (joinItems items ++ [')']) ∨
        (payload.data = joinItems items ∧ 2 ≤ items.length)) →
      parseRuleByPayload payload parse = parseItems parse items ∧
      ((parseItems parse items).isSome = false →
        NewAND payload adapter parse = none ∧ NewOR payload adapter parse = none ∧
        NewNOT payload adapter parse = none) ∧
      ((parseItems parse items).isSome = true →
        (NewAND payload adapter parse).isSome = true ∧
        (NewOR payload adapter parse).isSome = true ∧
        ((NewNOT payload adapter parse).isSome = true ↔ items.length = 1))) := by
  have hnone : parseRuleByPayload payload parse = none →
      NewAND payload adapter parse = none ∧ NewOR payload adapter parse = none ∧
      NewNOT payload adapter parse = none := by
    intro hp
    simp [NewAND, NewOR, NewNOT, hp]
  refine ⟨?_, ?_, ?_⟩
  · intro hb
    exact hnone (by simp [parseRuleByPayload, hb])
  · rintro (h | h | h | ⟨item, hwf, hp⟩)
    · subst h
      exact hnone rfl
    · subst h
      exact hnone rfl
    · subst h
      exact hnone rfl
    · exact hnone (parseRuleByPayload_single parse item hwf payload hp)
  · intro items hne hwf hshape
    have hparse : parseRuleByPayload payload parse = parseItems parse items := by
      rcases hshape with hp | ⟨hp, hlen⟩
      · exact parseRuleByPayload_enclosed parse items hne hwf payload hp
      · exact parseRuleByPayload_bare parse items hlen hwf payload hp
    refine ⟨hparse, ?_, ?_⟩
    · intro hfail
      exact hnone (hparse.trans (by simpa using hfail))
    · intro hok
      cases hrules : parseItems parse items with
      | none =>
        rw [hrules] at hok
        simp at hok
      | some rules =>
        have hlen := parseItems_length parse items rules hrules
        rw [hrules] at hparse
        refine ⟨by simp [NewAND, hparse], by simp [NewOR, hparse], ?_⟩
        unfold NewNOT
        rw [hparse, ← hlen]
        match rules with
        | [] => simp
        | [_] => simp
        | _ :: _ :: _ => simp

/-- C22 on the ill-formed payloads of `TestAND` and `TestNOT`: a missing
leading `(`, two sub-rules for `NOT`, and the empty `(())`; and on a payload
with an item of an unknown rule type. -/
theorem ill_formed_payload_rejected_witness :
    balanced ("(DOMAIN,baidu.com),(NETWORK,TCP),(DST-PORT,10001-65535))" : String).data =
      false ∧
    NewAND "(DOMAIN,baidu.com),(NETWORK,TCP),(DST-PORT,10001-65535))" "DIRECT"
      (ParseRule 1) = none ∧
    NewNOT "((DST-PORT,5600-6666),(DOMAIN,baidu.com))" "DIRECT" (ParseRule 1) = none ∧
    NewNOT "(())" "DIRECT" (ParseRule 1) = none ∧
    NewAND "((FOO,bar),(DOMAIN,baidu.com))" "DIRECT" (ParseRule 1) = none :=
  ⟨by decide,
    ((ill_formed_payload_rejected (ParseRule 1)
      "(DOMAIN,baidu.com),(NETWORK,TCP),(DST-PORT,10001-65535))" "DIRECT").1
      (by decide)).1,
    Option.not_isSome_iff_eq_none.mp (fun hsome =>
      absurd ((((ill_formed_payload_rejected (ParseRule 1)
        "((DST-PORT,5600-6666),(DOMAIN,baidu.com))" "DIRECT").2.2
        [("DST-PORT".data, "5600-6666".data), ("DOMAIN".data, "baidu.com".data)]
        (by simp) (by decide) (Or.inl (by decide))).2.2 (by decide)).2.2.mp hsome)
        (by decide)),
    ((ill_formed_payload_rejected (ParseRule 1) "(())" "DIRECT").2.1
      (Or.inr (Or.inr (Or.inl rfl)))).2.2,
    (((ill_formed_payload_rejected (ParseRule 1) "((FOO,bar),(DOMAIN,baidu.com))"
      "DIRECT").2.2
      [("FOO".data, "bar".data), ("DOMAIN".data, "baidu.com".data)]
      (by simp) (by decide) (Or.inl (by decide))).2.1 (by decide)).1⟩

/-- C22 fails as stated: the payload `(DOMAIN,baidu.com),(NETWORK,TCP)` has
matching parentheses but is not enclosed in one outer pair, and `NewAND`,
`NewOR` parse it into two sub-rules without an error; it is the payload of
the nested `AND` in the third payload of `TestAND`, which parses without an
error as the test asserts. -/
theorem unenclosed_payload_accepted :
    stripOuter ("(DOMAIN,baidu.com),(NETWORK,TCP)" : String).data = none ∧
    (parseRuleByPayload "(DOMAIN,baidu.com),(NETWORK,TCP)" (ParseRule 1)).map List.length =
      some 2 ∧
    (NewAND "(DOMAIN,baidu.com),(NETWORK,TCP)" "DIRECT" (ParseRule 1)).isSome = true ∧
    (NewOR "(DOMAIN,baidu.com),(NETWORK,TCP)" "DIRECT" (ParseRule 1)).isSome = true ∧
    (NewAND "((AND,(DOMAIN,baidu.com),(NETWORK,TCP)),(NETWORK,TCP),(DST-PORT,10001-65535))"
      "DIRECT" (ParseRule 1)).isSome = true := by
  decide

/-! ## The resolver: the index into the address list -/

/-- C25, as the code has it: for every host and every resolver `r` that is
nil or keeps the contract of its `ResolveAll*` methods (a nil error comes
with at least one address), a nil error of `ResolveAllIPv4WithResolver`
(resp. `ResolveAllIPv6WithResolver`) comes with a non-empty list, so the
index `ips[rand.Intn(len(ips))]` is in bounds and `ResolveIPv4WithResolver`
(resp. `ResolveIPv6WithResolver`) returns, without a panic. -/
theorem resolve_index_in_bounds (g : Globals) (host : String) (r : Option Resolver)
    (tr : Trace) (hr : ∀ r', r = some r' → r'.Answers) :
    ((ResolveAllIPv4WithResolver g host r tr).1.2 = none →
      (ResolveAllIPv4WithResolver g host r tr).1.1 ≠ []) ∧
    ((ResolveAllIPv6WithResolver g host r tr).1.2 = none →
      (ResolveAllIPv6WithResolver g host r tr).1.1 ≠ []) ∧
    (ResolveIPv4WithResolver g host r tr).1 ≠ none ∧
    (ResolveIPv6WithResolver g host r tr).1 ≠ none :=
  ⟨ResolveAllIPv4WithResolver_nonempty g host r tr hr,
    ResolveAllIPv6WithResolver_nonempty g host r tr hr,
    pickOne_returns g _ (ResolveAllIPv4WithResolver_nonempty g host r tr hr),
    pickOne_returns g _ (ResolveAllIPv6WithResolver_nonempty g host r tr hr)⟩

/-- C25 with the resolver that answers every query with `1.2.3.4`: the
IPv4 function returns that address; and with the nil resolver and a system
resolver that knows no host: it returns the error of the system lookup. -/
theorem resolve_index_in_bounds_witness :
    (∀ r', globalsAnswering.DefaultResolver = some r' → r'.Answers) ∧
    (ResolveIPv4WithResolver globalsAnswering "example.com"
      globalsAnswering.DefaultResolver []).1 ≠ none ∧
    (ResolveIPv4WithResolver globalsAnswering "example.com"
      globalsAnswering.DefaultResolver []).1 = some (addr1234, none) ∧
    (ResolveIPv4WithResolver (globalsOf false noHosts none) "example.com" none []).1 =
      some (Addr.zero, some (Err.other "no such host")) :=
  ⟨globalsAnswering_answers,
    (resolve_index_in_bounds globalsAnswering "example.com"
      globalsAnswering.DefaultResolver [] globalsAnswering_answers).2.2.1,
    by decide, by decide⟩

/-- C25 fails as stated: for a resolver `r` whose `ResolveAllIPv4` and
`ResolveAllIPv6` answer with an empty list and a nil error, the
`ResolveAll*WithResolver` functions return that empty list with a nil error,
and `ResolveIPv4WithResolver` and `ResolveIPv6WithResolver` panic on
`rand.Intn(0)`. -/
theorem empty_answer_panics :
    ResolveAllIPv4WithResolver (globalsOf false noHosts none) "example.com"
      (some (constResolver Addr.zero [] none)) [] =
      (([], none),
        [Event.hostsSearch "example.com",
         Event.resolverCall Method.ResolveAllIPv4 "example.com"]) ∧
    ResolveAllIPv6WithResolver (globalsOf false noHosts none) "example.com"
      (some (constResolver Addr.zero [] none)) [] =
      (([], none),
        [Event.hostsSearch "example.com",
         Event.resolverCall Method.ResolveAllIPv6 "example.com"]) ∧
    (ResolveIPv4WithResolver (globalsOf false noHosts none) "example.com"
      (some (constResolver Addr.zero [] none)) []).1 = none ∧
    (ResolveIPv6WithResolver (globalsOf false noHosts none) "example.com"
      (some (constResolver Addr.zero [] none)) []).1 = none := by
  decide

/-! ## The executor: the IPv6 switches -/

/-- C26: after `updateDNS(dns, general.IPv6)` followed by
`updateGeneral(general, force)`, as `ApplyConfig` runs them,
`resolver.DisableIPv6` is false iff `general.IPv6` is true and DNS is
disabled or `dns.IPv6` is true, whatever the switches were before; a
configuration with `general.IPv6` false leaves IPv6 resolution disabled,
also when `dns.IPv6` is true. -/
theorem applyConfig_ipv6_switch (dns : DNS) (general : General) (s : Switches) :
    ((ApplyConfig dns general s).resolverDisableIPv6 = false ↔
      general.IPv6 = true ∧ (dns.Enable = false ∨ dns.IPv6 = true)) ∧
    (general.IPv6 = false → (ApplyConfig dns general s).resolverDisableIPv6 = true) := by
  rcases dns with ⟨enable, dns6⟩
  rcases general with ⟨g6⟩
  cases enable <;> cases dns6 <;> cases g6 <;>
    simp [ApplyConfig, updateDNS, updateGeneral]

/-! ## The listeners: the zero port -/

/-- A decimal digit is none of `:`, `[` and `]`. -/
theorem digitChar_plain (d : Nat) (h : d < 10) :
    Nat.digitChar d ≠ ':' ∧ Nat.digitChar d ≠ '[' ∧ Nat.digitChar d ≠ ']' := by
  interval_cases d <;> decide

/-- The digits that `Nat.toDigitsCore` adds are decimal digits. -/
theorem toDigitsCore_plain (fuel n : Nat) (acc : List Char)
    (hacc : ∀ c ∈ acc, c ≠ ':' ∧ c ≠ '[' ∧ c ≠ ']') :
    ∀ c ∈ Nat.toDigitsCore 10 fuel n acc, c ≠ ':' ∧ c ≠ '[' ∧ c ≠ ']' := by
  induction fuel generalizing n acc with
  | zero => simpa [Nat.toDigitsCore] using hacc
  | succ fuel ih =>
    have hcons : ∀ c ∈ Nat.digitChar (n % 10) :: acc, c ≠ ':' ∧ c ≠ '[' ∧ c ≠ ']' := by
      intro c hc
      rcases List.mem_cons.mp hc with h | h
      · rw [h]; exact digitChar_plain _ (Nat.mod_lt _ (by decide))
      · exact hacc c h
    unfold Nat.toDigitsCore
    by_cases h0 : n / 10 = 0
    · simp only [h0, if_true]
      exact hcons
    · simp only [h0, if_false]
      exact ih _ _ hcons

/-- The text of a port holds decimal digits only. -/
theorem formatPort_plain (port : Nat) :
    ∀ c ∈ (formatPort port).data, c ≠ ':' ∧ c ≠ '[' ∧ c ≠ ']' :=
  toDigitsCore_plain _ _ [] (by simp)

/-- `Nat.toDigitsCore` with fuel left gives at least one digit more. -/
theorem toDigitsCore_length_pos (fuel n : Nat) (acc : List Char) :
    acc.length < (Nat.toDigitsCore 10 (fuel + 1) n acc).length := by
  induction fuel generalizing n acc with
  | zero =>
    unfold Nat.toDigitsCore
    by_cases h0 : n / 10 = 0
    · simp [h0]
    · simp [h0, Nat.toDigitsCore]
  | succ fuel ih =>
    unfold Nat.toDigitsCore
    by_cases h0 : n / 10 = 0
    · simp [h0]
    · simp only [h0, if_false]
      have := ih (n / 10) (Nat.digitChar (n % 10) :: acc)
      simp only [List.length_cons] at this
      omega

/-- The text of a port is `0` exactly for the port 0, and never empty. -/
theorem formatPort_zero (port : Nat) :
    (formatPort port = "0" ↔ port = 0) ∧ formatPort port ≠ "" := by
  have hne : formatPort port ≠ "" := by
    intro h
    have hlen := toDigitsCore_length_pos port port []
    have hd : (formatPort port).data = [] := by rw [h]
    simp only [formatPort, Nat.toDigits] at hd
    rw [hd] at hlen
    simp at hlen
  refine ⟨⟨?_, ?_⟩, hne⟩
  · intro h
    by_contra hp
    have hd : Nat.toDigitsCore 10 (port + 1) port [] = ['0'] := by
      have := congrArg String.data h
      simpa [formatPort, Nat.toDigits] using this
    unfold Nat.toDigitsCore at hd
    by_cases h0 : port / 10 = 0
    · simp only [h0, if_true] at hd
      have hlt : port < 10 := by omega
      have hmod : port % 10 = port := Nat.mod_eq_of_lt hlt
      rw [hmod] at hd
      interval_cases port <;> simp_all [Nat.digitChar]
    · simp only [h0, if_false] at hd
      obtain ⟨k, hk⟩ : ∃ k, port = k + 1 := ⟨port - 1, by omega⟩
      subst hk
      have hlen := toDigitsCore_length_pos k ((k + 1) / 10) [Nat.digitChar ((k + 1) % 10)]
      rw [hd] at hlen
      simp at hlen
  · intro h
    subst h
    rfl

/-- The port that `net.SplitHostPort` cuts off a text ending in `:` and
decimal digits is these digits. -/
theorem SplitHostPort_port (s : String) (pre ds : List Char)
    (hs : s.data = pre ++ ':' :: ds) (hds : ∀ c ∈ ds, c ≠ ':')
    (host port : String) (h : SplitHostPort s = some (host, port)) :
    port = String.mk ds := by
  have hspan : s.data.reverse.span (fun c => c != ':') = (ds.reverse, ':' :: pre.reverse) := by
    rw [hs]
    have : (pre ++ ':' :: ds).reverse = ds.reverse ++ ':' :: pre.reverse := by simp
    rw [this]
    exact span_until _ _ _ _ (by
      intro c hc
      have := hds c (List.mem_reverse.mp hc)
      simpa using this) (by simp)
  unfold SplitHostPort at h
  rw [hspan] at h
  simp only [List.reverse_reverse] at h
  split at h
  · split at h
    · exact absurd h (by simp)
    · split at h
      · split at h
        · exact absurd h (by simp)
        · simp only [Option.some.injEq, Prod.mk.injEq] at h
          exact h.2.symm
      · exact absurd h (by simp)
  · split at h
    · exact absurd h (by simp)
    · split at h
      · exact absurd h (by simp)
      · simp only [Option.some.injEq, Prod.mk.injEq] at h
        exact h.2.symm

/-- On a text `host:digits` whose host holds none of `:`, `[` and `]`,
`net.SplitHostPort` returns the host and the digits. -/
theorem SplitHostPort_plain (s : String) (pre ds : List Char)
    (hs : s.data = pre ++ ':' :: ds)
    (hpre : ∀ c ∈ pre, c ≠ ':' ∧ c ≠ '[' ∧ c ≠ ']')
    (hds : ∀ c ∈ ds, c ≠ ':' ∧ c ≠ '[' ∧ c ≠ ']') :
    SplitHostPort s = some (String.mk pre, String.mk ds) := by
  have hspan : s.data.reverse.span (fun c => c != ':') = (ds.reverse, ':' :: pre.reverse) := by
    rw [hs]
    have : (pre ++ ':' :: ds).reverse = ds.reverse ++ ':' :: pre.reverse := by simp
    rw [this]
    exact span_until _ _ _ _ (by
      intro c hc
      have := (hds c (List.mem_reverse.mp hc)).1
      simpa using this) (by simp)
  have hcolon : ':' ∉ pre := fun hm => (hpre _ hm).1 rfl
  have hopen : '[' ∉ s.data := by
    intro hm
    rw [hs] at hm
    rcases List.mem_append.mp hm with h | h
    · exact (hpre _ h).2.1 rfl
    · rcases List.mem_cons.mp h with h | h
      · exact absurd h (by decide)
      · exact (hds _ h).2.1 rfl
  have hclose : ']' ∉ s.data := by
    intro hm
    rw [hs] at hm
    rcases List.mem_append.mp hm with h | h
    · exact (hpre _ h).2.2 rfl
    · rcases List.mem_cons.mp h with h | h
      · exact absurd h (by decide)
      · exact (hds _ h).2.2 rfl
  unfold SplitHostPort
  rw [hspan]
  simp only [List.reverse_reverse]
  split
  · rename_i rest heq
    exact absurd (by rw [heq]; simp) hopen
  · simp [hcolon, hopen, hclose]

/-- The text that `genAddr` builds ends in `:` and the digits of the port;
before them stands nothing, the host, or `127.0.0.1`. -/
theorem genAddr_data (host : String) (port : Nat) (allowLan : Bool) :
    (genAddr host port allowLan).data =
      (if allowLan then (if host = "*" then [] else host.data)
       else ("127.0.0.1" : String).data) ++ ':' :: (formatPort port).data := by
  unfold genAddr
  cases allowLan
  · simp [String.data_append]
  · by_cases hh : host = "*"
    · simp [hh, String.data_append]
    · simp [hh, String.data_append]

/-- C28, as the code has it: for every bind host, port and `allowLan` flag,
`portIsZero(genAddr(host, port, allowLan))` is true iff the port is 0 or
`net.SplitHostPort` refuses the address; when `allowLan` is false, or the
host is `*` or holds none of `:`, `[` and `]`, the address is not refused
and `portIsZero` is true iff the port is 0. -/
theorem portIsZero_genAddr (host : String) (port : Nat) (allowLan : Bool) :
    (portIsZero (genAddr host port allowLan) = true ↔
      port = 0 ∨ SplitHostPort (genAddr host port allowLan) = none) ∧
    ((allowLan = false ∨ host = "*" ∨ ∀ c ∈ host.data, c ≠ ':' ∧ c ≠ '[' ∧ c ≠ ']') →
      (portIsZero (genAddr host port allowLan) = true ↔ port = 0)) := by
  have hdata := genAddr_data host port allowLan
  have hplain := formatPort_plain port
  have hzero := formatPort_zero port
  have hgen : portIsZero (genAddr host port allowLan) = true ↔
      port = 0 ∨ SplitHostPort (genAddr host port allowLan) = none := by
    unfold portIsZero
    cases hsp : SplitHostPort (genAddr host port allowLan) with
    | none => simp
    | some hp =>
      rcases hp with ⟨h, p⟩
      have hport := SplitHostPort_port _ _ _ hdata (fun c hc => (hplain c hc).1) h p hsp
      have hp' : p = formatPort port := by rw [hport]
      subst hp'
      simp only [Bool.or_eq_true, beq_iff_eq, or_false, reduceCtorEq]
      constructor
      · rintro (h0 | h0)
        · exact hzero.1.mp h0
        · exact absurd h0 hzero.2
      · intro h0
        exact Or.inl (hzero.1.mpr h0)
  refine ⟨hgen, ?_⟩
  intro hhost
  have hpre : ∀ c ∈ (if allowLan then (if host = "*" then [] else host.data)
      else ("127.0.0.1" : String).data), c ≠ ':' ∧ c ≠ '[' ∧ c ≠ ']' := by
    cases allowLan with
    | false =>
      intro c hc
      simp only [Bool.false_eq_true, if_false] at hc
      revert c
      decide
    | true =>
      by_cases hh : host = "*"
      · simp [hh]
      · rcases hhost with h | h | h
        · exact absurd h (by simp)
        · exact absurd h hh
        · simpa [hh] using h
  have hok := SplitHostPort_plain _ _ _ hdata hpre hplain
  rw [hgen, hok]
  simp

/-- C28 on the bind address `*` with `allowLan` set and on the loopback
default: the ports 0 and 7890. -/
theorem portIsZero_genAddr_witness :
    portIsZero (genAddr "*" 0 true) = true ∧
    portIsZero (genAddr "*" 7890 true) = false ∧
    portIsZero (genAddr "192.168.1.1" 7890 false) = false ∧
    (portIsZero (genAddr "192.168.1.1" 7890 true) = true ↔ 7890 = 0) :=
  ⟨by decide, by decide, by decide,
    (portIsZero_genAddr "192.168.1.1" 7890 true).2 (Or.inr (Or.inr (by decide)))⟩

/-- C28 fails as stated: with `allowLan` set and the bind host `::1`, the
address of port 7890 is `::1:7890`, which `net.SplitHostPort` refuses for its
colons, and `portIsZero` is true although the port is not 0. -/
theorem portIsZero_unbracketed_ipv6 :
    genAddr "::1" 7890 true = "::1:7890" ∧
    SplitHostPort "::1:7890" = none ∧
    portIsZero (genAddr "::1" 7890 true) = true := by
  decide

/-! ## The listeners: re-applying a TUN configuration -/

/-- C27 fails in the code: when the stored `LastTunConf` holds an
`IncludeUID` list that is not in ascending order, `hasTunConfigChange`
returns true for the configuration equal to it field for field, since only
the lists of the new configuration are sorted before the comparison. -/
theorem unsorted_last_conf_reports_change {H P : Type} [DecidableEq H] [DecidableEq P]
    (addrLess : H → H → Bool) (buildString : P → String) (c : Tun H P)
    (h : sortSlice (fun a b => decide (a < b)) c.IncludeUID ≠ c.IncludeUID) :
    (hasTunConfigChange addrLess buildString c c).1 = true := by
  unfold hasTunConfigChange
  simp only [bne_self_eq_false, Bool.or_self, Bool.false_eq_true, if_false]
  split
  · rfl
  · rename_i hne
    simp only [Bool.or_eq_true, bne_iff_ne, ne_eq, not_or, not_not] at hne
    tauto

/-- C27 refuted on the configuration with `include-uid` 2, 1: stored as
`LastTunConf`, it is reported as changed when applied again. -/
theorem unsorted_last_conf_reports_change_witness :
    sortSlice (fun a b => decide (a < b)) tunUids.IncludeUID ≠ tunUids.IncludeUID ∧
    (hasTunConfigChange pairAddrLess id tunUids tunUids).1 = true :=
  ⟨by decide, unsorted_last_conf_reports_change pairAddrLess id tunUids (by decide)⟩

/-- The state with an unsorted `LastTunConf` is reached from the start: the
first `ReCreateTun` of the configuration differs from the zero value in a
scalar, so it is stored with its lists as written; the second `ReCreateTun`
of the same configuration closes the listener and creates a new one; only
the third leaves the listener in place. -/
theorem recreateTun_reload_scenario :
    let s1 := ReCreateTun pairAddrLess id newSucceeds tunUids tunStart
    let s2 := ReCreateTun pairAddrLess id newSucceeds tunUids s1
    let s3 := ReCreateTun pairAddrLess id newSucceeds tunUids s2
    s1.LastTunConf = tunUids ∧ s1.calls = [TunEvent.New] ∧
    s2.calls = [TunEvent.New, TunEvent.Close, TunEvent.New] ∧
    s2.LastTunConf.IncludeUID = [1, 2] ∧
    s3.calls = [TunEvent.New, TunEvent.Close, TunEvent.New,
      TunEvent.FlushDefaultInterface] := by
  decide

/-! ## The shadowsocks listeners: sends into the queues -/

/-- C24: for every datagram whose target address `socks5.SplitAddr` cuts out
of the buffer, `handleShadowsocksUDP` returns with the packet put at the end
of the queue when the queue has room, and with the queue unchanged
otherwise. `handleShadowsocks`, for every connection whose target address is
read, returns with the connection put at the end of the queue when the queue
has room; otherwise it is parked holding that connection, stays parked with
it while the queue is full, and puts it into the queue when woken on a queue
with room. -/
theorem shadowsocks_send_discipline {PC A T PA Conn CC : Type}
    (SplitAddr : List Nat → List Nat) (NewPacket : List Nat → Packet PC A → T → PA)
    (ReadAddr : Conn → Option (List Nat)) (NewSocket : List Nat → Conn → T → CC)
    (SHADOWSOCKS : T)
    (pc : PC) (buf : List Nat) (rAddr : A) (udpIn : Chan PA)
    (conn : Conn) (shadow : Conn → Conn) (tcpIn : Chan CC)
    (hsplit : (SplitAddr buf).length ≤ buf.length) :
    (let x := NewPacket (SplitAddr buf)
        { pc := pc, rAddr := rAddr, payload := buf.drop (SplitAddr buf).length,
          bufRef := buf } SHADOWSOCKS
     (udpIn.buf.length < udpIn.cap →
        handleShadowsocksUDP SplitAddr NewPacket SHADOWSOCKS pc buf rAddr udpIn =
          some { udpIn with buf := udpIn.buf ++ [x] }) ∧
     (udpIn.cap ≤ udpIn.buf.length →
        handleShadowsocksUDP SplitAddr NewPacket SHADOWSOCKS pc buf rAddr udpIn =
          some udpIn)) ∧
    (∀ tgt, ReadAddr (shadow conn) = some tgt →
      let y := NewSocket tgt (shadow conn) SHADOWSOCKS
      let out := handleShadowsocks ReadAddr NewSocket SHADOWSOCKS conn shadow tcpIn
      (tcpIn.buf.length < tcpIn.cap →
        out = SendOutcome.returned { tcpIn with buf := tcpIn.buf ++ [y] }) ∧
      (tcpIn.cap ≤ tcpIn.buf.length →
        out = SendOutcome.parked y tcpIn ∧
        (∀ ch : Chan CC, ch.cap ≤ ch.buf.length →
          out.resume ch = SendOutcome.parked y ch) ∧
        (∀ ch : Chan CC, ch.buf.length < ch.cap →
          out.resume ch = SendOutcome.returned { ch with buf := ch.buf ++ [y] }))) := by
  refine ⟨⟨?_, ?_⟩, ?_⟩
  · intro hroom
    simp [handleShadowsocksUDP, hsplit, Chan.trySend, Chan.enqueue, hroom]
  · intro hfull
    simp [handleShadowsocksUDP, hsplit, Chan.trySend, Nat.not_lt.mpr hfull]
  · intro tgt htgt
    refine ⟨?_, ?_⟩
    · intro hroom
      simp [handleShadowsocks, htgt, Chan.send, Chan.enqueue, hroom]
    · intro hfull
      have hout : handleShadowsocks ReadAddr NewSocket SHADOWSOCKS conn shadow tcpIn =
          SendOutcome.parked (NewSocket tgt (shadow conn) SHADOWSOCKS) tcpIn := by
        simp [handleShadowsocks, htgt, Chan.send, Nat.not_lt.mpr hfull]
      refine ⟨hout, ?_, ?_⟩
      · intro ch hch
        simp only [hout]
        simp [SendOutcome.resume, Chan.send, Nat.not_lt.mpr hch]
      · intro ch hch
        simp only [hout]
        simp [SendOutcome.resume, Chan.send, Chan.enqueue, hch]

/-- C24 on a full queue of capacity 1: the datagram to 10.0.0.1:53 is dropped
and the queue keeps its one packet. -/
theorem shadowsocks_send_discipline_witness :
    (splitAddr7 datagram53).length ≤ datagram53.length ∧
    handleShadowsocksUDP splitAddr7 newPacketPair () () datagram53 4242
        { cap := 1, buf := [([1, 10, 0, 0, 9, 0, 53], [0])] } =
      some { cap := 1, buf := [([1, 10, 0, 0, 9, 0, 53], [0])] } :=
  ⟨by decide,
    (shadowsocks_send_discipline splitAddr7 newPacketPair readAddrByConn newSocketPair ()
      () datagram53 4242 { cap := 1, buf := [([1, 10, 0, 0, 9, 0, 53], [0])] }
      5 id { cap := 1, buf := [] } (by decide)).1.2 (by decide)⟩

/-- The two listeners on concrete queues: a datagram is put into a queue with
room and dropped on a full one; a connection is put into a queue with room,
is parked on a full one and is put into the queue once a receiver has taken
the oldest value; a connection whose target address is not read is not
sent. -/
theorem shadowsocks_listeners_run :
    handleShadowsocksUDP splitAddr7 newPacketPair () () datagram53 4242
        { cap := 2, buf := [([1, 10, 0, 0, 9, 0, 53], [0])] } =
      some { cap := 2, buf := [([1, 10, 0, 0, 9, 0, 53], [0]),
        ([1, 10, 0, 0, 1, 0, 53], [7, 7])] } ∧
    handleShadowsocks readAddrByConn newSocketPair () 5 id
        { cap := 1, buf := [] } =
      SendOutcome.returned { cap := 1, buf := [([1, 10, 0, 0, 5, 0, 80], 5)] } ∧
    handleShadowsocks readAddrByConn newSocketPair () 6 id
        { cap := 1, buf := [([1, 10, 0, 0, 5, 0, 80], 5)] } =
      SendOutcome.parked ([1, 10, 0, 0, 6, 0, 80], 6)
        { cap := 1, buf := [([1, 10, 0, 0, 5, 0, 80], 5)] } ∧
    (handleShadowsocks readAddrByConn newSocketPair () 6 id
        { cap := 1, buf := [([1, 10, 0, 0, 5, 0, 80], 5)] }).resume
        { cap := 1, buf := [] } =
      SendOutcome.returned { cap := 1, buf := [([1, 10, 0, 0, 6, 0, 80], 6)] } ∧
    handleShadowsocks readAddrByConn newSocketPair () 0 id
        { cap := 1, buf := [] } =
      SendOutcome.returned { cap := 1, buf := [] } := by
  decide

/-! ## The UDP handler: dials per flow key -/

/-- C23 fails in the code: a call of `handleUDPConn` whose first `handle()`
found no connection may reach `GetOrCreateLock` after the call that installed
the connection has deleted the lock; it then wins a new lock and calls
`ListenPacketContext` while the table holds a connection for the key, and its
`Set` replaces that connection. -/
theorem second_dial_while_entry_exists :
    (UdpSys.run mapTable udpEnvOk (scheduleLateLock.take 9) (UdpSys.start emptyTable 2)) =
      { natTable := { entry := some 100, lock := none },
        points := [UdpPoint.returned, UdpPoint.getOrCreateLock],
        dials := [(0, false)], forwards := [(0, 100)] } ∧
    (UdpSys.run mapTable udpEnvOk scheduleLateLock (UdpSys.start emptyTable 2)) =
      { natTable := { entry := some 101, lock := none },
        points := [UdpPoint.returned, UdpPoint.returned],
        dials := [(0, false), (1, true)], forwards := [(0, 100), (1, 101)] } := by
  decide

/-- The interleaving that the lock is made for: the second call finds the
lock, parks, and is woken after the connection is installed; one call of
`ListenPacketContext` is made and both packets are forwarded on it. -/
theorem parked_call_is_forwarded :
    (UdpSys.run mapTable udpEnvOk scheduleParked (UdpSys.start emptyTable 2)) =
      { natTable := { entry := some 100, lock := none },
        points := [UdpPoint.returned, UdpPoint.returned],
        dials := [(0, false)], forwards := [(0, 100), (1, 100)] } := by
  decide

end Clash
